import Mathlib

/-!
# go6502: status register, memory, stack, interrupts, addressing modes, execution

A shallow embedding of the status register (`cpu/status.go`), the 64K memory
(`memory/mem.go`), the stack, interrupt-vector and interrupt-service operations
of the engine and its fetch-decode-execute loop (`cpu/cpu.go`), the addressing
modes (`cpu/addressing_modes.go`) and the instruction handlers
(`cpu/instruction_handlers.go`).

Conventions of the embedding:

* a Go `byte`/`uint8` is a `Nat` below `256`, a `uint16` a `Nat` below `65536`;
  wrap-around of the fixed-width types is written out as `% 256` / `% 65536`
  at the place where the Go operation can overflow;
* a Go `error` result is the `Except` type: `nil` is `.ok`;
* a method with a pointer receiver that mutates it returns the new receiver
  together with its result;
* a handler's `targetAddress *uint16` is an optional address; dereferencing nil,
  a run-time panic in Go, is the error `nilDereference`.
-/

/-- Go `error` values, reduced to their message. -/
abbrev Error := String

/-- Model of `errors.Wrapf` / `errors.Wrap`: prefixes a message to an error. -/
def Wrapf (err : Error) (msg : String) : Error := msg ++ ": " ++ err

namespace memory

/-- Two-byte array `[2]byte`, as the pair `(bytes[0], bytes[1])`. -/
abbrev Bytes2 := Nat × Nat

/-- Go `WordToBytes`: `binary.BigEndian.PutUint16` stores `byte(word >> 8)` in
`bytes[0]` and `byte(word)` in `bytes[1]`; the two are then swapped. -/
def WordToBytes (word : Nat) : Bytes2 :=
  let bytes : Bytes2 := ((word >>> 8) % 256, word % 256)
  -- Reverse byte order
  (bytes.2, bytes.1)

/-- Go `BytesToWord`: `binary.LittleEndian.Uint16`, that is
`uint16(b[0]) | uint16(b[1])<<8`; the error is always nil. -/
def BytesToWord (bytes : Bytes2) : Except Error Nat :=
  .ok (bytes.1 ||| ((bytes.2 <<< 8) % 65536))

/-- The memory: `Mem [0xFFFF + 1]byte`, indexed by address. -/
structure Memory where
  Mem : Nat → Nat

/-- Every cell of the memory holds a byte. -/
def Memory.WF (m : Memory) : Prop := ∀ a, m.Mem a < 256

/-- Go `Memory.ReadWord`: reads `Mem[loc]` and `Mem[loc+1]` (a `uint16` sum) and
decodes them with `BytesToWord`. -/
def Memory.ReadWord (m : Memory) (loc : Nat) : Except Error Nat :=
  let rawWord : Bytes2 := (m.Mem loc, m.Mem ((loc + 1) % 65536))
  match BytesToWord rawWord with
  | .error err => .error (Wrapf err "Error converting raw bytes to word")
  | .ok word => .ok word

/-- Go `Memory.WriteWord`: splits the word and writes both bytes. -/
def Memory.WriteWord (m : Memory) (loc word : Nat) : Memory × Except Error Unit :=
  let rawWord := WordToBytes word
  let m1 : Memory := { m with Mem := Function.update m.Mem loc rawWord.1 }
  let m2 : Memory := { m1 with Mem := Function.update m1.Mem ((loc + 1) % 65536) rawWord.2 }
  (m2, .ok ())

/-- Go `Memory.ReadByte`. -/
def Memory.ReadByte (m : Memory) (loc : Nat) : Except Error Nat :=
  let memByte := m.Mem loc
  .ok memByte

/-- Go `Memory.WriteByte`. -/
def Memory.WriteByte (m : Memory) (loc memByte : Nat) : Memory × Except Error Unit :=
  ({ m with Mem := Function.update m.Mem loc memByte }, .ok ())

end memory

namespace cpu

open memory

/-- The six persistent flags of the status register. -/
structure Status where
  Negative : Bool
  Overflow : Bool
  Decimal : Bool
  InterruptDisable : Bool
  Zero : Bool
  Carry : Bool
deriving DecidableEq, Repr

/-- Go `Status.AsByte`: the flags are put in bit order in an array of eight
booleans and the loop sets bit `0x80 >> i` for every true entry. -/
def Status.AsByte (f : Status) (bFlag : Bool) : Nat :=
  let status : List Bool :=
    [f.Negative, f.Overflow, true, bFlag, f.Decimal, f.InterruptDisable, f.Zero, f.Carry]
  (List.range 8).foldl
    (fun statusByte i => if status.getD i false then statusByte ||| (0x80 >>> i) else statusByte)
    0

/-- The array of flag pointers of `Status.FromByte`: entry `i` is the setter of
the flag stored at position `i`, or `none` for the two unused positions. -/
def Status.fromByteTargets : List (Option (Status → Bool → Status)) :=
  [some (fun f v => { f with Negative := v }),
   some (fun f v => { f with Overflow := v }),
   none,
   none,
   some (fun f v => { f with Decimal := v }),
   some (fun f v => { f with InterruptDisable := v }),
   some (fun f v => { f with Zero := v }),
   some (fun f v => { f with Carry := v })]

/-- Go `Status.FromByte`: for every position with a flag, the flag becomes
`(statusByte >> (7 - i)) & 1 == 1`. -/
def Status.FromByte (f : Status) (statusByte : Nat) : Status :=
  (List.range 8).foldl
    (fun f i =>
      match Status.fromByteTargets.getD i none with
      | none => f
      | some set => set f (decide ((statusByte >>> (7 - i)) &&& 1 = 1)))
    f

/-- Interrupt type `NMI`. -/
def NMI : String := "NMI"

/-- Interrupt type `RST`. -/
def RST : String := "RST"

/-- Interrupt type `IRQ`. -/
def IRQ : String := "IRQ"

/-- Interrupt type `BRK`. -/
def BRK : String := "BRK"

/-- The entries of the map `interruptVectorLocations`. -/
def interruptVectorEntries : List (String × Nat) :=
  [(NMI, 0xFFFA), (RST, 0xFFFC), (IRQ, 0xFFFE), (BRK, 0xFFFE)]

/-- The map `interruptVectorLocations`, indexed as Go indexes a map: a key
that is absent yields the zero value. -/
def interruptVectorLocations (interruptType : String) : Nat :=
  (interruptVectorEntries.lookup interruptType).getD 0

/-- Go `stackAddress`: `BytesToWord` applied to the array `{0x01, stackPointer}`. -/
def stackAddress (stackPointer : Nat) : Except Error Nat :=
  match BytesToWord (0x01, stackPointer) with
  | .error err => .error (Wrapf err "Error converting stack pointer to real address")
  | .ok address => .ok address

/-- Modelled from the spec: the instruction descriptor type `Instruction`,
declared in a file that is not part of the sources; the fields are the ones
the engine reads (opcode, mnemonic, addressing mode tag, size in bytes). -/
structure Instruction where
  Opcode : Nat
  Mnemonic : String
  Mode : String
  Size : Nat

/-- The engine state `Go6502`. The list of registered addons, which are host
objects, is left out. -/
structure Go6502 where
  X : Nat
  Y : Nat
  A : Nat
  SP : Nat
  PC : Nat
  Stat : Status
  Mem : Memory
  interruptOccurred : Bool
  currentInterruptType : String
  CurrentInstruction : Instruction
  shouldStopPCAutoIncrement : Bool
  shouldStopEmulation : Bool
  enableAddons : Bool

/-- Go `Go6502.PushByteToStack`: writes at the stack address of `SP`, then
decrements `SP` (a byte, so the decrement wraps). -/
def Go6502.PushByteToStack (g6 : Go6502) (data : Nat) : Go6502 × Except Error Unit :=
  match stackAddress g6.SP with
  | .error err => (g6, .error (Wrapf err "Error pushing byte to stack position"))
  | .ok actualAddress =>
    match g6.Mem.WriteByte actualAddress data with
    | (mem, .error err) =>
      ({ g6 with Mem := mem }, .error (Wrapf err "Error pushing byte to stack position"))
    | (mem, .ok _) =>
      ({ g6 with Mem := mem, SP := (g6.SP + 255) % 256 }, .ok ())

/-- Go `Go6502.PopByteOffStack`: increments `SP` (wrapping), then reads at the
stack address of the new `SP`. -/
def Go6502.PopByteOffStack (g6 : Go6502) : Go6502 × Except Error Nat :=
  let g6 : Go6502 := { g6 with SP := (g6.SP + 1) % 256 }
  match stackAddress g6.SP with
  | .error err => (g6, .error (Wrapf err "Error pulling byte off stack position"))
  | .ok actualAddress =>
    match g6.Mem.ReadByte actualAddress with
    | .error err => (g6, .error (Wrapf err "Error pulling byte off stack position"))
    | .ok data => (g6, .ok data)

/-- Go `Go6502.PushWordToStack`: pushes `bytes[0]`, then `bytes[1]` of the split
word. -/
def Go6502.PushWordToStack (g6 : Go6502) (data : Nat) : Go6502 × Except Error Unit :=
  let bytes := WordToBytes data
  match g6.PushByteToStack bytes.1 with
  | (g6, .error err) => (g6, .error (Wrapf err "Error pushing first byte of word to stack"))
  | (g6, .ok _) =>
    match g6.PushByteToStack bytes.2 with
    | (g6, .error err) => (g6, .error (Wrapf err "Error pushing second byte of word to stack"))
    | (g6, .ok _) => (g6, .ok ())

/-- Go `Go6502.PopWordOffStack`: pops `bytes[1]`, then `bytes[0]`, and joins
them with `BytesToWord`. -/
def Go6502.PopWordOffStack (g6 : Go6502) : Go6502 × Except Error Nat :=
  match g6.PopByteOffStack with
  | (g6, .error err) => (g6, .error (Wrapf err "Error popping first byte of word off stack"))
  | (g6, .ok b1) =>
    match g6.PopByteOffStack with
    | (g6, .error err) => (g6, .error (Wrapf err "Error popping second byte of word off stack"))
    | (g6, .ok b0) =>
      match BytesToWord (b0, b1) with
      | .error err => (g6, .error (Wrapf err "Error turning popped bytes into word"))
      | .ok data => (g6, .ok data)

/-- Go `Go6502.GetInterruptVector`: the word stored at the location of the
interrupt type. -/
def Go6502.GetInterruptVector (g6 : Go6502) (interruptType : String) : Except Error Nat :=
  let location := interruptVectorLocations interruptType
  match g6.Mem.ReadWord location with
  | .error err => .error (Wrapf err "Error retrieving interrupt vector from mem")
  | .ok vector => .ok vector

/-- The push loop of the stack tests: pushes the bytes in order, stopping at
the first error. -/
def Go6502.pushBytes (g6 : Go6502) : List Nat → Go6502 × Except Error Unit
  | [] => (g6, .ok ())
  | b :: rest =>
    match g6.PushByteToStack b with
    | (g6, .error err) => (g6, .error err)
    | (g6, .ok _) => Go6502.pushBytes g6 rest

/-- The pop loop of the stack tests: pops `n` bytes and returns them in the
order they came off the stack, stopping at the first error. -/
def Go6502.popBytes (g6 : Go6502) : Nat → Go6502 × Except Error (List Nat)
  | 0 => (g6, .ok [])
  | n + 1 =>
    match g6.PopByteOffStack with
    | (g6, .error err) => (g6, .error err)
    | (g6, .ok b) =>
      match Go6502.popBytes g6 n with
      | (g6, .error err) => (g6, .error err)
      | (g6, .ok bs) => (g6, .ok (b :: bs))

/-- The push loop of the word stack test. -/
def Go6502.pushWords (g6 : Go6502) : List Nat → Go6502 × Except Error Unit
  | [] => (g6, .ok ())
  | w :: rest =>
    match g6.PushWordToStack w with
    | (g6, .error err) => (g6, .error err)
    | (g6, .ok _) => Go6502.pushWords g6 rest

/-- The pop loop of the word stack test: pops `n` words, in pop order. -/
def Go6502.popWords (g6 : Go6502) : Nat → Go6502 × Except Error (List Nat)
  | 0 => (g6, .ok [])
  | n + 1 =>
    match g6.PopWordOffStack with
    | (g6, .error err) => (g6, .error err)
    | (g6, .ok w) =>
      match Go6502.popWords g6 n with
      | (g6, .error err) => (g6, .error err)
      | (g6, .ok ws) => (g6, .ok (w :: ws))

/-- The byte sequence that `pushWords` pushes: for each word `bytes[0]`, then
`bytes[1]` of `WordToBytes`. -/
def wordBytes : List Nat → List Nat
  | [] => []
  | w :: rest => (WordToBytes w).1 :: (WordToBytes w).2 :: wordBytes rest

/-- The zero value of `Instruction`. -/
def Instruction.zero : Instruction :=
  { Opcode := 0, Mnemonic := "", Mode := "", Size := 0 }

/-- The zero value `new(Go6502)` the tests start from. -/
def Go6502.zero : Go6502 :=
  { X := 0, Y := 0, A := 0, SP := 0, PC := 0
    Stat := ⟨false, false, false, false, false, false⟩
    Mem := { Mem := fun _ => 0 }
    interruptOccurred := false
    currentInterruptType := ""
    CurrentInstruction := Instruction.zero
    shouldStopPCAutoIncrement := false
    shouldStopEmulation := false
    enableAddons := false }

/-- Go `Go6502.nonRSTInterrupt`: pushes `PC` as a word, then the status byte
with the break bit set exactly for `BRK`. -/
def Go6502.nonRSTInterrupt (g6 : Go6502) (interruptType : String) :
    Go6502 × Except Error Unit :=
  match g6.PushWordToStack g6.PC with
  | (g6, .error err) =>
    (g6, .error (Wrapf err "Error while handling interrupt, couldn't push PC to stack"))
  | (g6, .ok _) =>
    -- If interrupt was caused by software, bFlag needs to be set
    let isSoftwareInterrupt : Bool := decide (interruptType = BRK)
    match g6.PushByteToStack (g6.Stat.AsByte isSoftwareInterrupt) with
    | (g6, .error err) =>
      (g6, .error (Wrapf err "Error while handling interrupt, couldn't push status to stack"))
    | (g6, .ok _) => (g6, .ok ())

/-- Go `Go6502.HandleInterrupts`: every type but `RST` pushes `PC` and the
status; then the vector is read, `InterruptDisable` is set, `PC` becomes the
vector and the latch is cleared. -/
def Go6502.HandleInterrupts (g6 : Go6502) : Go6502 × Except Error Unit :=
  let interruptType := g6.currentInterruptType
  let pushed : Go6502 × Except Error Unit :=
    if interruptType ≠ RST then
      match g6.nonRSTInterrupt interruptType with
      | (g6, .error err) => (g6, .error (Wrapf err "Error while handling non-RST interrupt"))
      | (g6, .ok _) => (g6, .ok ())
    else (g6, .ok ())
  match pushed with
  | (g6, .error err) => (g6, .error err)
  | (g6, .ok _) =>
    -- Find location of interrupt handler
    match g6.GetInterruptVector interruptType with
    | .error err =>
      (g6, .error (Wrapf err "Error while handling interrupt, couldn't get vector"))
    | .ok interruptVector =>
      -- Start executing interrupt code
      let g6 : Go6502 := { g6 with Stat := { g6.Stat with InterruptDisable := true } }
      let g6 : Go6502 := { g6 with PC := interruptVector }
      -- Clean up
      let g6 : Go6502 := { g6 with currentInterruptType := "" }
      let g6 : Go6502 := { g6 with interruptOccurred := false }
      (g6, .ok ())

/-- Go conversion `int8(v)` of an unsigned value: the low eight bits read as a
two's complement number. -/
def int8 (v : Nat) : Int :=
  if v % 256 < 128 then (v % 256 : Nat) else ((v % 256 : Nat) : Int) - 256

/-- Go conversion `int16(v)` of an unsigned value: the low sixteen bits read as
a two's complement number. -/
def int16 (v : Nat) : Int :=
  if v % 65536 < 32768 then (v % 65536 : Nat) else ((v % 65536 : Nat) : Int) - 65536

/-- Wrap-around of `int16` arithmetic: the representative of `i` modulo
`65536` in `-32768 .. 32767`. -/
def wrapInt16 (i : Int) : Int := (i + 32768) % 65536 - 32768

/-- Go conversion `uint16(i)` of a signed value. -/
def uint16 (i : Int) : Nat := (i % 65536).toNat

/-- Go `zeroPageAddress`: `BytesToWord` applied to the array `{addr, 0x00}`. -/
def zeroPageAddress (addr : Nat) : Except Error Nat :=
  BytesToWord (addr, 0x00)

/-- Go `immediate`. -/
def immediate (g6 : Go6502) : Except Error Nat :=
  .ok ((g6.PC + 1) % 65536)

/-- Go `zeroPage`. -/
def zeroPage (g6 : Go6502) : Except Error Nat :=
  match g6.Mem.ReadByte ((g6.PC + 1) % 65536) with
  | .error err => .error err
  | .ok immediateByte =>
    match zeroPageAddress immediateByte with
    | .error err => .error err
    | .ok addr => .ok addr

/-- Go `zeroPageX`: the byte sum `immediateByte + g6.X` wraps. -/
def zeroPageX (g6 : Go6502) : Except Error Nat :=
  match g6.Mem.ReadByte ((g6.PC + 1) % 65536) with
  | .error err => .error err
  | .ok immediateByte =>
    match zeroPageAddress ((immediateByte + g6.X) % 256) with
    | .error err => .error err
    | .ok addr => .ok addr

/-- Go `zeroPageY`: the byte sum `immediateByte + g6.Y` wraps. -/
def zeroPageY (g6 : Go6502) : Except Error Nat :=
  match g6.Mem.ReadByte ((g6.PC + 1) % 65536) with
  | .error err => .error err
  | .ok immediateByte =>
    match zeroPageAddress ((immediateByte + g6.Y) % 256) with
    | .error err => .error err
    | .ok addr => .ok addr

/-- Go `absolute`. -/
def absolute (g6 : Go6502) : Except Error Nat :=
  match g6.Mem.ReadWord ((g6.PC + 1) % 65536) with
  | .error err => .error err
  | .ok addr => .ok addr

/-- Go `absoluteX`: `addr += uint16(g6.X)`, a 16-bit sum. -/
def absoluteX (g6 : Go6502) : Except Error Nat :=
  match g6.Mem.ReadWord ((g6.PC + 1) % 65536) with
  | .error err => .error err
  | .ok addr => .ok ((addr + g6.X) % 65536)

/-- Go `absoluteY`: `addr += uint16(g6.Y)`, a 16-bit sum. -/
def absoluteY (g6 : Go6502) : Except Error Nat :=
  match g6.Mem.ReadWord ((g6.PC + 1) % 65536) with
  | .error err => .error err
  | .ok addr => .ok ((addr + g6.Y) % 65536)

/-- Go `relative`:
`uint16(int16(g6.PC+2) + int16(int8(immediateByte)))`. -/
def relative (g6 : Go6502) : Except Error Nat :=
  match g6.Mem.ReadByte ((g6.PC + 1) % 65536) with
  | .error err => .error err
  | .ok immediateByte =>
    let targetAddress : Int := wrapInt16 (int16 ((g6.PC + 2) % 65536) + int8 immediateByte)
    .ok (uint16 targetAddress)

/-- Go `indirect`. -/
def indirect (g6 : Go6502) : Except Error Nat :=
  match g6.Mem.ReadWord ((g6.PC + 1) % 65536) with
  | .error err => .error err
  | .ok immediateWord =>
    match g6.Mem.ReadWord immediateWord with
    | .error err => .error err
    | .ok addr => .ok addr

/-- Go `indirectX`. -/
def indirectX (g6 : Go6502) : Except Error Nat :=
  match g6.Mem.ReadByte ((g6.PC + 1) % 65536) with
  | .error err => .error err
  | .ok immediateByte =>
    match zeroPageAddress ((immediateByte + g6.X) % 256) with
    | .error err => .error err
    | .ok addrLoc =>
      match g6.Mem.ReadWord addrLoc with
      | .error err => .error err
      | .ok addr => .ok addr

/-- Go `indirectY`. -/
def indirectY (g6 : Go6502) : Except Error Nat :=
  match g6.Mem.ReadByte ((g6.PC + 1) % 65536) with
  | .error err => .error err
  | .ok immediateByte =>
    match zeroPageAddress immediateByte with
    | .error err => .error err
    | .ok addrLoc =>
      match g6.Mem.ReadWord addrLoc with
      | .error err => .error err
      | .ok addr => .ok ((addr + g6.Y) % 65536)

/-- Go `setZeroNegativeFlags`: `Zero = val == 0`, `Negative = int8(val) > 0`. -/
def setZeroNegativeFlags (g6 : Go6502) (val : Nat) : Go6502 :=
  let g6 : Go6502 := { g6 with Stat := { g6.Stat with Zero := decide (val = 0) } }
  { g6 with Stat := { g6.Stat with Negative := decide (int8 val > 0) } }

/-- Go `setCarryFlag`: `Carry = (val & 0xFF00) != 0`, on a 16-bit value. -/
def setCarryFlag (g6 : Go6502) (val : Nat) : Go6502 :=
  { g6 with Stat := { g6.Stat with Carry := decide (val &&& 0xFF00 ≠ 0) } }

/-- Go `setOverflowFlag`: `Overflow = (originalVal & 0x80) != (val & 0x80)`. -/
def setOverflowFlag (g6 : Go6502) (val originalVal : Nat) : Go6502 :=
  { g6 with Stat := { g6.Stat with Overflow := decide (originalVal &&& 0x80 ≠ val &&& 0x80) } }

/-- The error that stands for the Go run-time panic of dereferencing a nil
`targetAddress`. -/
def nilDereference : Error := "runtime error: invalid memory address or nil pointer dereference"

/-- The handler type `InstructionHandler`; the pointer `targetAddress` is an
optional address, `none` being nil. -/
abbrev InstructionHandler := Go6502 → Option Nat → Go6502 × Except Error Unit

/-- The entry `"ADC"` of `InstructionHandlers`. -/
def InstructionHandlers.ADC : InstructionHandler := fun g6 targetAddress =>
  match targetAddress with
  | none => (g6, .error nilDereference)
  | some addr =>
    -- Read byte from target address
    match g6.Mem.ReadByte addr with
    | .error err => (g6, .error err)
    | .ok val =>
      -- Add it all up, cast to uint16 to calculate carry
      let total : Nat := (g6.A + val) % 65536
      let total : Nat := if g6.Stat.Carry then (total + 1) % 65536 else total
      -- Calculate flags
      let g6 := setCarryFlag g6 total
      let g6 := setZeroNegativeFlags g6 (total % 256)
      let g6 := setOverflowFlag g6 (total % 256) g6.A
      -- Put back in accumulator
      ({ g6 with A := total % 256 }, .ok ())

/-- The entry `"LDA"` of `InstructionHandlers`. -/
def InstructionHandlers.LDA : InstructionHandler := fun g6 targetAddress =>
  match targetAddress with
  | none => (g6, .error nilDereference)
  | some addr =>
    match g6.Mem.ReadByte addr with
    | .error err => (g6, .error err)
    | .ok val =>
      let g6 : Go6502 := { g6 with A := val }
      (setZeroNegativeFlags g6 val, .ok ())

/-- The entry `"LDX"` of `InstructionHandlers`. -/
def InstructionHandlers.LDX : InstructionHandler := fun g6 targetAddress =>
  match targetAddress with
  | none => (g6, .error nilDereference)
  | some addr =>
    match g6.Mem.ReadByte addr with
    | .error err => (g6, .error err)
    | .ok val =>
      let g6 : Go6502 := { g6 with X := val }
      (setZeroNegativeFlags g6 val, .ok ())

/-- The entry `"LDY"` of `InstructionHandlers`. -/
def InstructionHandlers.LDY : InstructionHandler := fun g6 targetAddress =>
  match targetAddress with
  | none => (g6, .error nilDereference)
  | some addr =>
    match g6.Mem.ReadByte addr with
    | .error err => (g6, .error err)
    | .ok val =>
      let g6 : Go6502 := { g6 with Y := val }
      (setZeroNegativeFlags g6 val, .ok ())

/-- The entry `"RTI"` of `InstructionHandlers`: pops the status byte, loads it
with `FromByte`, pops the return address into `PC` and stops the automatic
increment of `PC`. -/
def InstructionHandlers.RTI : InstructionHandler := fun g6 _ =>
  match g6.PopByteOffStack with
  | (g6, .error err) =>
    (g6, .error (Wrapf err "Couldn't retrieve status register from stack"))
  | (g6, .ok statusRegister) =>
    let g6 : Go6502 := { g6 with Stat := g6.Stat.FromByte statusRegister }
    match g6.PopWordOffStack with
    | (g6, .error err) =>
      (g6, .error (Wrapf err "Couldn't retrieve return address from stack"))
    | (g6, .ok returnAddress) =>
      ({ g6 with PC := returnAddress, shouldStopPCAutoIncrement := true }, .ok ())

/-- The entry `"AND"` of `InstructionHandlers`. -/
def InstructionHandlers.AND : InstructionHandler := fun g6 targetAddress =>
  match targetAddress with
  | none => (g6, .error nilDereference)
  | some addr =>
    match g6.Mem.ReadByte addr with
    | .error err => (g6, .error err)
    | .ok val =>
      -- And with accumulator
      let g6 : Go6502 := { g6 with A := g6.A &&& val }
      (setZeroNegativeFlags g6 g6.A, .ok ())

/-- The body shared, word for word, by the entries `"ASL"` and `"ROL"`: the
operand is the accumulator in mode `"ACC"` and the cell at the target address
otherwise; it is shifted left by one bit in 16 bits, truncated and written
back; Zero and Negative come from the byte, Carry from the 16-bit value. -/
def InstructionHandlers.shiftLeft : InstructionHandler := fun g6 targetAddress =>
  let read : Go6502 × Except Error Nat :=
    if g6.CurrentInstruction.Mode = "ACC" then (g6, .ok g6.A)
    else
      match targetAddress with
      | none => (g6, .error nilDereference)
      | some addr =>
        match g6.Mem.ReadByte addr with
        | .error err => (g6, .error err)
        | .ok val => (g6, .ok val)
  match read with
  | (g6, .error err) => (g6, .error err)
  | (g6, .ok val) =>
    -- Shift left by one bit, convert to uint16 to calculate carry
    let shiftedVal : Nat := (val <<< 1) % 65536
    let val : Nat := shiftedVal % 256
    let written : Go6502 × Except Error Unit :=
      if g6.CurrentInstruction.Mode = "ACC" then ({ g6 with A := val }, .ok ())
      else
        match targetAddress with
        | none => (g6, .error nilDereference)
        | some addr =>
          match g6.Mem.WriteByte addr val with
          | (mem, .error err) => ({ g6 with Mem := mem }, .error err)
          | (mem, .ok _) => ({ g6 with Mem := mem }, .ok ())
    match written with
    | (g6, .error err) => (g6, .error err)
    | (g6, .ok _) =>
      -- Calculate flags
      let g6 := setZeroNegativeFlags g6 val
      let g6 := setCarryFlag g6 shiftedVal
      (g6, .ok ())

/-- The entry `"ASL"` of `InstructionHandlers`. -/
def InstructionHandlers.ASL : InstructionHandler := InstructionHandlers.shiftLeft

/-- The entry `"BCC"` of `InstructionHandlers`: branch on carry clear. -/
def InstructionHandlers.BCC : InstructionHandler := fun g6 targetAddress =>
  if !g6.Stat.Carry then
    match targetAddress with
    | none => (g6, .error nilDereference)
    | some addr => ({ g6 with PC := addr, shouldStopPCAutoIncrement := true }, .ok ())
  else (g6, .ok ())

/-- The entry `"BCS"` of `InstructionHandlers`: branch on carry set. -/
def InstructionHandlers.BCS : InstructionHandler := fun g6 targetAddress =>
  if g6.Stat.Carry then
    match targetAddress with
    | none => (g6, .error nilDereference)
    | some addr => ({ g6 with PC := addr, shouldStopPCAutoIncrement := true }, .ok ())
  else (g6, .ok ())

/-- The entry `"BEQ"` of `InstructionHandlers`: branch on result zero. -/
def InstructionHandlers.BEQ : InstructionHandler := fun g6 targetAddress =>
  if g6.Stat.Zero then
    match targetAddress with
    | none => (g6, .error nilDereference)
    | some addr => ({ g6 with PC := addr, shouldStopPCAutoIncrement := true }, .ok ())
  else (g6, .ok ())

/-- The entry `"BMI"` of `InstructionHandlers`: branch on result minus. -/
def InstructionHandlers.BMI : InstructionHandler := fun g6 targetAddress =>
  if g6.Stat.Negative then
    match targetAddress with
    | none => (g6, .error nilDereference)
    | some addr => ({ g6 with PC := addr, shouldStopPCAutoIncrement := true }, .ok ())
  else (g6, .ok ())

/-- The entry `"BNE"` of `InstructionHandlers`: branch on result not zero. -/
def InstructionHandlers.BNE : InstructionHandler := fun g6 targetAddress =>
  if !g6.Stat.Zero then
    match targetAddress with
    | none => (g6, .error nilDereference)
    | some addr => ({ g6 with PC := addr, shouldStopPCAutoIncrement := true }, .ok ())
  else (g6, .ok ())

/-- The entry `"BPL"` of `InstructionHandlers`: branch on result plus. -/
def InstructionHandlers.BPL : InstructionHandler := fun g6 targetAddress =>
  if !g6.Stat.Negative then
    match targetAddress with
    | none => (g6, .error nilDereference)
    | some addr => ({ g6 with PC := addr, shouldStopPCAutoIncrement := true }, .ok ())
  else (g6, .ok ())

/-- The entry `"BVC"` of `InstructionHandlers`: branch on overflow clear. -/
def InstructionHandlers.BVC : InstructionHandler := fun g6 targetAddress =>
  if !g6.Stat.Overflow then
    match targetAddress with
    | none => (g6, .error nilDereference)
    | some addr => ({ g6 with PC := addr, shouldStopPCAutoIncrement := true }, .ok ())
  else (g6, .ok ())

/-- The entry `"BVS"` of `InstructionHandlers`: branch on overflow set. -/
def InstructionHandlers.BVS : InstructionHandler := fun g6 targetAddress =>
  if g6.Stat.Overflow then
    match targetAddress with
    | none => (g6, .error nilDereference)
    | some addr => ({ g6 with PC := addr, shouldStopPCAutoIncrement := true }, .ok ())
  else (g6, .ok ())

/-- The entry `"BRK"` of `InstructionHandlers`: latches a BRK interrupt. -/
def InstructionHandlers.BRK : InstructionHandler := fun g6 _ =>
  ({ g6 with interruptOccurred := true, currentInterruptType := cpu.BRK }, .ok ())

/-- The entry `"CLC"` of `InstructionHandlers`: clear Carry. -/
def InstructionHandlers.CLC : InstructionHandler := fun g6 _ =>
  ({ g6 with Stat := { g6.Stat with Carry := false } }, .ok ())

/-- The entry `"CLD"` of `InstructionHandlers`: clear Decimal. -/
def InstructionHandlers.CLD : InstructionHandler := fun g6 _ =>
  ({ g6 with Stat := { g6.Stat with Decimal := false } }, .ok ())

/-- The entry `"CLI"` of `InstructionHandlers`: clear InterruptDisable. -/
def InstructionHandlers.CLI : InstructionHandler := fun g6 _ =>
  ({ g6 with Stat := { g6.Stat with InterruptDisable := false } }, .ok ())

/-- The entry `"CLV"` of `InstructionHandlers`: clear Overflow. -/
def InstructionHandlers.CLV : InstructionHandler := fun g6 _ =>
  ({ g6 with Stat := { g6.Stat with Overflow := false } }, .ok ())

/-- The entry `"NOP"` of `InstructionHandlers`. -/
def InstructionHandlers.NOP : InstructionHandler := fun g6 _ =>
  (g6, .ok ())

/-- The entry `"RTS"` of `InstructionHandlers`: pops the return address into
`PC` and stops the automatic increment of `PC`. -/
def InstructionHandlers.RTS : InstructionHandler := fun g6 _ =>
  match g6.PopWordOffStack with
  | (g6, .error err) =>
    (g6, .error (Wrapf err "Couldn't retrieve return address from stack"))
  | (g6, .ok returnAddress) =>
    ({ g6 with PC := returnAddress, shouldStopPCAutoIncrement := true }, .ok ())

/-- The entry `"SEC"` of `InstructionHandlers`: set Carry. -/
def InstructionHandlers.SEC : InstructionHandler := fun g6 _ =>
  ({ g6 with Stat := { g6.Stat with Carry := true } }, .ok ())

/-- The entry `"SED"` of `InstructionHandlers`: set Decimal. -/
def InstructionHandlers.SED : InstructionHandler := fun g6 _ =>
  ({ g6 with Stat := { g6.Stat with Decimal := true } }, .ok ())

/-- The entry `"SEI"` of `InstructionHandlers`: set InterruptDisable. -/
def InstructionHandlers.SEI : InstructionHandler := fun g6 _ =>
  ({ g6 with Stat := { g6.Stat with InterruptDisable := true } }, .ok ())

/-- The entry `"TAX"` of `InstructionHandlers`: copies `A` to `X`. -/
def InstructionHandlers.TAX : InstructionHandler := fun g6 _ =>
  let g6 : Go6502 := { g6 with X := g6.A }
  (setZeroNegativeFlags g6 g6.A, .ok ())

/-- The entry `"TAY"` of `InstructionHandlers`: copies `A` to `Y`. -/
def InstructionHandlers.TAY : InstructionHandler := fun g6 _ =>
  let g6 : Go6502 := { g6 with Y := g6.A }
  (setZeroNegativeFlags g6 g6.A, .ok ())

/-- The entry `"TSX"` of `InstructionHandlers`: copies `SP` to `X`. -/
def InstructionHandlers.TSX : InstructionHandler := fun g6 _ =>
  let g6 : Go6502 := { g6 with X := g6.SP }
  (setZeroNegativeFlags g6 g6.SP, .ok ())

/-- The entry `"TXA"` of `InstructionHandlers`: copies `X` to `A`. -/
def InstructionHandlers.TXA : InstructionHandler := fun g6 _ =>
  let g6 : Go6502 := { g6 with A := g6.X }
  (setZeroNegativeFlags g6 g6.X, .ok ())

/-- The entry `"TXS"` of `InstructionHandlers`: copies `X` to `SP`. -/
def InstructionHandlers.TXS : InstructionHandler := fun g6 _ =>
  let g6 : Go6502 := { g6 with SP := g6.X }
  (setZeroNegativeFlags g6 g6.X, .ok ())

/-- The entry `"TYA"` of `InstructionHandlers`: copies `Y` to `A`. -/
def InstructionHandlers.TYA : InstructionHandler := fun g6 _ =>
  let g6 : Go6502 := { g6 with A := g6.Y }
  (setZeroNegativeFlags g6 g6.Y, .ok ())

/-- The entry `"CMP"` of `InstructionHandlers`: the 16-bit difference
`uint16(g6.A) - uint16(val)` wraps; Zero and Negative come from its low byte,
Carry from the 16-bit value. -/
def InstructionHandlers.CMP : InstructionHandler := fun g6 targetAddress =>
  match targetAddress with
  | none => (g6, .error nilDereference)
  | some addr =>
    match g6.Mem.ReadByte addr with
    | .error err => (g6, .error err)
    | .ok val =>
      -- Cast to uint16 to calculate carry
      let comp : Nat := (g6.A + 65536 - val) % 65536
      let g6 := setZeroNegativeFlags g6 (comp % 256)
      let g6 := setCarryFlag g6 comp
      (g6, .ok ())

/-- The entry `"CPX"` of `InstructionHandlers`: the 16-bit difference
`uint16(g6.X) - uint16(val)` wraps; Zero and Negative come from its low byte,
Carry from the 16-bit value. -/
def InstructionHandlers.CPX : InstructionHandler := fun g6 targetAddress =>
  match targetAddress with
  | none => (g6, .error nilDereference)
  | some addr =>
    match g6.Mem.ReadByte addr with
    | .error err => (g6, .error err)
    | .ok val =>
      -- Cast to uint16 to calculate carry
      let comp : Nat := (g6.X + 65536 - val) % 65536
      let g6 := setZeroNegativeFlags g6 (comp % 256)
      let g6 := setCarryFlag g6 comp
      (g6, .ok ())

/-- The entry `"CPY"` of `InstructionHandlers`: the 16-bit difference
`uint16(g6.Y) - uint16(val)` wraps; Zero and Negative come from its low byte,
Carry from the 16-bit value. -/
def InstructionHandlers.CPY : InstructionHandler := fun g6 targetAddress =>
  match targetAddress with
  | none => (g6, .error nilDereference)
  | some addr =>
    match g6.Mem.ReadByte addr with
    | .error err => (g6, .error err)
    | .ok val =>
      -- Cast to uint16 to calculate carry
      let comp : Nat := (g6.Y + 65536 - val) % 65536
      let g6 := setZeroNegativeFlags g6 (comp % 256)
      let g6 := setCarryFlag g6 comp
      (g6, .ok ())

/-- The entry `"DEC"` of `InstructionHandlers`: the byte decrement `val--` wraps. -/
def InstructionHandlers.DEC : InstructionHandler := fun g6 targetAddress =>
  match targetAddress with
  | none => (g6, .error nilDereference)
  | some addr =>
    match g6.Mem.ReadByte addr with
    | .error err => (g6, .error err)
    | .ok val =>
      let val : Nat := (val + 255) % 256
      -- Write back to target address
      match g6.Mem.WriteByte addr val with
      | (mem, .error err) => ({ g6 with Mem := mem }, .error err)
      | (mem, .ok _) =>
        let g6 : Go6502 := { g6 with Mem := mem }
        (setZeroNegativeFlags g6 val, .ok ())

/-- The entry `"DEX"` of `InstructionHandlers`: the byte decrement `g6.X--` wraps. -/
def InstructionHandlers.DEX : InstructionHandler := fun g6 _ =>
  let g6 : Go6502 := { g6 with X := (g6.X + 255) % 256 }
  (setZeroNegativeFlags g6 g6.X, .ok ())

/-- The entry `"DEY"` of `InstructionHandlers`: the byte decrement `g6.Y--` wraps. -/
def InstructionHandlers.DEY : InstructionHandler := fun g6 _ =>
  let g6 : Go6502 := { g6 with Y := (g6.Y + 255) % 256 }
  (setZeroNegativeFlags g6 g6.Y, .ok ())

/-- The entry `"INC"` of `InstructionHandlers`: the byte increment `val++` wraps. -/
def InstructionHandlers.INC : InstructionHandler := fun g6 targetAddress =>
  match targetAddress with
  | none => (g6, .error nilDereference)
  | some addr =>
    match g6.Mem.ReadByte addr with
    | .error err => (g6, .error err)
    | .ok val =>
      let val : Nat := (val + 1) % 256
      -- Write back to target address
      match g6.Mem.WriteByte addr val with
      | (mem, .error err) => ({ g6 with Mem := mem }, .error err)
      | (mem, .ok _) =>
        let g6 : Go6502 := { g6 with Mem := mem }
        (setZeroNegativeFlags g6 val, .ok ())

/-- The entry `"INX"` of `InstructionHandlers`: the byte increment `g6.X++` wraps. -/
def InstructionHandlers.INX : InstructionHandler := fun g6 _ =>
  let g6 : Go6502 := { g6 with X := (g6.X + 1) % 256 }
  (setZeroNegativeFlags g6 g6.X, .ok ())

/-- The entry `"INY"` of `InstructionHandlers`: the byte increment `g6.Y++` wraps. -/
def InstructionHandlers.INY : InstructionHandler := fun g6 _ =>
  let g6 : Go6502 := { g6 with Y := (g6.Y + 1) % 256 }
  (setZeroNegativeFlags g6 g6.Y, .ok ())

/-- The entry `"EOR"` of `InstructionHandlers`: exclusive or of the operand into `A`. -/
def InstructionHandlers.EOR : InstructionHandler := fun g6 targetAddress =>
  match targetAddress with
  | none => (g6, .error nilDereference)
  | some addr =>
    match g6.Mem.ReadByte addr with
    | .error err => (g6, .error err)
    | .ok val =>
      let g6 : Go6502 := { g6 with A := g6.A ^^^ val }
      (setZeroNegativeFlags g6 g6.A, .ok ())

/-- The entry `"JMP"` of `InstructionHandlers`. -/
def InstructionHandlers.JMP : InstructionHandler := fun g6 targetAddress =>
  match targetAddress with
  | none => (g6, .error nilDereference)
  | some addr => ({ g6 with PC := addr, shouldStopPCAutoIncrement := true }, .ok ())

/-- The entry `"JSR"` of `InstructionHandlers`: pushes the 16-bit sum
`g6.PC + g6.CurrentInstruction.Size`, then jumps. -/
def InstructionHandlers.JSR : InstructionHandler := fun g6 targetAddress =>
  -- Save address of next instruction for return
  match g6.PushWordToStack ((g6.PC + g6.CurrentInstruction.Size) % 65536) with
  | (g6, .error err) => (g6, .error err)
  | (g6, .ok _) =>
    match targetAddress with
    | none => (g6, .error nilDereference)
    | some addr => ({ g6 with PC := addr, shouldStopPCAutoIncrement := true }, .ok ())

/-- The entry `"ORA"` of `InstructionHandlers`: or of the operand into `A`. -/
def InstructionHandlers.ORA : InstructionHandler := fun g6 targetAddress =>
  match targetAddress with
  | none => (g6, .error nilDereference)
  | some addr =>
    match g6.Mem.ReadByte addr with
    | .error err => (g6, .error err)
    | .ok val =>
      let g6 : Go6502 := { g6 with A := g6.A ||| val }
      (setZeroNegativeFlags g6 g6.A, .ok ())

/-- The entry `"ROL"` of `InstructionHandlers`: the same body as `"ASL"`. -/
def InstructionHandlers.ROL : InstructionHandler := InstructionHandlers.shiftLeft

/-- The entry `"ROR"` of `InstructionHandlers`: like `"ROL"` with the shift
`uint16(val) >> 1`. -/
def InstructionHandlers.ROR : InstructionHandler := fun g6 targetAddress =>
  let read : Go6502 × Except Error Nat :=
    if g6.CurrentInstruction.Mode = "ACC" then (g6, .ok g6.A)
    else
      match targetAddress with
      | none => (g6, .error nilDereference)
      | some addr =>
        match g6.Mem.ReadByte addr with
        | .error err => (g6, .error err)
        | .ok val => (g6, .ok val)
  match read with
  | (g6, .error err) => (g6, .error err)
  | (g6, .ok val) =>
    let shiftedVal : Nat := (val % 65536) >>> 1
    let val : Nat := shiftedVal % 256
    let written : Go6502 × Except Error Unit :=
      if g6.CurrentInstruction.Mode = "ACC" then ({ g6 with A := val }, .ok ())
      else
        match targetAddress with
        | none => (g6, .error nilDereference)
        | some addr =>
          match g6.Mem.WriteByte addr val with
          | (mem, .error err) => ({ g6 with Mem := mem }, .error err)
          | (mem, .ok _) => ({ g6 with Mem := mem }, .ok ())
    match written with
    | (g6, .error err) => (g6, .error err)
    | (g6, .ok _) =>
      -- Calculate flags
      let g6 := setZeroNegativeFlags g6 val
      let g6 := setCarryFlag g6 shiftedVal
      (g6, .ok ())

/-- The entry `"SBC"` of `InstructionHandlers`: the 16-bit difference
`uint16(g6.A) - uint16(val)` and the decrement `total--` wrap. -/
def InstructionHandlers.SBC : InstructionHandler := fun g6 targetAddress =>
  match targetAddress with
  | none => (g6, .error nilDereference)
  | some addr =>
    match g6.Mem.ReadByte addr with
    | .error err => (g6, .error err)
    | .ok val =>
      let total : Nat := (g6.A + 65536 - val) % 65536
      let total : Nat := if g6.Stat.Carry then (total + 65535) % 65536 else total
      -- Calculate flags
      let g6 := setCarryFlag g6 total
      let g6 := setZeroNegativeFlags g6 (total % 256)
      let g6 := setOverflowFlag g6 (total % 256) g6.A
      -- Put back in accumulator
      ({ g6 with A := total % 256 }, .ok ())

/-- The entry `"STA"` of `InstructionHandlers`: writes `A` at the target
address. -/
def InstructionHandlers.STA : InstructionHandler := fun g6 targetAddress =>
  match targetAddress with
  | none => (g6, .error nilDereference)
  | some addr =>
    match g6.Mem.WriteByte addr g6.A with
    | (mem, .error err) => ({ g6 with Mem := mem }, .error err)
    | (mem, .ok _) => ({ g6 with Mem := mem }, .ok ())

/-- The entry `"STX"` of `InstructionHandlers`: writes `X` at the target
address. -/
def InstructionHandlers.STX : InstructionHandler := fun g6 targetAddress =>
  match targetAddress with
  | none => (g6, .error nilDereference)
  | some addr =>
    match g6.Mem.WriteByte addr g6.X with
    | (mem, .error err) => ({ g6 with Mem := mem }, .error err)
    | (mem, .ok _) => ({ g6 with Mem := mem }, .ok ())

/-- The entry `"STY"` of `InstructionHandlers`: writes `Y` at the target
address. -/
def InstructionHandlers.STY : InstructionHandler := fun g6 targetAddress =>
  match targetAddress with
  | none => (g6, .error nilDereference)
  | some addr =>
    match g6.Mem.WriteByte addr g6.Y with
    | (mem, .error err) => ({ g6 with Mem := mem }, .error err)
    | (mem, .ok _) => ({ g6 with Mem := mem }, .ok ())

/-- The entries of the map `InstructionHandlers`, in the order of the source. -/
def InstructionHandlersEntries : List (String × InstructionHandler) :=
  [("ADC", InstructionHandlers.ADC), ("AND", InstructionHandlers.AND), ("ASL", InstructionHandlers.ASL),
   ("BCC", InstructionHandlers.BCC), ("BCS", InstructionHandlers.BCS), ("BEQ", InstructionHandlers.BEQ),
   ("BMI", InstructionHandlers.BMI), ("BNE", InstructionHandlers.BNE), ("BPL", InstructionHandlers.BPL),
   ("BVC", InstructionHandlers.BVC), ("BVS", InstructionHandlers.BVS), ("BRK", InstructionHandlers.BRK),
   ("CLC", InstructionHandlers.CLC), ("CLD", InstructionHandlers.CLD), ("CLI", InstructionHandlers.CLI),
   ("CLV", InstructionHandlers.CLV), ("NOP", InstructionHandlers.NOP), ("RTI", InstructionHandlers.RTI),
   ("RTS", InstructionHandlers.RTS), ("SEC", InstructionHandlers.SEC), ("SED", InstructionHandlers.SED),
   ("SEI", InstructionHandlers.SEI), ("TAX", InstructionHandlers.TAX), ("TAY", InstructionHandlers.TAY),
   ("TSX", InstructionHandlers.TSX), ("TXA", InstructionHandlers.TXA), ("TXS", InstructionHandlers.TXS),
   ("TYA", InstructionHandlers.TYA), ("CMP", InstructionHandlers.CMP), ("CPX", InstructionHandlers.CPX),
   ("CPY", InstructionHandlers.CPY), ("DEC", InstructionHandlers.DEC), ("DEX", InstructionHandlers.DEX),
   ("DEY", InstructionHandlers.DEY), ("INC", InstructionHandlers.INC), ("INX", InstructionHandlers.INX),
   ("INY", InstructionHandlers.INY), ("EOR", InstructionHandlers.EOR), ("JMP", InstructionHandlers.JMP),
   ("JSR", InstructionHandlers.JSR), ("LDA", InstructionHandlers.LDA), ("LDX", InstructionHandlers.LDX),
   ("LDY", InstructionHandlers.LDY), ("ORA", InstructionHandlers.ORA), ("ROL", InstructionHandlers.ROL),
   ("ROR", InstructionHandlers.ROR), ("SBC", InstructionHandlers.SBC), ("STA", InstructionHandlers.STA),
   ("STX", InstructionHandlers.STX), ("STY", InstructionHandlers.STY)]

/-- The map `InstructionHandlers`: the handler of a mnemonic, if it has one. -/
def InstructionHandlers (mnemonic : String) : Option InstructionHandler :=
  InstructionHandlersEntries.lookup mnemonic

/-- The function type `addressingMode`. -/
abbrev addressingMode := Go6502 → Except Error Nat

/-- The entries of the map `addressingModes`; `none` is the nil function of the
implied and accumulator modes. -/
def addressingModesEntries : List (String × Option addressingMode) :=
  [("IMP", none), ("ACC", none), ("IMM", some immediate), ("ZP", some zeroPage),
   ("ZPX", some zeroPageX), ("ZPY", some zeroPageY), ("IND", some indirect),
   ("INDX", some indirectX), ("INDY", some indirectY), ("ABS", some absolute),
   ("ABSX", some absoluteX), ("ABSY", some absoluteY), ("REL", some relative)]

/-- The map `addressingModes`, indexed as Go indexes a map: a mode that is
absent yields nil, like the implied and accumulator modes. -/
def addressingModes (mode : String) : Option addressingMode :=
  (addressingModesEntries.lookup mode).getD none

/-- Go `Go6502.StopEmulation`. -/
def Go6502.StopEmulation (g6 : Go6502) : Go6502 :=
  { g6 with shouldStopEmulation := true }

/-- Go `Go6502.StopPCAutoIncrement`. -/
def Go6502.StopPCAutoIncrement (g6 : Go6502) : Go6502 :=
  { g6 with shouldStopPCAutoIncrement := true }

/-- Go `Go6502.ExecuteInstruction`: resolves the target address when the mode
has an addressing function, runs the handler of the mnemonic (with the address,
or with nil), then adds the size to `PC` unless the increment was stopped, in
which case the stop request is cleared. -/
def Go6502.ExecuteInstruction (g6 : Go6502) : Go6502 × Except Error Unit :=
  -- Find target for instruction
  let addressingFunc := addressingModes g6.CurrentInstruction.Mode
  let resolved : Except Error Nat :=
    match addressingFunc with
    | some f =>
      match f g6 with
      | .error err => .error (Wrapf err "Couldn't find target address for instruction")
      | .ok addr => .ok addr
    | none => .ok 0
  match resolved with
  | .error err => (g6, .error err)
  | .ok targetAddress =>
    -- Execute instruction
    match InstructionHandlers g6.CurrentInstruction.Mnemonic with
    | some instructionHandler =>
      let ran : Go6502 × Except Error Unit :=
        match addressingFunc with
        | some _ => instructionHandler g6 (some targetAddress)
        | none => instructionHandler g6 none
      match ran with
      | (g6, .error err) => (g6, .error (Wrapf err "Error executing instruction"))
      | (g6, .ok _) =>
        -- Increment PC
        if !g6.shouldStopPCAutoIncrement then
          ({ g6 with PC := (g6.PC + g6.CurrentInstruction.Size) % 65536 }, .ok ())
        else
          ({ g6 with shouldStopPCAutoIncrement := false }, .ok ())
    | none => (g6, .error "Instruction Has not been implemented")

/-- One pass through the body of the loop of `emulationLoop`: fetch, decode in
the table `InstructionSet` (declared in a file that is not part of the sources,
hence an argument), execute, run `AfterExecution` of every addon (host objects,
given as state transformers), and service a latched interrupt. -/
def Go6502.emulationIteration (InstructionSet : Nat → Option Instruction)
    (addons : List (Go6502 → Go6502)) (g6 : Go6502) : Go6502 × Except Error Unit :=
  -- Fetch instruction
  match g6.Mem.ReadByte g6.PC with
  | .error err => (g6, .error (Wrapf err "Error retrieving instruction"))
  | .ok opcode =>
    -- Decode instruction
    match InstructionSet opcode with
    | none => (g6, .error "Opcode does not exist")
    | some instruction =>
      let g6 : Go6502 := { g6 with CurrentInstruction := instruction }
      -- Execute instruction
      match g6.ExecuteInstruction with
      | (g6, .error err) => (g6, .error (Wrapf err "Error executing instruction"))
      | (g6, .ok _) =>
        -- Run AfterExecution for each addon
        let g6 : Go6502 :=
          if g6.enableAddons then addons.foldl (fun g addon => addon g) g6 else g6
        -- Handle interrupts
        if g6.interruptOccurred = true then
          match g6.HandleInterrupts with
          | (g6, .error err) =>
            (g6, .error (Wrapf err "Error handling interrupt after instruction"))
          | (g6, .ok _) => (g6, .ok ())
        else (g6, .ok ())

/-- The loop of `emulationLoop`, bounded by `fuel` passes: `some` is the value
the loop returns, `none` says that it is still running after `fuel` passes. -/
def Go6502.emulationPasses (InstructionSet : Nat → Option Instruction)
    (addons : List (Go6502 → Go6502)) : Nat → Go6502 → Go6502 × Option (Except Error Unit)
  | 0, g6 => if g6.shouldStopEmulation then (g6, some (.ok ())) else (g6, none)
  | fuel + 1, g6 =>
    if g6.shouldStopEmulation then (g6, some (.ok ()))
    else
      match g6.emulationIteration InstructionSet addons with
      | (g6, .error err) => (g6, some (.error err))
      | (g6, .ok _) => Go6502.emulationPasses InstructionSet addons fuel g6

/-- Go `Go6502.emulationLoop`: clears the stop request of the increment, turns
the addons off when none is registered, and runs the loop. -/
def Go6502.emulationLoop (InstructionSet : Nat → Option Instruction)
    (addons : List (Go6502 → Go6502)) (fuel : Nat) (g6 : Go6502) :
    Go6502 × Option (Except Error Unit) :=
  let g6 : Go6502 := { g6 with shouldStopPCAutoIncrement := false }
  -- Turn off addons if none are registered
  let g6 : Go6502 :=
    if addons.length ≤ 0 ∧ g6.enableAddons = true then { g6 with enableAddons := false }
    else g6
  Go6502.emulationPasses InstructionSet addons fuel g6

/-- Go `Go6502.StartEmulationAtAddress`: sets `PC` and runs the loop. -/
def Go6502.StartEmulationAtAddress (InstructionSet : Nat → Option Instruction)
    (addons : List (Go6502 → Go6502)) (fuel : Nat) (g6 : Go6502) (startAddress : Nat) :
    Go6502 × Option (Except Error Unit) :=
  let g6 : Go6502 := { g6 with PC := startAddress }
  g6.emulationLoop InstructionSet addons fuel

/-- What every handler does with the control state: a handler that succeeds
leaves `CurrentInstruction` as it was, and either requests the stop of the
increment of `PC` or leaves `PC` and the request as they were. -/
def HandlerKeepsFlow (h : InstructionHandler) : Prop :=
  ∀ g6 targetAddress, (h g6 targetAddress).2 = .ok () →
    (h g6 targetAddress).1.CurrentInstruction = g6.CurrentInstruction
      ∧ ((h g6 targetAddress).1.shouldStopPCAutoIncrement = true
        ∨ ((h g6 targetAddress).1.PC = g6.PC
          ∧ (h g6 targetAddress).1.shouldStopPCAutoIncrement = g6.shouldStopPCAutoIncrement))

end cpu

namespace memory

theorem or_shift8 (a b : Nat) (ha : a < 256) (hb : b < 256) :
    a ||| ((b <<< 8) % 65536) = a + 256 * b := by
  have h1 : b <<< 8 = 2 ^ 8 * b := by rw [Nat.shiftLeft_eq]; ring
  have h2 : (2 ^ 8 * b) % 65536 = 2 ^ 8 * b := Nat.mod_eq_of_lt (by omega)
  rw [h1, h2, Nat.or_comm, ← Nat.mul_add_lt_is_or (by simpa using ha) b]
  omega

theorem BytesToWord_eq (a b : Nat) (ha : a < 256) (hb : b < 256) :
    BytesToWord (a, b) = .ok (a + 256 * b) := by
  simp only [BytesToWord, or_shift8 a b ha hb]

theorem WordToBytes_eq (w : Nat) : WordToBytes w = (w % 256, w / 256 % 256) := by
  simp [WordToBytes, Nat.shiftRight_eq_div_pow]

end memory

namespace cpu

open memory

theorem Status.FromByte_eq (f : Status) (x : Nat) :
    f.FromByte x =
      { Negative := decide ((x >>> 7) &&& 1 = 1)
        Overflow := decide ((x >>> 6) &&& 1 = 1)
        Decimal := decide ((x >>> 3) &&& 1 = 1)
        InterruptDisable := decide ((x >>> 2) &&& 1 = 1)
        Zero := decide ((x >>> 1) &&& 1 = 1)
        Carry := decide ((x >>> 0) &&& 1 = 1) } := by
  rfl

theorem shift_and_one_eq_testBit (x i : Nat) :
    decide ((x >>> i) &&& 1 = 1) = x.testBit i := by
  rw [Nat.testBit_to_div_mod, Nat.and_one_is_mod, Nat.shiftRight_eq_div_pow]

theorem Status.FromByte_testBit (f : Status) (x : Nat) :
    f.FromByte x =
      { Negative := x.testBit 7
        Overflow := x.testBit 6
        Decimal := x.testBit 3
        InterruptDisable := x.testBit 2
        Zero := x.testBit 1
        Carry := x.testBit 0 } := by
  rw [Status.FromByte_eq]
  simp only [shift_and_one_eq_testBit]

/-- C1: for every status `s`, break bit `b` and prior content `t`, loading the
byte `s.AsByte b` into `t` with `FromByte` leaves `t` equal to `s`. -/
theorem Status.fromByte_asByte (s t : Status) (b : Bool) :
    t.FromByte (s.AsByte b) = s := by
  rw [Status.FromByte_eq]
  obtain ⟨n, v, d, i, z, c⟩ := s
  cases n <;> cases v <;> cases d <;> cases i <;> cases z <;> cases c <;> cases b <;> decide

/-- C2: the byte `s.AsByte b` is
`128*N + 64*V + 32 + 16*b + 8*D + 4*I + 2*Z + C`; bit 5 is always set and bit 4
equals `b`; empty flags give `0x20` and `0x30`, Carry alone `0x21`, Negative
alone `0xA0`. -/
theorem Status.asByte_layout (s : Status) (b : Bool) :
    s.AsByte b = 128 * s.Negative.toNat + 64 * s.Overflow.toNat + 32 + 16 * b.toNat
        + 8 * s.Decimal.toNat + 4 * s.InterruptDisable.toNat + 2 * s.Zero.toNat
        + s.Carry.toNat
      ∧ (s.AsByte b).testBit 5 = true
      ∧ (s.AsByte b).testBit 4 = b
      ∧ Status.AsByte ⟨false, false, false, false, false, false⟩ false = 0x20
      ∧ Status.AsByte ⟨false, false, false, false, false, false⟩ true = 0x30
      ∧ Status.AsByte ⟨false, false, false, false, false, true⟩ false = 0x21
      ∧ Status.AsByte ⟨true, false, false, false, false, false⟩ false = 0xA0 := by
  obtain ⟨n, v, d, i, z, c⟩ := s
  cases n <;> cases v <;> cases d <;> cases i <;> cases z <;> cases c <;> cases b <;> decide

/-- C3: after `FromByte x` the six flags are bits 7, 6, 3, 2, 1 and 0 of `x`,
whatever the status held before; hence a byte `y` that agrees with `x` on every
bit other than bits 4 and 5 gives the same status, from any prior status. -/
theorem Status.fromByte_bits (t u : Status) (x y : Nat)
    (h : ∀ i, i < 8 → i ≠ 4 → i ≠ 5 → x.testBit i = y.testBit i) :
    (t.FromByte x).Negative = x.testBit 7
      ∧ (t.FromByte x).Overflow = x.testBit 6
      ∧ (t.FromByte x).Decimal = x.testBit 3
      ∧ (t.FromByte x).InterruptDisable = x.testBit 2
      ∧ (t.FromByte x).Zero = x.testBit 1
      ∧ (t.FromByte x).Carry = x.testBit 0
      ∧ t.FromByte x = u.FromByte x
      ∧ t.FromByte x = u.FromByte y := by
  refine ⟨?_, ?_, ?_, ?_, ?_, ?_, ?_, ?_⟩
  all_goals simp only [Status.FromByte_testBit]
  rw [h 7 (by decide) (by decide) (by decide), h 6 (by decide) (by decide) (by decide),
    h 3 (by decide) (by decide) (by decide), h 2 (by decide) (by decide) (by decide),
    h 1 (by decide) (by decide) (by decide), h 0 (by decide) (by decide) (by decide)]

/-- Witness of C3: the bytes `0x21` and `0x11` differ in bits 4 and 5 only. -/
theorem Status.fromByte_bits_witness :
    (∀ i, i < 8 → i ≠ 4 → i ≠ 5 → Nat.testBit 0x21 i = Nat.testBit 0x11 i)
      ∧ (Status.FromByte ⟨true, true, true, true, true, false⟩ 0x21).Carry = Nat.testBit 0x21 0
      ∧ Status.FromByte ⟨true, true, true, true, true, false⟩ 0x21
          = Status.FromByte ⟨false, false, false, false, false, false⟩ 0x11 :=
  have hyp : ∀ i, i < 8 → i ≠ 4 → i ≠ 5 → Nat.testBit 0x21 i = Nat.testBit 0x11 i := by decide
  have key := Status.fromByte_bits ⟨true, true, true, true, true, false⟩
    ⟨false, false, false, false, false, false⟩ 0x21 0x11 hyp
  ⟨hyp, key.2.2.2.2.2.1, key.2.2.2.2.2.2.2⟩

end cpu

namespace memory

/-- C4: for every 16-bit word `w`, `WordToBytes w` is the pair (low byte, high
byte) and `BytesToWord` maps it back to `w` with a nil error. -/
theorem bytesToWord_wordToBytes (w : Nat) (hw : w < 65536) :
    WordToBytes w = (w % 256, w / 256) ∧ BytesToWord (WordToBytes w) = .ok w := by
  have hhi : w / 256 % 256 = w / 256 := Nat.mod_eq_of_lt (by omega)
  rw [WordToBytes_eq, hhi, BytesToWord_eq _ _ (by omega) (by omega)]
  refine ⟨rfl, ?_⟩
  congr 1
  omega

/-- Witness of C4: the word `0x9559` and the bytes `{0x59, 0x95}`. -/
theorem bytesToWord_wordToBytes_witness :
    0x9559 < 65536 ∧ WordToBytes 0x9559 = (0x59, 0x95)
      ∧ BytesToWord (0x59, 0x95) = .ok 0x9559 :=
  have key := bytesToWord_wordToBytes 0x9559 (by decide)
  ⟨by decide, key.1, key.1 ▸ key.2⟩

theorem Memory.WriteWord_fst (m : Memory) (loc w : Nat) :
    (m.WriteWord loc w).1.Mem
      = Function.update (Function.update m.Mem loc (w % 256)) ((loc + 1) % 65536)
          (w / 256 % 256) := by
  simp [Memory.WriteWord, WordToBytes_eq]

theorem Memory.ReadWord_WriteWord (m : Memory) (loc w : Nat) (hw : w < 65536) :
    (m.WriteWord loc w).1.ReadWord loc = .ok w := by
  have hne : loc ≠ (loc + 1) % 65536 := by omega
  have hhi : w / 256 % 256 = w / 256 := Nat.mod_eq_of_lt (by omega)
  simp only [Memory.ReadWord, Memory.WriteWord_fst, Function.update_same,
    Function.update_noteq hne, hhi]
  rw [BytesToWord_eq _ _ (by omega) (by omega)]
  simp only []
  congr 1
  omega

/-- C5: after `WriteWord loc w`, for every address `loc` (`0xFFFF` included)
and every 16-bit word `w`, `ReadWord loc` returns `w` with a nil error; the low
byte of `w` is at `loc` and the high byte at `(loc + 1) mod 65536`. -/
theorem Memory.readWord_writeWord (m : Memory) (loc w : Nat) (hw : w < 65536) :
    (m.WriteWord loc w).2 = .ok ()
      ∧ (m.WriteWord loc w).1.ReadWord loc = .ok w
      ∧ (m.WriteWord loc w).1.Mem loc = w % 256
      ∧ (m.WriteWord loc w).1.Mem ((loc + 1) % 65536) = w / 256 := by
  have hne : loc ≠ (loc + 1) % 65536 := by omega
  have hhi : w / 256 % 256 = w / 256 := Nat.mod_eq_of_lt (by omega)
  refine ⟨rfl, Memory.ReadWord_WriteWord m loc w hw, ?_, ?_⟩
  · simp only [Memory.WriteWord_fst, Function.update_same, Function.update_noteq hne]
  · simp only [Memory.WriteWord_fst, Function.update_same, hhi]

/-- Witness of C5: the word `0x9559` written at the last address `0xFFFF`; the
high byte lands at address `0x0000`. -/
theorem Memory.readWord_writeWord_witness :
    0x9559 < 65536
      ∧ ((Memory.mk (fun _ => 0)).WriteWord 0xFFFF 0x9559).1.ReadWord 0xFFFF = .ok 0x9559
      ∧ ((Memory.mk (fun _ => 0)).WriteWord 0xFFFF 0x9559).1.Mem 0xFFFF = 0x59
      ∧ ((Memory.mk (fun _ => 0)).WriteWord 0xFFFF 0x9559).1.Mem 0x0000 = 0x95 :=
  have key := Memory.readWord_writeWord (Memory.mk (fun _ => 0)) 0xFFFF 0x9559 (by decide)
  ⟨by decide, key.2.1, key.2.2.1, key.2.2.2⟩

/-- C6: after `WriteByte a v`, `ReadByte a` returns `v` with a nil error and
`ReadByte a2` returns what it returned before for every other address `a2`. -/
theorem Memory.readByte_writeByte (m : Memory) (a v a2 : Nat) (h : a2 ≠ a) :
    (m.WriteByte a v).2 = .ok ()
      ∧ (m.WriteByte a v).1.ReadByte a = .ok v
      ∧ (m.WriteByte a v).1.ReadByte a2 = m.ReadByte a2 := by
  refine ⟨rfl, ?_, ?_⟩
  · simp only [Memory.ReadByte, Memory.WriteByte, Function.update_same]
  · simp only [Memory.ReadByte, Memory.WriteByte, Function.update_noteq h]

/-- Witness of C6: byte `0x42` written at the last address `0xFFFF`, with the
first address `0x0000` as the other address. -/
theorem Memory.readByte_writeByte_witness :
    0x0000 ≠ 0xFFFF
      ∧ ((Memory.mk (fun _ => 7)).WriteByte 0xFFFF 0x42).1.ReadByte 0xFFFF = .ok 0x42
      ∧ ((Memory.mk (fun _ => 7)).WriteByte 0xFFFF 0x42).1.ReadByte 0x0000 = .ok 7 :=
  have key := Memory.readByte_writeByte (Memory.mk (fun _ => 7)) 0xFFFF 0x42 0x0000 (by decide)
  ⟨by decide, key.2.1, key.2.2⟩

end memory

namespace cpu

open memory

theorem stackAddress_eq (sp : Nat) (h : sp < 256) : stackAddress sp = .ok (1 + 256 * sp) := by
  simp only [stackAddress, BytesToWord_eq 1 sp (by decide) h]

theorem Go6502.PushByteToStack_eq (g6 : Go6502) (data : Nat) (h : g6.SP < 256) :
    g6.PushByteToStack data
      = ({ g6 with
            Mem := { Mem := Function.update g6.Mem.Mem (1 + 256 * g6.SP) data }
            SP := (g6.SP + 255) % 256 }, .ok ()) := by
  simp only [Go6502.PushByteToStack, stackAddress_eq g6.SP h, Memory.WriteByte]

theorem Go6502.PopByteOffStack_eq (g6 : Go6502) :
    g6.PopByteOffStack
      = ({ g6 with SP := (g6.SP + 1) % 256 },
          .ok (g6.Mem.Mem (1 + 256 * ((g6.SP + 1) % 256)))) := by
  have h : (g6.SP + 1) % 256 < 256 := Nat.mod_lt _ (by decide)
  simp only [Go6502.PopByteOffStack, stackAddress_eq _ h, Memory.ReadByte]

theorem Go6502.popBytes_eq (n : Nat) : ∀ g6 : Go6502, g6.SP < 256 →
    Go6502.popBytes g6 n
      = ({ g6 with SP := (g6.SP + n) % 256 },
          .ok ((List.range n).map
            (fun k => g6.Mem.Mem (1 + 256 * ((g6.SP + 1 + k) % 256))))) := by
  induction n with
  | zero =>
    intro g6 h
    simp only [Go6502.popBytes, List.range_zero, List.map_nil, Nat.add_zero,
      Nat.mod_eq_of_lt h]
  | succ n ih =>
    intro g6 h
    have h1 : (g6.SP + 1) % 256 < 256 := Nat.mod_lt _ (by decide)
    have e1 : ((g6.SP + 1) % 256 + n) % 256 = (g6.SP + (n + 1)) % 256 := by omega
    have e2 : ∀ k, ((g6.SP + 1) % 256 + 1 + k) % 256 = (g6.SP + 1 + (k + 1)) % 256 := by
      intro k; omega
    simp only [Go6502.popBytes, Go6502.PopByteOffStack_eq]
    rw [ih { g6 with SP := (g6.SP + 1) % 256 } h1]
    simp only [e1, e2, List.range_succ_eq_map, List.map_cons, List.map_map, Nat.add_zero]
    rfl

theorem Go6502.pushBytes_cons (g6 : Go6502) (b : Nat) (rest : List Nat) (h : g6.SP < 256) :
    Go6502.pushBytes g6 (b :: rest)
      = Go6502.pushBytes
          { g6 with
            Mem := { Mem := Function.update g6.Mem.Mem (1 + 256 * g6.SP) b }
            SP := (g6.SP + 255) % 256 } rest := by
  simp only [Go6502.pushBytes, Go6502.PushByteToStack_eq g6 b h]

theorem Go6502.pushBytes_spec (bytes : List Nat) : ∀ g6 : Go6502, g6.SP < 256 →
    bytes.length ≤ 256 →
    (Go6502.pushBytes g6 bytes).2 = .ok ()
      ∧ (Go6502.pushBytes g6 bytes).1.SP = (g6.SP + 256 - bytes.length) % 256
      ∧ (∀ i (hi : i < bytes.length),
          (Go6502.pushBytes g6 bytes).1.Mem.Mem (1 + 256 * ((g6.SP + 256 - i) % 256))
            = bytes[i])
      ∧ (∀ a, (∀ i, i < bytes.length → a ≠ 1 + 256 * ((g6.SP + 256 - i) % 256)) →
          (Go6502.pushBytes g6 bytes).1.Mem.Mem a = g6.Mem.Mem a) := by
  induction bytes with
  | nil =>
    intro g6 hsp _
    refine ⟨rfl, ?_, ?_, ?_⟩
    · simp only [Go6502.pushBytes, List.length_nil]
      omega
    · intro i hi
      simp at hi
    · intro a _
      rfl
  | cons b rest ih =>
    intro g6 hsp hlen
    simp only [List.length_cons] at hlen
    have h1 : (g6.SP + 255) % 256 < 256 := Nat.mod_lt _ (by decide)
    obtain ⟨r1, r2, r3, r4⟩ := ih
      { g6 with
        Mem := { Mem := Function.update g6.Mem.Mem (1 + 256 * g6.SP) b }
        SP := (g6.SP + 255) % 256 } h1 (by omega)
    rw [Go6502.pushBytes_cons g6 b rest hsp]
    simp only [] at r2 r3 r4
    have frame0 : ∀ j, j < rest.length →
        1 + 256 * g6.SP ≠ 1 + 256 * (((g6.SP + 255) % 256 + 256 - j) % 256) := by
      intro j hj
      omega
    refine ⟨r1, ?_, ?_, ?_⟩
    · rw [r2, List.length_cons]
      omega
    · intro i hi
      cases i with
      | zero =>
        have e : (g6.SP + 256 - 0) % 256 = g6.SP := by omega
        rw [e, r4 _ frame0, Function.update_same]
        rfl
      | succ j =>
        have hj : j < rest.length := by simpa using hi
        have e : (g6.SP + 256 - (j + 1)) % 256 = ((g6.SP + 255) % 256 + 256 - j) % 256 := by
          omega
        rw [e, r3 j hj]
        rfl
    · intro a ha
      have ha0 : a ≠ 1 + 256 * g6.SP := by
        have := ha 0 (by simp)
        have e : (g6.SP + 256 - 0) % 256 = g6.SP := by omega
        rwa [e] at this
      rw [r4 a, Function.update_noteq ha0]
      intro j hj
      have := ha (j + 1) (by simpa using hj)
      have e : (g6.SP + 256 - (j + 1)) % 256 = ((g6.SP + 255) % 256 + 256 - j) % 256 := by
        omega
      rwa [e] at this

theorem Go6502.popBytes_pushBytes_overflow (b x : Nat) (rest : List Nat) (g6 : Go6502)
    (hsp : g6.SP < 256) (hlen : rest.length = 256) (hlast : rest.getLast? = some x)
    (hne : x ≠ b) :
    (Go6502.popBytes (Go6502.pushBytes g6 (b :: rest)).1 (b :: rest).length).2
      ≠ .ok (b :: rest).reverse := by
  rw [Go6502.pushBytes_cons _ _ _ hsp]
  have h1 : (g6.SP + 255) % 256 < 256 := Nat.mod_lt _ (by decide)
  obtain ⟨_, r2, r3, _⟩ := Go6502.pushBytes_spec rest
    { g6 with
      Mem := { Mem := Function.update g6.Mem.Mem (1 + 256 * g6.SP) b }
      SP := (g6.SP + 255) % 256 } h1 (by omega)
  simp only [hlen] at r2 r3
  have r3last := r3 255 (by decide)
  have hx : rest[255] = x := by
    rw [List.getLast?_eq_getElem?, hlen] at hlast
    rw [List.getElem?_eq_getElem (by omega)] at hlast
    exact Option.some.inj hlast
  rw [hx] at r3last
  have hG : (Go6502.pushBytes
      { g6 with
        Mem := { Mem := Function.update g6.Mem.Mem (1 + 256 * g6.SP) b }
        SP := (g6.SP + 255) % 256 } rest).1.SP < 256 := by
    rw [r2]; exact Nat.mod_lt _ (by decide)
  rw [Go6502.popBytes_eq _ _ hG]
  intro h
  have h2 := congrArg List.getLast? (Except.ok.inj h)
  rw [List.length_cons, List.range_succ, List.map_append, List.getLast?_reverse,
    List.map_cons, List.map_nil, List.getLast?_concat] at h2
  simp only [List.head?_cons, Option.some.injEq, r2, hlen] at h2
  have e : ((g6.SP + 255) % 256 + 256 - 256) % 256 + 1 + 256
      = ((g6.SP + 255) % 256 + 256 - 255) + 256 := by omega
  rw [e, Nat.add_mod_right, r3last] at h2
  exact hne h2

theorem Go6502.PushByteToStack_raw (g6 : Go6502) (data : Nat) :
    g6.PushByteToStack data
      = ({ g6 with
            Mem := { Mem := Function.update g6.Mem.Mem (1 ||| ((g6.SP <<< 8) % 65536)) data }
            SP := (g6.SP + 255) % 256 }, .ok ()) :=
  rfl

theorem Go6502.pushWords_eq (ws : List Nat) : ∀ g6 : Go6502,
    Go6502.pushWords g6 ws = Go6502.pushBytes g6 (wordBytes ws) := by
  induction ws with
  | nil => intro g6; rfl
  | cons w rest ih =>
    intro g6
    simp only [Go6502.pushWords, Go6502.PushWordToStack, Go6502.PushByteToStack_raw,
      wordBytes, Go6502.pushBytes]
    exact ih _

theorem wordBytes_length (ws : List Nat) : (wordBytes ws).length = 2 * ws.length := by
  induction ws with
  | nil => rfl
  | cons w rest ih =>
    simp only [wordBytes, List.length_cons, ih]
    omega

theorem wordBytes_getElem? (ws : List Nat) : ∀ j (hj : j < ws.length),
    (wordBytes ws)[2 * j]? = some (ws[j] % 256)
      ∧ (wordBytes ws)[2 * j + 1]? = some (ws[j] / 256 % 256) := by
  induction ws with
  | nil => intro j hj; simp at hj
  | cons w rest ih =>
    intro j hj
    cases j with
    | zero =>
      simp [wordBytes, WordToBytes_eq]
    | succ j =>
      have hj2 : j < rest.length := by simpa using hj
      have e1 : 2 * (j + 1) = 2 * j + 1 + 1 := by omega
      obtain ⟨a, b⟩ := ih j hj2
      rw [e1]
      simp only [wordBytes, List.getElem?_cons_succ, List.getElem_cons_succ]
      exact ⟨a, b⟩

theorem Go6502.PopWordOffStack_eq (g6 : Go6502) :
    g6.PopWordOffStack
      = ({ g6 with SP := (g6.SP + 2) % 256 },
          .ok (g6.Mem.Mem (1 + 256 * ((g6.SP + 2) % 256))
            ||| ((g6.Mem.Mem (1 + 256 * ((g6.SP + 1) % 256)) <<< 8) % 65536))) := by
  have e : ((g6.SP + 1) % 256 + 1) % 256 = (g6.SP + 2) % 256 := by omega
  simp only [Go6502.PopWordOffStack, Go6502.PopByteOffStack_eq, BytesToWord, e]

theorem Go6502.popWords_eq (n : Nat) : ∀ g6 : Go6502, g6.SP < 256 →
    Go6502.popWords g6 n
      = ({ g6 with SP := (g6.SP + 2 * n) % 256 },
          .ok ((List.range n).map
            (fun k => g6.Mem.Mem (1 + 256 * ((g6.SP + 2 + 2 * k) % 256))
              ||| ((g6.Mem.Mem (1 + 256 * ((g6.SP + 1 + 2 * k) % 256)) <<< 8) % 65536)))) := by
  induction n with
  | zero =>
    intro g6 h
    simp only [Go6502.popWords, List.range_zero, List.map_nil, Nat.mul_zero, Nat.add_zero,
      Nat.mod_eq_of_lt h]
  | succ n ih =>
    intro g6 h
    have h1 : (g6.SP + 2) % 256 < 256 := Nat.mod_lt _ (by decide)
    have e1 : ((g6.SP + 2) % 256 + 2 * n) % 256 = (g6.SP + 2 * (n + 1)) % 256 := by omega
    have e2 : ∀ k, ((g6.SP + 2) % 256 + 2 + 2 * k) % 256
        = (g6.SP + 2 + 2 * (k + 1)) % 256 := by
      intro k; omega
    have e3 : ∀ k, ((g6.SP + 2) % 256 + 1 + 2 * k) % 256
        = (g6.SP + 1 + 2 * (k + 1)) % 256 := by
      intro k; omega
    simp only [Go6502.popWords, Go6502.PopWordOffStack_eq]
    rw [ih { g6 with SP := (g6.SP + 2) % 256 } h1]
    simp only [e1, e2, e3, List.range_succ_eq_map, List.map_cons, List.map_map,
      Nat.mul_zero, Nat.add_zero]
    rfl

theorem interruptVectorLocations_values :
    interruptVectorLocations NMI = 0xFFFA ∧ interruptVectorLocations RST = 0xFFFC
      ∧ interruptVectorLocations IRQ = 0xFFFE ∧ interruptVectorLocations BRK = 0xFFFE := by
  decide

theorem Go6502.GetInterruptVector_eq (g6 : Go6502) (interruptType : String) :
    g6.GetInterruptVector interruptType
      = g6.Mem.ReadWord (interruptVectorLocations interruptType) :=
  rfl

theorem Memory.ReadWord_eq (m : Memory) (loc : Nat) (hm : m.WF) :
    m.ReadWord loc = .ok (m.Mem loc + 256 * m.Mem ((loc + 1) % 65536)) := by
  simp only [Memory.ReadWord, BytesToWord_eq _ _ (hm _) (hm _)]

/-- C7, the code at a failing input: with `SP = 0xFF` the stack address is
`0xFF01`, not `0x01FF`; a push stores its byte at `0xFF01` and leaves the cell
`0x01FF` of the stack page as it was, and a pop that brings `SP` to `0xFF`
reads the cell `0xFF01`. -/
theorem Go6502.stack_address_outside_page (g6 : Go6502) (d : Nat) :
    stackAddress 0xFF = .ok 0xFF01
      ∧ (Go6502.PushByteToStack { g6 with SP := 0xFF } d).1.Mem.Mem 0xFF01 = d
      ∧ (Go6502.PushByteToStack { g6 with SP := 0xFF } d).1.Mem.Mem 0x01FF
          = g6.Mem.Mem 0x01FF
      ∧ (Go6502.PopByteOffStack { g6 with SP := 0xFE }).2 = .ok (g6.Mem.Mem 0xFF01) := by
  have h255 : (Go6502.mk g6.X g6.Y g6.A 0xFF g6.PC g6.Stat g6.Mem g6.interruptOccurred
      g6.currentInterruptType g6.CurrentInstruction g6.shouldStopPCAutoIncrement
      g6.shouldStopEmulation g6.enableAddons).SP < 256 := by
    show (0xFF : Nat) < 256
    decide
  refine ⟨rfl, ?_, ?_, ?_⟩
  · rw [Go6502.PushByteToStack_eq _ _ h255]
    show Function.update g6.Mem.Mem (1 + 256 * 0xFF) d 0xFF01 = d
    exact Function.update_same _ _ _
  · rw [Go6502.PushByteToStack_eq _ _ h255]
    show Function.update g6.Mem.Mem (1 + 256 * 0xFF) d 0x01FF = g6.Mem.Mem 0x01FF
    exact Function.update_noteq (by decide) _ _
  · simp [Go6502.PopByteOffStack_eq]

/-- C8 as stated fails: 257 bytes pushed from `SP = 0xFF` on the zero engine,
a `0` followed by 256 ones, do not come back reversed, because the last push
overwrites the first. -/
theorem Go6502.pop_push_bytes_overflow :
    (Go6502.popBytes
        (Go6502.pushBytes { Go6502.zero with SP := 0xFF } (0 :: List.replicate 256 1)).1
        (0 :: List.replicate 256 1).length).2
      ≠ .ok (0 :: List.replicate 256 1).reverse :=
  Go6502.popBytes_pushBytes_overflow 0 1 (List.replicate 256 1) { Go6502.zero with SP := 0xFF }
    (show (0xFF : Nat) < 256 by decide) (List.length_replicate 256 1) (by rfl) (by decide)

/-- C8, amended: for every list of at most 256 bytes and every starting stack
pointer, pushing the bytes succeeds, popping as many bytes returns them in
reverse order of push, and `SP` is back at its starting value. -/
theorem Go6502.pop_push_bytes_lifo (g6 : Go6502) (bytes : List Nat) (hsp : g6.SP < 256)
    (hlen : bytes.length ≤ 256) :
    (Go6502.pushBytes g6 bytes).2 = .ok ()
      ∧ (Go6502.popBytes (Go6502.pushBytes g6 bytes).1 bytes.length).2 = .ok bytes.reverse
      ∧ (Go6502.popBytes (Go6502.pushBytes g6 bytes).1 bytes.length).1.SP = g6.SP := by
  obtain ⟨r1, r2, r3, _⟩ := Go6502.pushBytes_spec bytes g6 hsp hlen
  have hG : (Go6502.pushBytes g6 bytes).1.SP < 256 := by
    rw [r2]; exact Nat.mod_lt _ (by decide)
  rw [Go6502.popBytes_eq _ _ hG]
  refine ⟨r1, ?_, ?_⟩
  · simp only [r2]
    congr 1
    apply List.ext_getElem
    · simp
    · intro k hk1 hk2
      have hk : k < bytes.length := by simpa using hk1
      have e : ((g6.SP + 256 - bytes.length) % 256 + 1 + k) % 256
          = (g6.SP + 256 - (bytes.length - 1 - k)) % 256 := by omega
      simp only [List.getElem_map, List.getElem_range, List.getElem_reverse, e]
      exact r3 (bytes.length - 1 - k) (by omega)
  · simp only [r2]
    omega

/-- Witness of C8, amended: three bytes pushed from `SP = 0x01`, so that the
stack pointer wraps through `0x00` and `0xFF`. -/
theorem Go6502.pop_push_bytes_lifo_witness :
    (0x01 : Nat) < 256 ∧ [0xAA, 0xBB, 0xCC].length ≤ 256
      ∧ (Go6502.pushBytes { Go6502.zero with SP := 0x01 } [0xAA, 0xBB, 0xCC]).1.SP = 0xFE
      ∧ (Go6502.popBytes
          (Go6502.pushBytes { Go6502.zero with SP := 0x01 } [0xAA, 0xBB, 0xCC]).1 3).2
          = .ok [0xCC, 0xBB, 0xAA]
      ∧ (Go6502.popBytes
          (Go6502.pushBytes { Go6502.zero with SP := 0x01 } [0xAA, 0xBB, 0xCC]).1 3).1.SP
          = 0x01 :=
  have key := Go6502.pop_push_bytes_lifo { Go6502.zero with SP := 0x01 } [0xAA, 0xBB, 0xCC]
    (show (0x01 : Nat) < 256 by decide) (by decide)
  ⟨by decide, by decide, by decide, key.2.1, key.2.2⟩

/-- C9: for every starting stack pointer and every list of at most 128 words,
pushing the words succeeds, popping as many words returns them intact in
reverse order of push, and `SP` is back at its starting value. -/
theorem Go6502.pop_push_words_lifo (g6 : Go6502) (ws : List Nat) (hsp : g6.SP < 256)
    (hlen : ws.length ≤ 128) (hw : ∀ w ∈ ws, w < 65536) :
    (Go6502.pushWords g6 ws).2 = .ok ()
      ∧ (Go6502.popWords (Go6502.pushWords g6 ws).1 ws.length).2 = .ok ws.reverse
      ∧ (Go6502.popWords (Go6502.pushWords g6 ws).1 ws.length).1.SP = g6.SP := by
  have hbl := wordBytes_length ws
  obtain ⟨r1, r2, r3, _⟩ := Go6502.pushBytes_spec (wordBytes ws) g6 hsp (by omega)
  rw [Go6502.pushWords_eq]
  have hG : (Go6502.pushBytes g6 (wordBytes ws)).1.SP < 256 := by
    rw [r2]; exact Nat.mod_lt _ (by decide)
  rw [Go6502.popWords_eq _ _ hG]
  rw [hbl] at r2
  refine ⟨r1, ?_, ?_⟩
  · simp only [r2]
    congr 1
    apply List.ext_getElem
    · simp
    · intro k hk1 hk2
      have hk : k < ws.length := by simpa using hk1
      have hj : ws.length - 1 - k < ws.length := by omega
      obtain ⟨b0, b1⟩ := wordBytes_getElem? ws (ws.length - 1 - k) hj
      have i0 : 2 * (ws.length - 1 - k) < (wordBytes ws).length := by omega
      have i1 : 2 * (ws.length - 1 - k) + 1 < (wordBytes ws).length := by omega
      rw [List.getElem?_eq_getElem i0] at b0
      rw [List.getElem?_eq_getElem i1] at b1
      have v0 := (r3 _ i0).trans (Option.some.inj b0)
      have v1 := (r3 _ i1).trans (Option.some.inj b1)
      have e0 : ((g6.SP + 256 - 2 * ws.length) % 256 + 2 + 2 * k) % 256
          = (g6.SP + 256 - 2 * (ws.length - 1 - k)) % 256 := by omega
      have e1 : ((g6.SP + 256 - 2 * ws.length) % 256 + 1 + 2 * k) % 256
          = (g6.SP + 256 - (2 * (ws.length - 1 - k) + 1)) % 256 := by omega
      have hwk : ws[ws.length - 1 - k] < 65536 := hw _ (List.getElem_mem _)
      simp only [List.getElem_map, List.getElem_range, List.getElem_reverse, e0, e1, v0, v1]
      rw [or_shift8 _ _ (Nat.mod_lt _ (by decide)) (Nat.mod_lt _ (by decide))]
      omega
  · simp only [r2]
    omega

/-- Witness of C9: the words `0x9559` and `0x1234` pushed from `SP = 0x01`, so
that the stack pointer wraps. -/
theorem Go6502.pop_push_words_lifo_witness :
    (0x01 : Nat) < 256 ∧ [0x9559, 0x1234].length ≤ 128
      ∧ (∀ w ∈ [0x9559, 0x1234], w < 65536)
      ∧ (Go6502.popWords
          (Go6502.pushWords { Go6502.zero with SP := 0x01 } [0x9559, 0x1234]).1 2).2
          = .ok [0x1234, 0x9559]
      ∧ (Go6502.popWords
          (Go6502.pushWords { Go6502.zero with SP := 0x01 } [0x9559, 0x1234]).1 2).1.SP
          = 0x01 :=
  have hw : ∀ w ∈ [0x9559, 0x1234], w < 65536 := by decide
  have key := Go6502.pop_push_words_lifo { Go6502.zero with SP := 0x01 } [0x9559, 0x1234]
    (show (0x01 : Nat) < 256 by decide) (by decide) hw
  ⟨by decide, by decide, hw, key.2.1, key.2.2⟩

/-- C10: on a memory of bytes, `GetInterruptVector` returns with a nil error
the little-endian word at `0xFFFA` for NMI, at `0xFFFC` for RST and at `0xFFFE`
for IRQ and for BRK; after `WriteWord` of a 16-bit word `w` at that location it
returns `w`. -/
theorem Go6502.getInterruptVector_spec (g6 : Go6502) (w : Nat) (hm : g6.Mem.WF)
    (hw : w < 65536) :
    g6.GetInterruptVector NMI = .ok (g6.Mem.Mem 0xFFFA + 256 * g6.Mem.Mem 0xFFFB)
      ∧ g6.GetInterruptVector RST = .ok (g6.Mem.Mem 0xFFFC + 256 * g6.Mem.Mem 0xFFFD)
      ∧ g6.GetInterruptVector IRQ = .ok (g6.Mem.Mem 0xFFFE + 256 * g6.Mem.Mem 0xFFFF)
      ∧ g6.GetInterruptVector BRK = .ok (g6.Mem.Mem 0xFFFE + 256 * g6.Mem.Mem 0xFFFF)
      ∧ Go6502.GetInterruptVector { g6 with Mem := (g6.Mem.WriteWord 0xFFFA w).1 } NMI = .ok w
      ∧ Go6502.GetInterruptVector { g6 with Mem := (g6.Mem.WriteWord 0xFFFC w).1 } RST = .ok w
      ∧ Go6502.GetInterruptVector { g6 with Mem := (g6.Mem.WriteWord 0xFFFE w).1 } IRQ = .ok w
      ∧ Go6502.GetInterruptVector { g6 with Mem := (g6.Mem.WriteWord 0xFFFE w).1 } BRK
          = .ok w := by
  obtain ⟨l1, l2, l3, l4⟩ := interruptVectorLocations_values
  simp only [Go6502.GetInterruptVector_eq, l1, l2, l3, l4]
  refine ⟨Memory.ReadWord_eq _ _ hm, Memory.ReadWord_eq _ _ hm, Memory.ReadWord_eq _ _ hm,
    Memory.ReadWord_eq _ _ hm, ?_, ?_, ?_, ?_⟩
  all_goals exact Memory.ReadWord_WriteWord _ _ _ hw

/-- Witness of C10: the zero engine and the word `0x9559` of the test. -/
theorem Go6502.getInterruptVector_spec_witness :
    Go6502.zero.Mem.WF ∧ 0x9559 < 65536
      ∧ Go6502.zero.GetInterruptVector NMI = .ok 0
      ∧ Go6502.GetInterruptVector
          { Go6502.zero with Mem := (Go6502.zero.Mem.WriteWord 0xFFFA 0x9559).1 } NMI
          = .ok 0x9559
      ∧ Go6502.GetInterruptVector
          { Go6502.zero with Mem := (Go6502.zero.Mem.WriteWord 0xFFFC 0x9559).1 } RST
          = .ok 0x9559
      ∧ Go6502.GetInterruptVector
          { Go6502.zero with Mem := (Go6502.zero.Mem.WriteWord 0xFFFE 0x9559).1 } IRQ
          = .ok 0x9559 :=
  have hm : Go6502.zero.Mem.WF := fun _ => show (0 : Nat) < 256 by decide
  have key := Go6502.getInterruptVector_spec Go6502.zero 0x9559 hm (by decide)
  ⟨hm, by decide, key.1, key.2.2.2.2.1, key.2.2.2.2.2.1, key.2.2.2.2.2.2.1⟩

end cpu

namespace cpu

open memory

theorem zeroPageAddress_eq (addr : Nat) : zeroPageAddress addr = .ok addr := by
  simp [zeroPageAddress, BytesToWord]

theorem ReadWord_next (m : Memory) (pc : Nat) (hm : m.WF) :
    m.ReadWord ((pc + 1) % 65536)
      = .ok (m.Mem ((pc + 1) % 65536) + 256 * m.Mem ((pc + 2) % 65536)) := by
  have e : ((pc + 1) % 65536 + 1) % 65536 = (pc + 2) % 65536 := by omega
  rw [Memory.ReadWord_eq _ _ hm, e]

theorem relative_eq (g6 : Go6502) (b : Nat) (hb : g6.Mem.Mem ((g6.PC + 1) % 65536) = b)
    (hlt : b < 256) :
    relative g6
      = .ok (Int.toNat (((g6.PC : Int) + 2 + (if b < 128 then (b : Int) else (b : Int) - 256))
          % 65536)) := by
  simp only [relative, Memory.ReadByte, hb]
  congr 1
  unfold uint16 wrapInt16 int16 int8
  split_ifs <;> omega

/-- C14: on a memory of bytes, the relative addressing mode returns
`(PC + 2 + s) mod 65536`, where `s` in `-128 .. 127` is the byte at `PC + 1`
read as a signed 8-bit value. -/
theorem relative_spec (g6 : Go6502) (hm : g6.Mem.WF) :
    relative g6
        = .ok (Int.toNat (((g6.PC : Int) + 2
            + (if g6.Mem.Mem ((g6.PC + 1) % 65536) < 128
                then (g6.Mem.Mem ((g6.PC + 1) % 65536) : Int)
                else (g6.Mem.Mem ((g6.PC + 1) % 65536) : Int) - 256)) % 65536))
      ∧ -128 ≤ (if g6.Mem.Mem ((g6.PC + 1) % 65536) < 128
                then (g6.Mem.Mem ((g6.PC + 1) % 65536) : Int)
                else (g6.Mem.Mem ((g6.PC + 1) % 65536) : Int) - 256)
      ∧ (if g6.Mem.Mem ((g6.PC + 1) % 65536) < 128
                then (g6.Mem.Mem ((g6.PC + 1) % 65536) : Int)
                else (g6.Mem.Mem ((g6.PC + 1) % 65536) : Int) - 256) ≤ 127 := by
  have hlt := hm ((g6.PC + 1) % 65536)
  refine ⟨relative_eq g6 _ rfl hlt, ?_, ?_⟩
  · split_ifs <;> omega
  · split_ifs <;> omega

theorem Memory.WF_const (v : Nat) (hv : v < 256) : (Memory.mk (fun _ => v)).WF :=
  fun _ => hv

theorem Memory.WF_update (m : Memory) (hm : m.WF) (a v : Nat) (hv : v < 256) :
    (Memory.mk (Function.update m.Mem a v)).WF := by
  intro x
  by_cases h : x = a
  · subst h
    simpa [Function.update_same] using hv
  · simpa [Function.update_noteq h] using hm x

/-- Witness of C14: `PC = 0x1000` with the offset byte `0xFE` at `0x1001` gives
`0x1000`, and with the offset byte `0x7F` gives `0x1081`. -/
theorem relative_spec_witness :
    (Memory.mk (Function.update (fun _ => 0) 0x1001 0xFE)).WF
      ∧ relative { Go6502.zero with
          PC := 0x1000, Mem := Memory.mk (Function.update (fun _ => 0) 0x1001 0xFE) }
        = .ok 0x1000
      ∧ relative { Go6502.zero with
          PC := 0x1000, Mem := Memory.mk (Function.update (fun _ => 0) 0x1001 0x7F) }
        = .ok 0x1081 :=
  have hm : ∀ v, v < 256 → (Memory.mk (Function.update (fun _ => 0) 0x1001 v)).WF :=
    fun v hv => Memory.WF_update (Memory.mk (fun _ => 0)) (Memory.WF_const 0 (by decide))
      0x1001 v hv
  ⟨hm 0xFE (by decide),
    (relative_spec { Go6502.zero with
      PC := 0x1000, Mem := Memory.mk (Function.update (fun _ => 0) 0x1001 0xFE) }
      (hm 0xFE (by decide))).1.trans (by simp [Function.update]),
    (relative_spec { Go6502.zero with
      PC := 0x1000, Mem := Memory.mk (Function.update (fun _ => 0) 0x1001 0x7F) }
      (hm 0x7F (by decide))).1.trans (by simp [Function.update])⟩

/-- C15: `zeroPageX` and `zeroPageY` return `(b + X) mod 256` and
`(b + Y) mod 256`, `b` being the byte at `PC + 1`, hence at most `0x00FF`;
`indirectX` reads its word at the pointer `(b + X) mod 256`; with `b = 0xFF` and
`X = 0x02` the zero-page address is `0x0001`. -/
theorem zeroPage_index_no_carry (g6 : Go6502) :
    zeroPageX g6 = .ok ((g6.Mem.Mem ((g6.PC + 1) % 65536) + g6.X) % 256)
      ∧ zeroPageY g6 = .ok ((g6.Mem.Mem ((g6.PC + 1) % 65536) + g6.Y) % 256)
      ∧ (g6.Mem.Mem ((g6.PC + 1) % 65536) + g6.X) % 256 ≤ 0x00FF
      ∧ (g6.Mem.Mem ((g6.PC + 1) % 65536) + g6.Y) % 256 ≤ 0x00FF
      ∧ indirectX g6
          = g6.Mem.ReadWord ((g6.Mem.Mem ((g6.PC + 1) % 65536) + g6.X) % 256)
      ∧ zeroPageX { Go6502.zero with X := 0x02, Mem := Memory.mk (fun _ => 0xFF) }
          = .ok 0x0001 := by
  refine ⟨?_, ?_, ?_, ?_, ?_, ?_⟩
  · simp only [zeroPageX, Memory.ReadByte, zeroPageAddress_eq]
  · simp only [zeroPageY, Memory.ReadByte, zeroPageAddress_eq]
  · omega
  · omega
  · simp only [indirectX, Memory.ReadByte, zeroPageAddress_eq, Memory.ReadWord, BytesToWord]
  · simp only [zeroPageX, Memory.ReadByte, zeroPageAddress_eq]

/-- C16: on a memory of bytes, `absoluteX` and `absoluteY` return
`(w + X) mod 65536` and `(w + Y) mod 65536`, `w` being the little-endian word
at `PC + 1` and `PC + 2`, which `absolute` returns. -/
theorem absolute_index_carry (g6 : Go6502) (hm : g6.Mem.WF) :
    absolute g6
        = .ok (g6.Mem.Mem ((g6.PC + 1) % 65536) + 256 * g6.Mem.Mem ((g6.PC + 2) % 65536))
      ∧ absoluteX g6
        = .ok ((g6.Mem.Mem ((g6.PC + 1) % 65536) + 256 * g6.Mem.Mem ((g6.PC + 2) % 65536)
            + g6.X) % 65536)
      ∧ absoluteY g6
        = .ok ((g6.Mem.Mem ((g6.PC + 1) % 65536) + 256 * g6.Mem.Mem ((g6.PC + 2) % 65536)
            + g6.Y) % 65536) := by
  refine ⟨?_, ?_, ?_⟩
  · simp only [absolute, ReadWord_next _ _ hm]
  · simp only [absoluteX, ReadWord_next _ _ hm]
  · simp only [absoluteY, ReadWord_next _ _ hm]

/-- Witness of C16: the word `0x12FF` at addresses 1 and 2, `PC = 0` and
`X = 1`; the carry of the index goes into the high byte and gives `0x1300`. -/
theorem absolute_index_carry_witness :
    (Memory.mk (Function.update (Function.update (fun _ => 0) 1 0xFF) 2 0x12)).WF
      ∧ absoluteX { Go6502.zero with
          X := 1
          Mem := Memory.mk (Function.update (Function.update (fun _ => 0) 1 0xFF) 2 0x12) }
        = .ok 0x1300 :=
  have hm : (Memory.mk (Function.update (Function.update (fun _ => 0) 1 0xFF) 2 0x12)).WF :=
    Memory.WF_update _
      (Memory.WF_update (Memory.mk (fun _ => 0)) (Memory.WF_const 0 (by decide)) 1 0xFF
        (by decide))
      2 0x12 (by decide)
  ⟨hm, (absolute_index_carry { Go6502.zero with
      X := 1
      Mem := Memory.mk (Function.update (Function.update (fun _ => 0) 1 0xFF) 2 0x12) }
      hm).2.1.trans (by simp [Function.update, Go6502.zero])⟩

/-- C17: on a memory of bytes, with `b` the byte at `PC + 1`: `indirectY` is the
word read at the zero-page address `b`, plus `Y`, modulo `65536`; `indirectX`
is the word read at `(b + X) mod 256`; `indirect` is the word read at the word
read at `PC + 1`. Each word read is `ReadWord` of the memory at that place. -/
theorem indirect_modes (g6 : Go6502) (hm : g6.Mem.WF) :
    g6.Mem.ReadWord (g6.Mem.Mem ((g6.PC + 1) % 65536))
        = .ok (g6.Mem.Mem (g6.Mem.Mem ((g6.PC + 1) % 65536))
            + 256 * g6.Mem.Mem ((g6.Mem.Mem ((g6.PC + 1) % 65536) + 1) % 65536))
      ∧ indirectY g6
        = .ok ((g6.Mem.Mem (g6.Mem.Mem ((g6.PC + 1) % 65536))
            + 256 * g6.Mem.Mem ((g6.Mem.Mem ((g6.PC + 1) % 65536) + 1) % 65536)
            + g6.Y) % 65536)
      ∧ indirectX g6
        = g6.Mem.ReadWord ((g6.Mem.Mem ((g6.PC + 1) % 65536) + g6.X) % 256)
      ∧ g6.Mem.ReadWord ((g6.PC + 1) % 65536)
        = .ok (g6.Mem.Mem ((g6.PC + 1) % 65536) + 256 * g6.Mem.Mem ((g6.PC + 2) % 65536))
      ∧ indirect g6
        = g6.Mem.ReadWord
            (g6.Mem.Mem ((g6.PC + 1) % 65536) + 256 * g6.Mem.Mem ((g6.PC + 2) % 65536)) := by
  refine ⟨Memory.ReadWord_eq _ _ hm, ?_, ?_, ReadWord_next _ _ hm, ?_⟩
  · simp only [indirectY, Memory.ReadByte, zeroPageAddress_eq, Memory.ReadWord_eq _ _ hm]
  · simp only [indirectX, Memory.ReadByte, zeroPageAddress_eq, Memory.ReadWord, BytesToWord]
  · simp only [indirect, ReadWord_next _ _ hm, Memory.ReadWord_eq _ _ hm]

/-- Witness of C17: every cell holds `0x01`, so the pointer is `0x01`, the
word read there is `0x0101`, and with `Y = 0xFF` the carry reaches the high
byte: `0x0200`. -/
theorem indirect_modes_witness :
    (Memory.mk (fun _ => 0x01)).WF
      ∧ indirectY { Go6502.zero with Y := 0xFF, Mem := Memory.mk (fun _ => 0x01) }
          = .ok 0x0200 :=
  have hm : (Memory.mk (fun _ => 0x01)).WF := Memory.WF_const 0x01 (by decide)
  ⟨hm, (indirect_modes { Go6502.zero with Y := 0xFF, Mem := Memory.mk (fun _ => 0x01) }
      hm).2.1.trans (by simp)⟩

set_option maxRecDepth 100000 in
theorem carry_mask_iff : ∀ t, t < 512 → ((t &&& 0xFF00 ≠ 0) ↔ 256 ≤ t) := by
  decide

theorem sign_mask_eq (x : Nat) : x &&& 0x80 = (x.testBit 7).toNat * 128 := by
  have h := Nat.and_two_pow x 7
  simpa using h

theorem sign_mask_ne_iff (a r : Nat) :
    (a &&& 0x80 ≠ r &&& 0x80) ↔ a.testBit 7 ≠ r.testBit 7 := by
  rw [sign_mask_eq, sign_mask_eq]
  cases a.testBit 7 <;> cases r.testBit 7 <;> simp

theorem int8_pos_iff (v : Nat) : int8 v > 0 ↔ (0 < v % 256 ∧ v % 256 < 128) := by
  unfold int8
  split_ifs <;> omega

theorem InstructionHandlers.ADC_raw (g6 : Go6502) (addr : Nat) :
    (InstructionHandlers.ADC g6 (some addr)).2 = .ok ()
      ∧ (InstructionHandlers.ADC g6 (some addr)).1.A
          = (if g6.Stat.Carry then ((g6.A + g6.Mem.Mem addr) % 65536 + 1) % 65536
              else (g6.A + g6.Mem.Mem addr) % 65536) % 256
      ∧ (InstructionHandlers.ADC g6 (some addr)).1.Stat.Carry
          = decide ((if g6.Stat.Carry then ((g6.A + g6.Mem.Mem addr) % 65536 + 1) % 65536
              else (g6.A + g6.Mem.Mem addr) % 65536) &&& 0xFF00 ≠ 0)
      ∧ (InstructionHandlers.ADC g6 (some addr)).1.Stat.Zero
          = decide ((if g6.Stat.Carry then ((g6.A + g6.Mem.Mem addr) % 65536 + 1) % 65536
              else (g6.A + g6.Mem.Mem addr) % 65536) % 256 = 0)
      ∧ (InstructionHandlers.ADC g6 (some addr)).1.Stat.Overflow
          = decide (g6.A &&& 0x80
              ≠ (if g6.Stat.Carry then ((g6.A + g6.Mem.Mem addr) % 65536 + 1) % 65536
                  else (g6.A + g6.Mem.Mem addr) % 65536) % 256 &&& 0x80)
      ∧ (InstructionHandlers.ADC g6 (some addr)).1.Stat.Negative
          = decide (int8 ((if g6.Stat.Carry then ((g6.A + g6.Mem.Mem addr) % 65536 + 1) % 65536
              else (g6.A + g6.Mem.Mem addr) % 65536) % 256) > 0)
      ∧ (InstructionHandlers.ADC g6 (some addr)).1.Stat.Decimal = g6.Stat.Decimal
      ∧ (InstructionHandlers.ADC g6 (some addr)).1.Stat.InterruptDisable
          = g6.Stat.InterruptDisable :=
  ⟨rfl, rfl, rfl, rfl, rfl, rfl, rfl, rfl⟩

theorem InstructionHandlers.ADC_eq (g6 : Go6502) (addr : Nat) (hA : g6.A < 256)
    (hM : g6.Mem.Mem addr < 256) :
    (InstructionHandlers.ADC g6 (some addr)).2 = .ok ()
      ∧ (InstructionHandlers.ADC g6 (some addr)).1.A
          = (g6.A + g6.Mem.Mem addr + (if g6.Stat.Carry then 1 else 0)) % 256
      ∧ (InstructionHandlers.ADC g6 (some addr)).1.Stat.Carry
          = decide (256 ≤ g6.A + g6.Mem.Mem addr + (if g6.Stat.Carry then 1 else 0))
      ∧ (InstructionHandlers.ADC g6 (some addr)).1.Stat.Zero
          = decide ((g6.A + g6.Mem.Mem addr + (if g6.Stat.Carry then 1 else 0)) % 256 = 0)
      ∧ (InstructionHandlers.ADC g6 (some addr)).1.Stat.Overflow
          = decide (((g6.A + g6.Mem.Mem addr + (if g6.Stat.Carry then 1 else 0)) % 256).testBit 7
              ≠ g6.A.testBit 7)
      ∧ (InstructionHandlers.ADC g6 (some addr)).1.Stat.Decimal = g6.Stat.Decimal := by
  have htot : (if g6.Stat.Carry then ((g6.A + g6.Mem.Mem addr) % 65536 + 1) % 65536
      else (g6.A + g6.Mem.Mem addr) % 65536)
        = g6.A + g6.Mem.Mem addr + (if g6.Stat.Carry then 1 else 0) := by
    split_ifs <;> omega
  have hlt : g6.A + g6.Mem.Mem addr + (if g6.Stat.Carry then 1 else 0) < 512 := by
    split_ifs <;> omega
  obtain ⟨r1, r2, r3, r4, r5, _, r7, _⟩ := InstructionHandlers.ADC_raw g6 addr
  rw [htot] at r2 r3 r4 r5
  refine ⟨r1, r2, ?_, r4, ?_, r7⟩
  · rw [r3]
    exact decide_eq_decide.mpr (carry_mask_iff _ hlt)
  · rw [r5]
    exact decide_eq_decide.mpr ((sign_mask_ne_iff _ _).trans ne_comm)

/-- C18 as stated fails: on the zero engine with `A = 0xFF`, Carry clear and
every cell holding `0x01`, the ADC handler does not leave `A = 0x00`, Carry
set, Zero set and Overflow clear, because it sets Overflow. -/
theorem InstructionHandlers.ADC_FF_plus_01_overflow :
    ¬ ((InstructionHandlers.ADC
          { Go6502.zero with A := 0xFF, Mem := Memory.mk (fun _ => 0x01) } (some 0x10)).1.A
          = 0x00
        ∧ (InstructionHandlers.ADC
          { Go6502.zero with A := 0xFF, Mem := Memory.mk (fun _ => 0x01) }
          (some 0x10)).1.Stat.Carry = true
        ∧ (InstructionHandlers.ADC
          { Go6502.zero with A := 0xFF, Mem := Memory.mk (fun _ => 0x01) }
          (some 0x10)).1.Stat.Zero = true
        ∧ (InstructionHandlers.ADC
          { Go6502.zero with A := 0xFF, Mem := Memory.mk (fun _ => 0x01) }
          (some 0x10)).1.Stat.Overflow = false) := by
  decide

/-- C18, amended: the ADC handler with `A = 0xFF`, the operand byte `0x01` at
the target address and Carry clear succeeds and yields `A = 0x00`, Carry set,
Zero set and Overflow set. -/
theorem InstructionHandlers.ADC_FF_plus_01 (g6 : Go6502) (addr : Nat) (hA : g6.A = 0xFF)
    (hM : g6.Mem.Mem addr = 0x01) (hC : g6.Stat.Carry = false) :
    (InstructionHandlers.ADC g6 (some addr)).2 = .ok ()
      ∧ (InstructionHandlers.ADC g6 (some addr)).1.A = 0x00
      ∧ (InstructionHandlers.ADC g6 (some addr)).1.Stat.Carry = true
      ∧ (InstructionHandlers.ADC g6 (some addr)).1.Stat.Zero = true
      ∧ (InstructionHandlers.ADC g6 (some addr)).1.Stat.Overflow = true := by
  obtain ⟨r1, r2, r3, r4, r5, _⟩ :=
    InstructionHandlers.ADC_eq g6 addr (by omega) (by omega)
  rw [hA, hM, hC] at r2 r3 r4 r5
  exact ⟨r1, r2.trans (by decide), r3.trans (by decide), r4.trans (by decide),
    r5.trans (by decide)⟩

/-- Witness of C18, amended: the zero engine with `A = 0xFF` and every memory
cell holding `0x01`. -/
theorem InstructionHandlers.ADC_FF_plus_01_witness :
    (InstructionHandlers.ADC
        { Go6502.zero with A := 0xFF, Mem := Memory.mk (fun _ => 0x01) } (some 0x10)).1.A
        = 0x00
      ∧ (InstructionHandlers.ADC
        { Go6502.zero with A := 0xFF, Mem := Memory.mk (fun _ => 0x01) }
        (some 0x10)).1.Stat.Overflow = true :=
  have key := InstructionHandlers.ADC_FF_plus_01
    { Go6502.zero with A := 0xFF, Mem := Memory.mk (fun _ => 0x01) } 0x10 rfl rfl rfl
  ⟨key.2.1, key.2.2.2.2⟩

/-- C19: for every accumulator `A`, operand byte `M` at the target address and
carry-in `c`, the ADC handler succeeds and leaves `A = (A + M + c) mod 256`,
Carry set exactly when `A + M + c >= 256`, Zero set exactly when the new `A` is
`0`, Overflow set exactly when bit 7 of the new `A` differs from bit 7 of the
old one; the Decimal flag is kept and has no influence on any of these. -/
theorem InstructionHandlers.ADC_spec (g6 : Go6502) (addr : Nat) (hA : g6.A < 256)
    (hM : g6.Mem.Mem addr < 256) :
    (InstructionHandlers.ADC g6 (some addr)).2 = .ok ()
      ∧ (InstructionHandlers.ADC g6 (some addr)).1.A
          = (g6.A + g6.Mem.Mem addr + (if g6.Stat.Carry then 1 else 0)) % 256
      ∧ (InstructionHandlers.ADC g6 (some addr)).1.Stat.Carry
          = decide (256 ≤ g6.A + g6.Mem.Mem addr + (if g6.Stat.Carry then 1 else 0))
      ∧ (InstructionHandlers.ADC g6 (some addr)).1.Stat.Zero
          = decide ((InstructionHandlers.ADC g6 (some addr)).1.A = 0)
      ∧ (InstructionHandlers.ADC g6 (some addr)).1.Stat.Overflow
          = decide ((InstructionHandlers.ADC g6 (some addr)).1.A.testBit 7 ≠ g6.A.testBit 7)
      ∧ (InstructionHandlers.ADC g6 (some addr)).1.Stat.Decimal = g6.Stat.Decimal
      ∧ ∀ d : Bool,
          (InstructionHandlers.ADC { g6 with Stat := { g6.Stat with Decimal := d } }
              (some addr)).1.A = (InstructionHandlers.ADC g6 (some addr)).1.A
            ∧ (InstructionHandlers.ADC { g6 with Stat := { g6.Stat with Decimal := d } }
              (some addr)).1.Stat.Carry = (InstructionHandlers.ADC g6 (some addr)).1.Stat.Carry
            ∧ (InstructionHandlers.ADC { g6 with Stat := { g6.Stat with Decimal := d } }
              (some addr)).1.Stat.Zero = (InstructionHandlers.ADC g6 (some addr)).1.Stat.Zero
            ∧ (InstructionHandlers.ADC { g6 with Stat := { g6.Stat with Decimal := d } }
              (some addr)).1.Stat.Overflow
                = (InstructionHandlers.ADC g6 (some addr)).1.Stat.Overflow := by
  obtain ⟨r1, r2, r3, r4, r5, r6⟩ := InstructionHandlers.ADC_eq g6 addr hA hM
  refine ⟨r1, r2, r3, ?_, ?_, r6, fun d => ⟨rfl, rfl, rfl, rfl⟩⟩
  · rw [r4, r2]
  · rw [r5, r2]

/-- Witness of C19: `A = 0x7F`, operand `0x01`, Carry set: the sum `0x81` has no
carry out, is not zero, and its bit 7 differs from that of `0x7F`. -/
theorem InstructionHandlers.ADC_spec_witness :
    (0x7F : Nat) < 256 ∧ (0x01 : Nat) < 256
      ∧ (InstructionHandlers.ADC
          { Go6502.zero with
            A := 0x7F, Stat := ⟨false, false, true, false, false, true⟩
            Mem := Memory.mk (fun _ => 0x01) } (some 0x10)).1.A = 0x81
      ∧ (InstructionHandlers.ADC
          { Go6502.zero with
            A := 0x7F, Stat := ⟨false, false, true, false, false, true⟩
            Mem := Memory.mk (fun _ => 0x01) } (some 0x10)).1.Stat.Carry = false
      ∧ (InstructionHandlers.ADC
          { Go6502.zero with
            A := 0x7F, Stat := ⟨false, false, true, false, false, true⟩
            Mem := Memory.mk (fun _ => 0x01) } (some 0x10)).1.Stat.Overflow = true :=
  have key := InstructionHandlers.ADC_spec
    { Go6502.zero with
      A := 0x7F, Stat := ⟨false, false, true, false, false, true⟩
      Mem := Memory.mk (fun _ => 0x01) } 0x10
    (show (0x7F : Nat) < 256 by decide) (show (0x01 : Nat) < 256 by decide)
  ⟨by decide, by decide, key.2.1.trans (by decide), key.2.2.1.trans (by decide),
    key.2.2.2.2.1.trans (by decide)⟩

theorem setZeroNegativeFlags_eq (g6 : Go6502) (val : Nat) :
    setZeroNegativeFlags g6 val
      = { g6 with
          Stat := { g6.Stat with
            Zero := decide (val = 0)
            Negative := decide (0 < val % 256 ∧ val % 256 < 128) } } := by
  have h : decide (int8 val > 0) = decide (0 < val % 256 ∧ val % 256 < 128) :=
    decide_eq_decide.mpr (int8_pos_iff val)
  simp only [setZeroNegativeFlags, h]

/-- C20, the code at failing inputs: the load handlers copy the byte and set
Zero as claimed, but loading `0x80` leaves Negative clear and loading `0x01`
sets it, for LDA, LDX and LDY alike. -/
theorem InstructionHandlers.load_negative_inverted (g6 : Go6502) (addr : Nat) :
    (InstructionHandlers.LDA { g6 with Mem := Memory.mk (fun _ => 0x80) } (some addr)).1.A
        = 0x80
      ∧ (InstructionHandlers.LDA { g6 with Mem := Memory.mk (fun _ => 0x80) }
          (some addr)).1.Stat.Negative = false
      ∧ (InstructionHandlers.LDA { g6 with Mem := Memory.mk (fun _ => 0x01) }
          (some addr)).1.Stat.Negative = true
      ∧ (InstructionHandlers.LDX { g6 with Mem := Memory.mk (fun _ => 0x80) } (some addr)).1.X
        = 0x80
      ∧ (InstructionHandlers.LDX { g6 with Mem := Memory.mk (fun _ => 0x80) }
          (some addr)).1.Stat.Negative = false
      ∧ (InstructionHandlers.LDX { g6 with Mem := Memory.mk (fun _ => 0x01) }
          (some addr)).1.Stat.Negative = true
      ∧ (InstructionHandlers.LDY { g6 with Mem := Memory.mk (fun _ => 0x80) } (some addr)).1.Y
        = 0x80
      ∧ (InstructionHandlers.LDY { g6 with Mem := Memory.mk (fun _ => 0x80) }
          (some addr)).1.Stat.Negative = false
      ∧ (InstructionHandlers.LDY { g6 with Mem := Memory.mk (fun _ => 0x01) }
          (some addr)).1.Stat.Negative = true := by
  simp only [InstructionHandlers.LDA, InstructionHandlers.LDX, InstructionHandlers.LDY,
    Memory.ReadByte, setZeroNegativeFlags_eq]
  decide

theorem Go6502.PushWordToStack_eq (g6 : Go6502) (w : Nat) (h : g6.SP < 256) :
    g6.PushWordToStack w
      = ({ g6 with
            Mem := Memory.mk (Function.update
              (Function.update g6.Mem.Mem (1 + 256 * g6.SP) (w % 256))
              (1 + 256 * ((g6.SP + 255) % 256)) (w / 256 % 256))
            SP := (g6.SP + 254) % 256 }, .ok ()) := by
  have h1 : (g6.SP + 255) % 256 < 256 := Nat.mod_lt _ (by decide)
  have e : ((g6.SP + 255) % 256 + 255) % 256 = (g6.SP + 254) % 256 := by omega
  simp only [Go6502.PushWordToStack, WordToBytes_eq, Go6502.PushByteToStack_raw,
    or_shift8 1 _ (by decide) h, or_shift8 1 _ (by decide) h1, e]

theorem Go6502.nonRSTInterrupt_eq (g6 : Go6502) (t : String) (h : g6.SP < 256) :
    g6.nonRSTInterrupt t
      = ({ g6 with
            Mem := Memory.mk (Function.update
              (Function.update
                (Function.update g6.Mem.Mem (1 + 256 * g6.SP) (g6.PC % 256))
                (1 + 256 * ((g6.SP + 255) % 256)) (g6.PC / 256 % 256))
              (1 + 256 * ((g6.SP + 254) % 256)) (g6.Stat.AsByte (decide (t = BRK))))
            SP := (g6.SP + 253) % 256 }, .ok ()) := by
  have h2 : (g6.SP + 254) % 256 < 256 := Nat.mod_lt _ (by decide)
  have e : ((g6.SP + 254) % 256 + 255) % 256 = (g6.SP + 253) % 256 := by omega
  simp only [Go6502.nonRSTInterrupt, Go6502.PushWordToStack_eq g6 _ h,
    Go6502.PushByteToStack_raw, or_shift8 1 _ (by decide) h2, e]

theorem stack3 (m : Nat → Nat) (sp a b c : Nat) (h : sp < 256) :
    Function.update (Function.update (Function.update m (1 + 256 * sp) a)
        (1 + 256 * ((sp + 255) % 256)) b) (1 + 256 * ((sp + 254) % 256)) c (1 + 256 * sp) = a
      ∧ Function.update (Function.update (Function.update m (1 + 256 * sp) a)
        (1 + 256 * ((sp + 255) % 256)) b) (1 + 256 * ((sp + 254) % 256)) c
          (1 + 256 * ((sp + 255) % 256)) = b
      ∧ Function.update (Function.update (Function.update m (1 + 256 * sp) a)
        (1 + 256 * ((sp + 255) % 256)) b) (1 + 256 * ((sp + 254) % 256)) c
          (1 + 256 * ((sp + 254) % 256)) = c
      ∧ ∀ x, x % 256 ≠ 1 →
          Function.update (Function.update (Function.update m (1 + 256 * sp) a)
            (1 + 256 * ((sp + 255) % 256)) b) (1 + 256 * ((sp + 254) % 256)) c x = m x := by
  have n1 : 1 + 256 * sp ≠ 1 + 256 * ((sp + 254) % 256) := by omega
  have n2 : 1 + 256 * sp ≠ 1 + 256 * ((sp + 255) % 256) := by omega
  have n3 : 1 + 256 * ((sp + 255) % 256) ≠ 1 + 256 * ((sp + 254) % 256) := by omega
  refine ⟨?_, ?_, ?_, ?_⟩
  · rw [Function.update_noteq n1, Function.update_noteq n2, Function.update_same]
  · rw [Function.update_noteq n3, Function.update_same]
  · rw [Function.update_same]
  · intro x hx
    have x1 : x ≠ 1 + 256 * ((sp + 254) % 256) := by omega
    have x2 : x ≠ 1 + 256 * ((sp + 255) % 256) := by omega
    have x3 : x ≠ 1 + 256 * sp := by omega
    rw [Function.update_noteq x1, Function.update_noteq x2, Function.update_noteq x3]

theorem Go6502.HandleInterrupts_nonRST (g6 : Go6502) (h : g6.SP < 256)
    (ht : g6.currentInterruptType ≠ RST) :
    g6.HandleInterrupts.2 = .ok ()
      ∧ g6.HandleInterrupts.1.SP = (g6.SP + 253) % 256
      ∧ g6.HandleInterrupts.1.Mem.Mem
          = Function.update (Function.update
              (Function.update g6.Mem.Mem (1 + 256 * g6.SP) (g6.PC % 256))
              (1 + 256 * ((g6.SP + 255) % 256)) (g6.PC / 256 % 256))
              (1 + 256 * ((g6.SP + 254) % 256))
              (g6.Stat.AsByte (decide (g6.currentInterruptType = BRK)))
      ∧ g6.HandleInterrupts.1.Stat = { g6.Stat with InterruptDisable := true }
      ∧ g6.HandleInterrupts.1.Mem.ReadWord (interruptVectorLocations g6.currentInterruptType)
          = .ok g6.HandleInterrupts.1.PC
      ∧ g6.HandleInterrupts.1.interruptOccurred = false
      ∧ g6.HandleInterrupts.1.currentInterruptType = ""
      ∧ g6.HandleInterrupts.1.A = g6.A
      ∧ g6.HandleInterrupts.1.X = g6.X
      ∧ g6.HandleInterrupts.1.Y = g6.Y := by
  simp only [Go6502.HandleInterrupts, ht, ne_eq, not_false_eq_true, if_true,
    Go6502.nonRSTInterrupt_eq g6 _ h, Go6502.GetInterruptVector, Memory.ReadWord, BytesToWord]
  simp

theorem Status.FromByte_AsByte (s t : Status) (b : Bool) : t.FromByte (s.AsByte b) = s := by
  rw [Status.FromByte_eq]
  obtain ⟨n, v, d, i, z, c⟩ := s
  cases n <;> cases v <;> cases d <;> cases i <;> cases z <;> cases c <;> cases b <;> decide

theorem InstructionHandlers.RTI_proj (g6 : Go6502) (targetAddress : Option Nat) :
    (InstructionHandlers.RTI g6 targetAddress).2 = .ok ()
      ∧ (InstructionHandlers.RTI g6 targetAddress).1.SP = (g6.SP + 3) % 256
      ∧ (InstructionHandlers.RTI g6 targetAddress).1.Stat
          = g6.Stat.FromByte (g6.Mem.Mem (1 + 256 * ((g6.SP + 1) % 256)))
      ∧ (InstructionHandlers.RTI g6 targetAddress).1.PC
          = (g6.Mem.Mem (1 + 256 * ((g6.SP + 3) % 256))
            ||| ((g6.Mem.Mem (1 + 256 * ((g6.SP + 2) % 256)) <<< 8) % 65536))
      ∧ (InstructionHandlers.RTI g6 targetAddress).1.Mem = g6.Mem
      ∧ (InstructionHandlers.RTI g6 targetAddress).1.A = g6.A
      ∧ (InstructionHandlers.RTI g6 targetAddress).1.X = g6.X
      ∧ (InstructionHandlers.RTI g6 targetAddress).1.Y = g6.Y
      ∧ (InstructionHandlers.RTI g6 targetAddress).1.shouldStopPCAutoIncrement = true := by
  have e3 : ((g6.SP + 1) % 256 + 2) % 256 = (g6.SP + 3) % 256 := by omega
  have e2 : ((g6.SP + 1) % 256 + 1) % 256 = (g6.SP + 2) % 256 := by omega
  simp only [InstructionHandlers.RTI, Go6502.PopByteOffStack_eq, Go6502.PopWordOffStack_eq,
    e3, e2]
  simp

theorem Go6502.HandleInterrupts_RST (g6 : Go6502) (ht : g6.currentInterruptType = RST) :
    g6.HandleInterrupts
      = ({ g6 with
            Stat := { g6.Stat with InterruptDisable := true }
            PC := g6.Mem.Mem 0xFFFC ||| ((g6.Mem.Mem 0xFFFD <<< 8) % 65536)
            currentInterruptType := ""
            interruptOccurred := false }, .ok ()) := by
  have hl : interruptVectorLocations RST = 0xFFFC := by decide
  simp only [Go6502.HandleInterrupts, ht, ne_eq, not_true_eq_false, if_false,
    Go6502.GetInterruptVector, Memory.ReadWord, BytesToWord, hl]

/-- C12: with a latched RST interrupt, on a memory of bytes, `HandleInterrupts`
succeeds and pushes nothing: `SP`, the memory, `A`, `X`, `Y` and the five flags
other than InterruptDisable are unchanged, InterruptDisable is set, `PC` is the
word stored at `0xFFFC`, and the latch is cleared. -/
theorem Go6502.handleInterrupts_RST_spec (g6 : Go6502) (ht : g6.currentInterruptType = RST)
    (hm : g6.Mem.WF) :
    g6.HandleInterrupts.2 = .ok ()
      ∧ g6.HandleInterrupts.1.SP = g6.SP
      ∧ g6.HandleInterrupts.1.Mem = g6.Mem
      ∧ g6.HandleInterrupts.1.A = g6.A
      ∧ g6.HandleInterrupts.1.X = g6.X
      ∧ g6.HandleInterrupts.1.Y = g6.Y
      ∧ g6.HandleInterrupts.1.Stat = { g6.Stat with InterruptDisable := true }
      ∧ g6.HandleInterrupts.1.PC = g6.Mem.Mem 0xFFFC + 256 * g6.Mem.Mem 0xFFFD
      ∧ g6.HandleInterrupts.1.interruptOccurred = false
      ∧ g6.HandleInterrupts.1.currentInterruptType = "" := by
  rw [Go6502.HandleInterrupts_RST g6 ht]
  exact ⟨rfl, rfl, rfl, rfl, rfl, rfl, rfl, or_shift8 _ _ (hm _) (hm _), rfl, rfl⟩

/-- Witness of C12: the zero engine with the word `0x9559` written at `0xFFFC`
and RST latched, as `StartEmulation` latches it. -/
theorem Go6502.handleInterrupts_RST_spec_witness :
    RST = RST
      ∧ (Go6502.zero.Mem.WriteWord 0xFFFC 0x9559).1.WF
      ∧ (Go6502.HandleInterrupts
          { Go6502.zero with
            SP := 0xFF
            Mem := (Go6502.zero.Mem.WriteWord 0xFFFC 0x9559).1
            interruptOccurred := true
            currentInterruptType := RST }).1.PC = 0x9559
      ∧ (Go6502.HandleInterrupts
          { Go6502.zero with
            SP := 0xFF
            Mem := (Go6502.zero.Mem.WriteWord 0xFFFC 0x9559).1
            interruptOccurred := true
            currentInterruptType := RST }).1.SP = 0xFF :=
  have hm : (Go6502.zero.Mem.WriteWord 0xFFFC 0x9559).1.WF :=
    Memory.WF_update _ (Memory.WF_update _ (Memory.WF_const 0 (by decide)) _ _ (by decide))
      _ _ (by decide)
  have key := Go6502.handleInterrupts_RST_spec
    { Go6502.zero with
      SP := 0xFF
      Mem := (Go6502.zero.Mem.WriteWord 0xFFFC 0x9559).1
      interruptOccurred := true
      currentInterruptType := RST } rfl hm
  ⟨rfl, hm, key.2.2.2.2.2.2.2.1.trans (by decide), key.2.1⟩

theorem nonRST_types (t : String) (ht : t = NMI ∨ t = IRQ ∨ t = BRK) :
    t ≠ RST
      ∧ (interruptVectorLocations t = 0xFFFA ∨ interruptVectorLocations t = 0xFFFE) := by
  rcases ht with h | h | h <;> subst h <;> decide

/-- C11: for every engine state (stack pointer a byte, `PC` a 16-bit word,
memory of bytes) with an interrupt of type NMI, IRQ or BRK latched,
`HandleInterrupts` succeeds; `SP` has decreased by 3 modulo 256; popping a byte
yields the old flags serialized by `AsByte` with the break bit set exactly for
BRK; popping a word then yields the old `PC`; InterruptDisable is set and the
other flags are unchanged; `PC` is the word stored at the vector location of
the type, which is `0xFFFA` for NMI and `0xFFFE` for IRQ and for BRK; the latch
is cleared; `A`, `X`, `Y` are unchanged. -/
theorem Go6502.handleInterrupts_nonRST_spec (g6 : Go6502) (hsp : g6.SP < 256)
    (hpc : g6.PC < 65536) (hm : g6.Mem.WF)
    (ht : g6.currentInterruptType = NMI ∨ g6.currentInterruptType = IRQ
      ∨ g6.currentInterruptType = BRK) :
    g6.HandleInterrupts.2 = .ok ()
      ∧ g6.HandleInterrupts.1.SP = (g6.SP + 253) % 256
      ∧ g6.HandleInterrupts.1.PopByteOffStack.2
          = .ok (g6.Stat.AsByte (decide (g6.currentInterruptType = BRK)))
      ∧ g6.HandleInterrupts.1.PopByteOffStack.1.PopWordOffStack.2 = .ok g6.PC
      ∧ g6.HandleInterrupts.1.Stat = { g6.Stat with InterruptDisable := true }
      ∧ (g6.currentInterruptType = NMI →
          g6.HandleInterrupts.1.PC = g6.Mem.Mem 0xFFFA + 256 * g6.Mem.Mem 0xFFFB)
      ∧ (g6.currentInterruptType = IRQ →
          g6.HandleInterrupts.1.PC = g6.Mem.Mem 0xFFFE + 256 * g6.Mem.Mem 0xFFFF)
      ∧ (g6.currentInterruptType = BRK →
          g6.HandleInterrupts.1.PC = g6.Mem.Mem 0xFFFE + 256 * g6.Mem.Mem 0xFFFF)
      ∧ g6.HandleInterrupts.1.interruptOccurred = false
      ∧ g6.HandleInterrupts.1.currentInterruptType = ""
      ∧ g6.HandleInterrupts.1.A = g6.A
      ∧ g6.HandleInterrupts.1.X = g6.X
      ∧ g6.HandleInterrupts.1.Y = g6.Y := by
  obtain ⟨hne, hloc⟩ := nonRST_types _ ht
  obtain ⟨r1, r2, r3, r4, r5, r6, r7, r8, r9, r10⟩ := Go6502.HandleInterrupts_nonRST g6 hsp hne
  obtain ⟨s1, s2, s3, s4⟩ := stack3 g6.Mem.Mem g6.SP (g6.PC % 256) (g6.PC / 256 % 256)
    (g6.Stat.AsByte (decide (g6.currentInterruptType = BRK))) hsp
  have hPC : g6.HandleInterrupts.1.PC
      = g6.Mem.Mem (interruptVectorLocations g6.currentInterruptType)
        + 256 * g6.Mem.Mem (interruptVectorLocations g6.currentInterruptType + 1) := by
    have hv := r5
    simp only [Memory.ReadWord, BytesToWord, r3] at hv
    have hv2 := (Except.ok.inj hv).symm
    rw [hv2]
    rcases hloc with hl | hl
    · rw [hl, s4 _ (by decide), s4 _ (by decide)]
      exact or_shift8 _ _ (hm _) (hm _)
    · rw [hl, s4 _ (by decide), s4 _ (by decide)]
      exact or_shift8 _ _ (hm _) (hm _)
  refine ⟨r1, r2, ?_, ?_, r4, ?_, ?_, ?_, r6, r7, r8, r9, r10⟩
  · have e : ((g6.SP + 253) % 256 + 1) % 256 = (g6.SP + 254) % 256 := by omega
    rw [Go6502.PopByteOffStack_eq, r2, r3, e, s3]
  · have e2 : (((g6.SP + 253) % 256 + 1) % 256 + 2) % 256 = g6.SP := by omega
    have e1 : (((g6.SP + 253) % 256 + 1) % 256 + 1) % 256 = (g6.SP + 255) % 256 := by omega
    rw [Go6502.PopByteOffStack_eq, Go6502.PopWordOffStack_eq]
    simp only [r2, r3, e2, e1, s1, s2]
    rw [or_shift8 _ _ (Nat.mod_lt _ (by decide)) (Nat.mod_lt _ (by decide))]
    congr 1
    omega
  · intro h
    have hl : interruptVectorLocations g6.currentInterruptType = 0xFFFA := by
      rw [h]
      decide
    rw [hPC, hl]
  · intro h
    have hl : interruptVectorLocations g6.currentInterruptType = 0xFFFE := by
      rw [h]
      decide
    rw [hPC, hl]
  · intro h
    have hl : interruptVectorLocations g6.currentInterruptType = 0xFFFE := by
      rw [h]
      decide
    rw [hPC, hl]

/-- Witness of C11: the zero engine with `SP = 0x01`, `PC = 0x1234`, the word
`0xABCD` in the vector at `0xFFFA` and the word `0x5678` in the vector at
`0xFFFE`. With BRK latched `SP` wraps to `0xFE`, the status byte on the stack is
`0x30`, the word under it is `0x1234` and `PC` is `0x5678`; with NMI latched
`PC` is `0xABCD`. -/
theorem Go6502.handleInterrupts_nonRST_spec_witness :
    (0x01 : Nat) < 256 ∧ (0x1234 : Nat) < 65536
      ∧ (Go6502.HandleInterrupts
          { Go6502.zero with
            SP := 0x01, PC := 0x1234, interruptOccurred := true
            Mem := Memory.mk (fun a =>
              if a = 0xFFFA then 0xCD else if a = 0xFFFB then 0xAB
              else if a = 0xFFFE then 0x78 else if a = 0xFFFF then 0x56 else 0)
            currentInterruptType := BRK }).1.SP = 0xFE
      ∧ (Go6502.HandleInterrupts
          { Go6502.zero with
            SP := 0x01, PC := 0x1234, interruptOccurred := true
            Mem := Memory.mk (fun a =>
              if a = 0xFFFA then 0xCD else if a = 0xFFFB then 0xAB
              else if a = 0xFFFE then 0x78 else if a = 0xFFFF then 0x56 else 0)
            currentInterruptType := BRK }).1.PopByteOffStack.2 = .ok 0x30
      ∧ (Go6502.HandleInterrupts
          { Go6502.zero with
            SP := 0x01, PC := 0x1234, interruptOccurred := true
            Mem := Memory.mk (fun a =>
              if a = 0xFFFA then 0xCD else if a = 0xFFFB then 0xAB
              else if a = 0xFFFE then 0x78 else if a = 0xFFFF then 0x56 else 0)
            currentInterruptType := BRK }).1.PopByteOffStack.1.PopWordOffStack.2
          = .ok 0x1234
      ∧ (Go6502.HandleInterrupts
          { Go6502.zero with
            SP := 0x01, PC := 0x1234, interruptOccurred := true
            Mem := Memory.mk (fun a =>
              if a = 0xFFFA then 0xCD else if a = 0xFFFB then 0xAB
              else if a = 0xFFFE then 0x78 else if a = 0xFFFF then 0x56 else 0)
            currentInterruptType := BRK }).1.PC = 0x5678
      ∧ (Go6502.HandleInterrupts
          { Go6502.zero with
            SP := 0x01, PC := 0x1234, interruptOccurred := true
            Mem := Memory.mk (fun a =>
              if a = 0xFFFA then 0xCD else if a = 0xFFFB then 0xAB
              else if a = 0xFFFE then 0x78 else if a = 0xFFFF then 0x56 else 0)
            currentInterruptType := NMI }).1.PC = 0xABCD :=
  have hm : (Memory.mk (fun a =>
      if a = 0xFFFA then 0xCD else if a = 0xFFFB then 0xAB
      else if a = 0xFFFE then 0x78 else if a = 0xFFFF then 0x56 else 0)).WF := by
    intro a
    show (if a = 0xFFFA then 0xCD else if a = 0xFFFB then 0xAB
      else if a = 0xFFFE then 0x78 else if a = 0xFFFF then 0x56 else 0) < 256
    split_ifs <;> decide
  have key := Go6502.handleInterrupts_nonRST_spec
    { Go6502.zero with
      SP := 0x01, PC := 0x1234, interruptOccurred := true
      Mem := Memory.mk (fun a =>
        if a = 0xFFFA then 0xCD else if a = 0xFFFB then 0xAB
        else if a = 0xFFFE then 0x78 else if a = 0xFFFF then 0x56 else 0)
      currentInterruptType := BRK }
    (show (0x01 : Nat) < 256 by decide) (show (0x1234 : Nat) < 65536 by decide) hm
    (Or.inr (Or.inr rfl))
  have keyN := Go6502.handleInterrupts_nonRST_spec
    { Go6502.zero with
      SP := 0x01, PC := 0x1234, interruptOccurred := true
      Mem := Memory.mk (fun a =>
        if a = 0xFFFA then 0xCD else if a = 0xFFFB then 0xAB
        else if a = 0xFFFE then 0x78 else if a = 0xFFFF then 0x56 else 0)
      currentInterruptType := NMI }
    (show (0x01 : Nat) < 256 by decide) (show (0x1234 : Nat) < 65536 by decide) hm
    (Or.inl rfl)
  ⟨by decide, by decide, key.2.1.trans (by decide),
    key.2.2.1.trans (by rfl), key.2.2.2.1,
    (key.2.2.2.2.2.2.2.1 rfl).trans (by decide),
    (keyN.2.2.2.2.2.1 rfl).trans (by decide)⟩

/-- C13: for every engine state (stack pointer a byte, `PC` a 16-bit word)
with BRK latched, `HandleInterrupts` followed by the RTI handler succeeds and
leaves `PC`, the six flags and `SP` as they were before `HandleInterrupts`; the
status byte that was pushed carries the break bit, which the restored flags do
not keep. -/
theorem InstructionHandlers.RTI_after_BRK (g6 : Go6502) (targetAddress : Option Nat)
    (hsp : g6.SP < 256) (hpc : g6.PC < 65536) (ht : g6.currentInterruptType = cpu.BRK) :
    g6.HandleInterrupts.2 = .ok ()
      ∧ (InstructionHandlers.RTI g6.HandleInterrupts.1 targetAddress).2 = .ok ()
      ∧ (InstructionHandlers.RTI g6.HandleInterrupts.1 targetAddress).1.PC = g6.PC
      ∧ (InstructionHandlers.RTI g6.HandleInterrupts.1 targetAddress).1.Stat = g6.Stat
      ∧ (InstructionHandlers.RTI g6.HandleInterrupts.1 targetAddress).1.SP = g6.SP
      ∧ g6.HandleInterrupts.1.Mem.Mem (1 + 256 * ((g6.SP + 254) % 256))
          = g6.Stat.AsByte true := by
  have hne : g6.currentInterruptType ≠ RST := by rw [ht]; decide
  obtain ⟨r1, r2, r3, _⟩ := Go6502.HandleInterrupts_nonRST g6 hsp hne
  obtain ⟨s1, s2, s3, _⟩ := stack3 g6.Mem.Mem g6.SP (g6.PC % 256) (g6.PC / 256 % 256)
    (g6.Stat.AsByte (decide (g6.currentInterruptType = cpu.BRK))) hsp
  obtain ⟨q1, q2, q3, q4, _⟩ := InstructionHandlers.RTI_proj g6.HandleInterrupts.1 targetAddress
  have hb : decide (g6.currentInterruptType = cpu.BRK) = true := by rw [ht]; decide
  have e3 : ((g6.SP + 253) % 256 + 3) % 256 = g6.SP := by omega
  have e2 : ((g6.SP + 253) % 256 + 2) % 256 = (g6.SP + 255) % 256 := by omega
  have e1 : ((g6.SP + 253) % 256 + 1) % 256 = (g6.SP + 254) % 256 := by omega
  rw [r2, e3] at q2
  rw [r2, r3, e3, e2, s1, s2] at q4
  rw [r2, r3, e1, s3, Status.FromByte_AsByte] at q3
  refine ⟨r1, q1, ?_, q3, q2, ?_⟩
  · rw [q4, or_shift8 _ _ (Nat.mod_lt _ (by decide)) (Nat.mod_lt _ (by decide))]
    omega
  · rw [r3, s3, hb]

/-- Witness of C13: the zero engine with `SP = 0x01`, `PC = 0x1234`, Carry and
Negative set, and BRK latched. -/
theorem InstructionHandlers.RTI_after_BRK_witness :
    (0x01 : Nat) < 256 ∧ (0x1234 : Nat) < 65536 ∧ cpu.BRK = cpu.BRK
      ∧ (InstructionHandlers.RTI
          (Go6502.HandleInterrupts
            { Go6502.zero with
              SP := 0x01, PC := 0x1234, Stat := ⟨true, false, false, false, false, true⟩
              interruptOccurred := true, currentInterruptType := cpu.BRK }).1 none).1.PC
          = 0x1234
      ∧ (InstructionHandlers.RTI
          (Go6502.HandleInterrupts
            { Go6502.zero with
              SP := 0x01, PC := 0x1234, Stat := ⟨true, false, false, false, false, true⟩
              interruptOccurred := true, currentInterruptType := cpu.BRK }).1 none).1.Stat
          = ⟨true, false, false, false, false, true⟩
      ∧ (InstructionHandlers.RTI
          (Go6502.HandleInterrupts
            { Go6502.zero with
              SP := 0x01, PC := 0x1234, Stat := ⟨true, false, false, false, false, true⟩
              interruptOccurred := true, currentInterruptType := cpu.BRK }).1 none).1.SP
          = 0x01 :=
  have key := InstructionHandlers.RTI_after_BRK
    { Go6502.zero with
      SP := 0x01, PC := 0x1234, Stat := ⟨true, false, false, false, false, true⟩
      interruptOccurred := true, currentInterruptType := cpu.BRK } none
    (show (0x01 : Nat) < 256 by decide) (show (0x1234 : Nat) < 65536 by decide) rfl
  ⟨by decide, by decide, rfl, key.2.2.1, key.2.2.2.1, key.2.2.2.2.1⟩

end cpu

namespace cpu

open memory

theorem carry_mask_iff16 (t : Nat) (h : t < 65536) : (t &&& 0xFF00 ≠ 0) ↔ 256 ≤ t := by
  constructor
  · intro hne
    by_contra hlt
    apply hne
    apply Nat.eq_of_testBit_eq
    intro i
    rw [Nat.testBit_and, Nat.zero_testBit]
    by_cases hi : i < 8
    · have : Nat.testBit 0xFF00 i = false := by
        interval_cases i <;> decide
      simp [this]
    · have : t.testBit i = false := by
        apply Nat.testBit_lt_two_pow
        calc t < 2 ^ 8 := by omega
          _ ≤ 2 ^ i := Nat.pow_le_pow_right (by decide) (by omega)
      simp [this]
  · intro hge hz
    obtain ⟨i, hi, hbit⟩ := Nat.ge_two_pow_implies_high_bit_true (show t ≥ 2 ^ 8 by omega)
    have hi16 : i < 16 := by
      by_contra hcon
      have : t.testBit i = false := by
        apply Nat.testBit_lt_two_pow
        calc t < 2 ^ 16 := by omega
          _ ≤ 2 ^ i := Nat.pow_le_pow_right (by decide) (by omega)
      rw [this] at hbit
      exact absurd hbit (by decide)
    have hm : Nat.testBit 0xFF00 i = true := by
      interval_cases i <;> decide
    have : (t &&& 0xFF00).testBit i = true := by
      rw [Nat.testBit_and, hbit, hm]; rfl
    rw [hz, Nat.zero_testBit] at this
    exact absurd this (by decide)

theorem testBit7_eq (v : Nat) (h : v < 256) : v.testBit 7 = decide (128 ≤ v) := by
  rw [Nat.testBit_to_div_mod]
  apply decide_eq_decide.mpr
  constructor <;> intro h1 <;> omega

theorem InstructionHandlers.CMP_raw (g6 : Go6502) (addr : Nat) :
    InstructionHandlers.CMP g6 (some addr)
      = (setCarryFlag
          (setZeroNegativeFlags g6 ((g6.A + 65536 - g6.Mem.Mem addr) % 65536 % 256))
          ((g6.A + 65536 - g6.Mem.Mem addr) % 65536), .ok ()) :=
  rfl

theorem InstructionHandlers.CPX_raw (g6 : Go6502) (addr : Nat) :
    InstructionHandlers.CPX g6 (some addr)
      = (setCarryFlag
          (setZeroNegativeFlags g6 ((g6.X + 65536 - g6.Mem.Mem addr) % 65536 % 256))
          ((g6.X + 65536 - g6.Mem.Mem addr) % 65536), .ok ()) :=
  rfl

theorem InstructionHandlers.CPY_raw (g6 : Go6502) (addr : Nat) :
    InstructionHandlers.CPY g6 (some addr)
      = (setCarryFlag
          (setZeroNegativeFlags g6 ((g6.Y + 65536 - g6.Mem.Mem addr) % 65536 % 256))
          ((g6.Y + 65536 - g6.Mem.Mem addr) % 65536), .ok ()) :=
  rfl

theorem compare_carry (r m : Nat) (hr : r < 256) (hm : m < 256) :
    decide ((r + 65536 - m) % 65536 &&& 0xFF00 ≠ 0) = decide (r < m) := by
  apply decide_eq_decide.mpr
  rw [carry_mask_iff16 _ (Nat.mod_lt _ (by decide))]
  omega

theorem InstructionHandlers.compare_carry_eq (g6 : Go6502) (addr : Nat)
    (hA : g6.A < 256) (hX : g6.X < 256) (hY : g6.Y < 256) (hM : g6.Mem.Mem addr < 256) :
    ((InstructionHandlers.CMP g6 (some addr)).2 = .ok ()
        ∧ (InstructionHandlers.CMP g6 (some addr)).1.Stat.Carry
            = decide (g6.A < g6.Mem.Mem addr)
        ∧ (InstructionHandlers.CMP g6 (some addr)).1.A = g6.A)
      ∧ ((InstructionHandlers.CPX g6 (some addr)).2 = .ok ()
        ∧ (InstructionHandlers.CPX g6 (some addr)).1.Stat.Carry
            = decide (g6.X < g6.Mem.Mem addr)
        ∧ (InstructionHandlers.CPX g6 (some addr)).1.X = g6.X)
      ∧ ((InstructionHandlers.CPY g6 (some addr)).2 = .ok ()
        ∧ (InstructionHandlers.CPY g6 (some addr)).1.Stat.Carry
            = decide (g6.Y < g6.Mem.Mem addr)
        ∧ (InstructionHandlers.CPY g6 (some addr)).1.Y = g6.Y) := by
  rw [InstructionHandlers.CMP_raw, InstructionHandlers.CPX_raw, InstructionHandlers.CPY_raw]
  exact ⟨⟨rfl, compare_carry _ _ hA hM, rfl⟩, ⟨rfl, compare_carry _ _ hX hM, rfl⟩,
    ⟨rfl, compare_carry _ _ hY hM, rfl⟩⟩

theorem InstructionHandlers.CMP_carry (g6 : Go6502) (addr : Nat) :
    (InstructionHandlers.CMP g6 (some addr)).1.Stat.Carry
      = decide ((g6.A + 65536 - g6.Mem.Mem addr) % 65536 &&& 0xFF00 ≠ 0) :=
  rfl

theorem InstructionHandlers.CPX_carry (g6 : Go6502) (addr : Nat) :
    (InstructionHandlers.CPX g6 (some addr)).1.Stat.Carry
      = decide ((g6.X + 65536 - g6.Mem.Mem addr) % 65536 &&& 0xFF00 ≠ 0) :=
  rfl

theorem InstructionHandlers.CPY_carry (g6 : Go6502) (addr : Nat) :
    (InstructionHandlers.CPY g6 (some addr)).1.Stat.Carry
      = decide ((g6.Y + 65536 - g6.Mem.Mem addr) % 65536 &&& 0xFF00 ≠ 0) :=
  rfl

/-- C21, the code at failing inputs: comparing the register value `5` with the
operand `3`, where no borrow occurs, the CMP, CPX and CPY handlers succeed and
keep the register but leave Carry clear; CMP also leaves Carry clear for `5`
against `5`, and sets it for `3` against `5`, where the subtraction borrows. -/
theorem InstructionHandlers.compare_carry_inverted (g6 : Go6502) (addr : Nat) :
    ((InstructionHandlers.CMP { g6 with A := 5, Mem := Memory.mk (fun _ => 3) }
          (some addr)).2 = .ok ()
        ∧ (InstructionHandlers.CMP { g6 with A := 5, Mem := Memory.mk (fun _ => 3) }
          (some addr)).1.A = 5
        ∧ (InstructionHandlers.CMP { g6 with A := 5, Mem := Memory.mk (fun _ => 3) }
          (some addr)).1.Stat.Carry = false)
      ∧ (InstructionHandlers.CMP { g6 with A := 5, Mem := Memory.mk (fun _ => 5) }
          (some addr)).1.Stat.Carry = false
      ∧ (InstructionHandlers.CMP { g6 with A := 3, Mem := Memory.mk (fun _ => 5) }
          (some addr)).1.Stat.Carry = true
      ∧ ((InstructionHandlers.CPX { g6 with X := 5, Mem := Memory.mk (fun _ => 3) }
          (some addr)).1.X = 5
        ∧ (InstructionHandlers.CPX { g6 with X := 5, Mem := Memory.mk (fun _ => 3) }
          (some addr)).1.Stat.Carry = false)
      ∧ ((InstructionHandlers.CPY { g6 with Y := 5, Mem := Memory.mk (fun _ => 3) }
          (some addr)).1.Y = 5
        ∧ (InstructionHandlers.CPY { g6 with Y := 5, Mem := Memory.mk (fun _ => 3) }
          (some addr)).1.Stat.Carry = false) := by
  have c53 := (compare_carry 5 3 (by decide) (by decide)).trans
    (show decide ((5 : Nat) < 3) = false by decide)
  have c55 := (compare_carry 5 5 (by decide) (by decide)).trans
    (show decide ((5 : Nat) < 5) = false by decide)
  have c35 := (compare_carry 3 5 (by decide) (by decide)).trans
    (show decide ((3 : Nat) < 5) = true by decide)
  exact ⟨⟨rfl, rfl, (InstructionHandlers.CMP_carry _ addr).trans c53⟩,
    (InstructionHandlers.CMP_carry _ addr).trans c55,
    (InstructionHandlers.CMP_carry _ addr).trans c35,
    ⟨rfl, (InstructionHandlers.CPX_carry _ addr).trans c53⟩,
    ⟨rfl, (InstructionHandlers.CPY_carry _ addr).trans c53⟩⟩

/-- C28: for every engine state and operand at the target address, the AND,
ORA and EOR handlers succeed, set `A` to `A & M`, `A | M` and `A ^ M`, set Zero
exactly when the new `A` is `0`, and leave Carry, Overflow, Decimal,
InterruptDisable, `X`, `Y`, `SP`, `PC` and the memory unchanged. -/
theorem InstructionHandlers.logical_spec (g6 : Go6502) (addr : Nat) :
    ((InstructionHandlers.AND g6 (some addr)).2 = .ok ()
        ∧ (InstructionHandlers.AND g6 (some addr)).1.A = g6.A &&& g6.Mem.Mem addr
        ∧ (InstructionHandlers.AND g6 (some addr)).1.Stat.Zero
            = decide ((InstructionHandlers.AND g6 (some addr)).1.A = 0)
        ∧ (InstructionHandlers.AND g6 (some addr)).1.Stat.Carry = g6.Stat.Carry
        ∧ (InstructionHandlers.AND g6 (some addr)).1.Stat.Overflow = g6.Stat.Overflow
        ∧ (InstructionHandlers.AND g6 (some addr)).1.Stat.Decimal = g6.Stat.Decimal
        ∧ (InstructionHandlers.AND g6 (some addr)).1.Stat.InterruptDisable
            = g6.Stat.InterruptDisable
        ∧ (InstructionHandlers.AND g6 (some addr)).1.X = g6.X
        ∧ (InstructionHandlers.AND g6 (some addr)).1.Y = g6.Y
        ∧ (InstructionHandlers.AND g6 (some addr)).1.SP = g6.SP
        ∧ (InstructionHandlers.AND g6 (some addr)).1.PC = g6.PC
        ∧ (InstructionHandlers.AND g6 (some addr)).1.Mem = g6.Mem)
      ∧ ((InstructionHandlers.ORA g6 (some addr)).2 = .ok ()
        ∧ (InstructionHandlers.ORA g6 (some addr)).1.A = g6.A ||| g6.Mem.Mem addr
        ∧ (InstructionHandlers.ORA g6 (some addr)).1.Stat.Zero
            = decide ((InstructionHandlers.ORA g6 (some addr)).1.A = 0)
        ∧ (InstructionHandlers.ORA g6 (some addr)).1.Stat.Carry = g6.Stat.Carry
        ∧ (InstructionHandlers.ORA g6 (some addr)).1.Stat.Overflow = g6.Stat.Overflow
        ∧ (InstructionHandlers.ORA g6 (some addr)).1.Stat.Decimal = g6.Stat.Decimal
        ∧ (InstructionHandlers.ORA g6 (some addr)).1.Stat.InterruptDisable
            = g6.Stat.InterruptDisable
        ∧ (InstructionHandlers.ORA g6 (some addr)).1.X = g6.X
        ∧ (InstructionHandlers.ORA g6 (some addr)).1.Y = g6.Y
        ∧ (InstructionHandlers.ORA g6 (some addr)).1.SP = g6.SP
        ∧ (InstructionHandlers.ORA g6 (some addr)).1.PC = g6.PC
        ∧ (InstructionHandlers.ORA g6 (some addr)).1.Mem = g6.Mem)
      ∧ ((InstructionHandlers.EOR g6 (some addr)).2 = .ok ()
        ∧ (InstructionHandlers.EOR g6 (some addr)).1.A = g6.A ^^^ g6.Mem.Mem addr
        ∧ (InstructionHandlers.EOR g6 (some addr)).1.Stat.Zero
            = decide ((InstructionHandlers.EOR g6 (some addr)).1.A = 0)
        ∧ (InstructionHandlers.EOR g6 (some addr)).1.Stat.Carry = g6.Stat.Carry
        ∧ (InstructionHandlers.EOR g6 (some addr)).1.Stat.Overflow = g6.Stat.Overflow
        ∧ (InstructionHandlers.EOR g6 (some addr)).1.Stat.Decimal = g6.Stat.Decimal
        ∧ (InstructionHandlers.EOR g6 (some addr)).1.Stat.InterruptDisable
            = g6.Stat.InterruptDisable
        ∧ (InstructionHandlers.EOR g6 (some addr)).1.X = g6.X
        ∧ (InstructionHandlers.EOR g6 (some addr)).1.Y = g6.Y
        ∧ (InstructionHandlers.EOR g6 (some addr)).1.SP = g6.SP
        ∧ (InstructionHandlers.EOR g6 (some addr)).1.PC = g6.PC
        ∧ (InstructionHandlers.EOR g6 (some addr)).1.Mem = g6.Mem) :=
  ⟨⟨rfl, rfl, rfl, rfl, rfl, rfl, rfl, rfl, rfl, rfl, rfl, rfl⟩,
    ⟨rfl, rfl, rfl, rfl, rfl, rfl, rfl, rfl, rfl, rfl, rfl, rfl⟩,
    ⟨rfl, rfl, rfl, rfl, rfl, rfl, rfl, rfl, rfl, rfl, rfl, rfl⟩⟩

theorem InstructionHandlers.SBC_raw (g6 : Go6502) (addr : Nat) :
    (InstructionHandlers.SBC g6 (some addr)).2 = .ok ()
      ∧ (InstructionHandlers.SBC g6 (some addr)).1.A
          = (if g6.Stat.Carry then ((g6.A + 65536 - g6.Mem.Mem addr) % 65536 + 65535) % 65536
              else (g6.A + 65536 - g6.Mem.Mem addr) % 65536) % 256
      ∧ (InstructionHandlers.SBC g6 (some addr)).1.Stat.Carry
          = decide ((if g6.Stat.Carry
              then ((g6.A + 65536 - g6.Mem.Mem addr) % 65536 + 65535) % 65536
              else (g6.A + 65536 - g6.Mem.Mem addr) % 65536) &&& 0xFF00 ≠ 0)
      ∧ (InstructionHandlers.SBC g6 (some addr)).1.Stat.Overflow
          = decide (g6.A &&& 0x80
              ≠ (if g6.Stat.Carry
                  then ((g6.A + 65536 - g6.Mem.Mem addr) % 65536 + 65535) % 65536
                  else (g6.A + 65536 - g6.Mem.Mem addr) % 65536) % 256 &&& 0x80) :=
  ⟨rfl, rfl, rfl, rfl⟩

/-- C30: for every accumulator `A`, operand byte `M` at the target address and
carry-in flag, the SBC handler succeeds and leaves
`A = (A - M - c) mod 256`, with `c = 1` when Carry was set and `c = 0` when it
was clear; Carry is set exactly when the subtraction borrowed, `A < M + c`; and
Overflow is set exactly when bit 7 of the new `A` differs from bit 7 of the old
one. -/
theorem InstructionHandlers.SBC_spec (g6 : Go6502) (addr : Nat) (hA : g6.A < 256)
    (hM : g6.Mem.Mem addr < 256) :
    (InstructionHandlers.SBC g6 (some addr)).2 = .ok ()
      ∧ ((InstructionHandlers.SBC g6 (some addr)).1.A : Int)
          = ((g6.A : Int) - (g6.Mem.Mem addr : Int) - (if g6.Stat.Carry then 1 else 0)) % 256
      ∧ (InstructionHandlers.SBC g6 (some addr)).1.Stat.Carry
          = decide (g6.A < g6.Mem.Mem addr + (if g6.Stat.Carry then 1 else 0))
      ∧ (InstructionHandlers.SBC g6 (some addr)).1.Stat.Overflow
          = decide ((InstructionHandlers.SBC g6 (some addr)).1.A.testBit 7 ≠ g6.A.testBit 7) := by
  obtain ⟨r1, r2, r3, r4⟩ := InstructionHandlers.SBC_raw g6 addr
  refine ⟨r1, ?_, ?_, ?_⟩
  · rw [r2]
    split_ifs <;> omega
  · rw [r3]
    apply decide_eq_decide.mpr
    rw [carry_mask_iff16 _ (by split_ifs <;> exact Nat.mod_lt _ (by decide))]
    split_ifs <;> omega
  · rw [r4, r2]
    exact decide_eq_decide.mpr ((sign_mask_ne_iff _ _).trans ne_comm)

/-- Witness of C30: `A = 0x05`, operand `0x05`, Carry set: the result is
`0xFF`, the subtraction borrowed, and bit 7 changed. -/
theorem InstructionHandlers.SBC_spec_witness :
    (0x05 : Nat) < 256
      ∧ (InstructionHandlers.SBC
          { Go6502.zero with
            A := 0x05, Stat := ⟨false, false, false, false, false, true⟩
            Mem := Memory.mk (fun _ => 0x05) } (some 0x10)).1.A = 0xFF
      ∧ (InstructionHandlers.SBC
          { Go6502.zero with
            A := 0x05, Stat := ⟨false, false, false, false, false, true⟩
            Mem := Memory.mk (fun _ => 0x05) } (some 0x10)).1.Stat.Carry = true
      ∧ (InstructionHandlers.SBC
          { Go6502.zero with
            A := 0x05, Stat := ⟨false, false, false, false, false, true⟩
            Mem := Memory.mk (fun _ => 0x05) } (some 0x10)).1.Stat.Overflow = true :=
  have key := InstructionHandlers.SBC_spec
    { Go6502.zero with
      A := 0x05, Stat := ⟨false, false, false, false, false, true⟩
      Mem := Memory.mk (fun _ => 0x05) } 0x10
    (show (0x05 : Nat) < 256 by decide) (show (0x05 : Nat) < 256 by decide)
  ⟨by decide, by decide, key.2.2.1.trans (by decide), key.2.2.2.trans (by decide)⟩

theorem InstructionHandlers.shiftLeft_acc (g6 : Go6502) (targetAddress : Option Nat)
    (hmode : g6.CurrentInstruction.Mode = "ACC") :
    InstructionHandlers.shiftLeft g6 targetAddress
      = (setCarryFlag
          (setZeroNegativeFlags { g6 with A := (g6.A <<< 1) % 65536 % 256 }
            ((g6.A <<< 1) % 65536 % 256))
          ((g6.A <<< 1) % 65536), .ok ()) := by
  simp only [InstructionHandlers.shiftLeft, hmode, if_true]

theorem InstructionHandlers.shiftLeft_mem (g6 : Go6502) (addr : Nat)
    (hmode : g6.CurrentInstruction.Mode ≠ "ACC") :
    InstructionHandlers.shiftLeft g6 (some addr)
      = (setCarryFlag
          (setZeroNegativeFlags
            { g6 with
              Mem := Memory.mk (Function.update g6.Mem.Mem addr
                ((g6.Mem.Mem addr <<< 1) % 65536 % 256)) }
            ((g6.Mem.Mem addr <<< 1) % 65536 % 256))
          ((g6.Mem.Mem addr <<< 1) % 65536), .ok ()) := by
  simp only [InstructionHandlers.shiftLeft, hmode, if_false, Memory.ReadByte, Memory.WriteByte]

theorem shiftLeft_facts (v : Nat) (h : v < 256) :
    (v <<< 1) % 65536 % 256 = (2 * v) % 256
      ∧ decide ((v <<< 1) % 65536 &&& 0xFF00 ≠ 0) = v.testBit 7 := by
  have e : v <<< 1 = 2 * v := by rw [Nat.shiftLeft_eq]; omega
  rw [e, testBit7_eq v h]
  refine ⟨by omega, decide_eq_decide.mpr ?_⟩
  rw [carry_mask_iff16 _ (Nat.mod_lt _ (by decide))]
  omega

theorem InstructionHandlers.shiftLeft_spec (g6 : Go6502) (addr : Nat)
    (targetAddress : Option Nat) (hA : g6.A < 256) (hM : g6.Mem.Mem addr < 256) :
    (g6.CurrentInstruction.Mode = "ACC" →
        (InstructionHandlers.shiftLeft g6 targetAddress).2 = .ok ()
          ∧ (InstructionHandlers.shiftLeft g6 targetAddress).1.A = (2 * g6.A) % 256
          ∧ (InstructionHandlers.shiftLeft g6 targetAddress).1.Mem = g6.Mem
          ∧ (InstructionHandlers.shiftLeft g6 targetAddress).1.Stat.Carry = g6.A.testBit 7
          ∧ (InstructionHandlers.shiftLeft g6 targetAddress).1.Stat.Zero
              = decide ((2 * g6.A) % 256 = 0))
      ∧ (g6.CurrentInstruction.Mode ≠ "ACC" →
        (InstructionHandlers.shiftLeft g6 (some addr)).2 = .ok ()
          ∧ (InstructionHandlers.shiftLeft g6 (some addr)).1.Mem.Mem addr
              = (2 * g6.Mem.Mem addr) % 256
          ∧ (∀ a, a ≠ addr →
              (InstructionHandlers.shiftLeft g6 (some addr)).1.Mem.Mem a = g6.Mem.Mem a)
          ∧ (InstructionHandlers.shiftLeft g6 (some addr)).1.A = g6.A
          ∧ (InstructionHandlers.shiftLeft g6 (some addr)).1.Stat.Carry
              = (g6.Mem.Mem addr).testBit 7
          ∧ (InstructionHandlers.shiftLeft g6 (some addr)).1.Stat.Zero
              = decide ((2 * g6.Mem.Mem addr) % 256 = 0)) := by
  obtain ⟨a1, a2⟩ := shiftLeft_facts g6.A hA
  obtain ⟨m1, m2⟩ := shiftLeft_facts (g6.Mem.Mem addr) hM
  refine ⟨fun hmode => ?_, fun hmode => ?_⟩
  · rw [InstructionHandlers.shiftLeft_acc g6 targetAddress hmode]
    refine ⟨rfl, a1, rfl, a2, ?_⟩
    show decide ((g6.A <<< 1) % 65536 % 256 = 0) = _
    rw [a1]
  · rw [InstructionHandlers.shiftLeft_mem g6 addr hmode]
    refine ⟨rfl, ?_, ?_, rfl, m2, ?_⟩
    · show Function.update g6.Mem.Mem addr _ addr = _
      rw [Function.update_same, m1]
    · intro a ha
      show Function.update g6.Mem.Mem addr _ a = _
      rw [Function.update_noteq ha]
    · show decide ((g6.Mem.Mem addr <<< 1) % 65536 % 256 = 0) = _
      rw [m1]

/-- C22: for the ASL and the ROL handler alike, with the operand `v` a byte:
in mode `"ACC"` the handler succeeds and writes `(2 * v) mod 256` to the
accumulator, leaving the memory unchanged; in any other mode it succeeds and
writes `(2 * v) mod 256` to the cell at the target address, leaving `A` and the
other cells unchanged; in both cases Carry becomes bit 7 of `v` and Zero is set
exactly when the result is `0`. -/
theorem InstructionHandlers.ASL_ROL_spec (h : InstructionHandler)
    (hh : h = InstructionHandlers.ASL ∨ h = InstructionHandlers.ROL) (g6 : Go6502)
    (addr : Nat) (targetAddress : Option Nat) (hA : g6.A < 256)
    (hM : g6.Mem.Mem addr < 256) :
    (g6.CurrentInstruction.Mode = "ACC" →
        (h g6 targetAddress).2 = .ok ()
          ∧ (h g6 targetAddress).1.A = (2 * g6.A) % 256
          ∧ (h g6 targetAddress).1.Mem = g6.Mem
          ∧ (h g6 targetAddress).1.Stat.Carry = g6.A.testBit 7
          ∧ (h g6 targetAddress).1.Stat.Zero = decide ((2 * g6.A) % 256 = 0))
      ∧ (g6.CurrentInstruction.Mode ≠ "ACC" →
        (h g6 (some addr)).2 = .ok ()
          ∧ (h g6 (some addr)).1.Mem.Mem addr = (2 * g6.Mem.Mem addr) % 256
          ∧ (∀ a, a ≠ addr → (h g6 (some addr)).1.Mem.Mem a = g6.Mem.Mem a)
          ∧ (h g6 (some addr)).1.A = g6.A
          ∧ (h g6 (some addr)).1.Stat.Carry = (g6.Mem.Mem addr).testBit 7
          ∧ (h g6 (some addr)).1.Stat.Zero = decide ((2 * g6.Mem.Mem addr) % 256 = 0)) := by
  rcases hh with hh | hh <;> subst hh <;>
    exact InstructionHandlers.shiftLeft_spec g6 addr targetAddress hA hM

/-- Witness of C22: ASL in mode `"ACC"` with `A = 0x81` gives `A = 0x02` with
Carry set; ROL in mode `"ZP"` on a cell holding `0x80` gives the cell `0x00`
with Carry and Zero set and `A` unchanged. -/
theorem InstructionHandlers.ASL_ROL_spec_witness :
    (0x81 : Nat) < 256 ∧ (0x80 : Nat) < 256
      ∧ (InstructionHandlers.ASL
          { Go6502.zero with
            A := 0x81, CurrentInstruction := ⟨0x0A, "ASL", "ACC", 1⟩
            Mem := Memory.mk (fun _ => 0x80) } none).1.A = 0x02
      ∧ (InstructionHandlers.ASL
          { Go6502.zero with
            A := 0x81, CurrentInstruction := ⟨0x0A, "ASL", "ACC", 1⟩
            Mem := Memory.mk (fun _ => 0x80) } none).1.Stat.Carry = true
      ∧ (InstructionHandlers.ROL
          { Go6502.zero with
            A := 0x81, CurrentInstruction := ⟨0x26, "ROL", "ZP", 2⟩
            Mem := Memory.mk (fun _ => 0x80) } (some 0x10)).1.Mem.Mem 0x10 = 0x00
      ∧ (InstructionHandlers.ROL
          { Go6502.zero with
            A := 0x81, CurrentInstruction := ⟨0x26, "ROL", "ZP", 2⟩
            Mem := Memory.mk (fun _ => 0x80) } (some 0x10)).1.A = 0x81 :=
  have k1 := InstructionHandlers.ASL_ROL_spec InstructionHandlers.ASL (Or.inl rfl)
    { Go6502.zero with
      A := 0x81, CurrentInstruction := ⟨0x0A, "ASL", "ACC", 1⟩
      Mem := Memory.mk (fun _ => 0x80) } 0x10 none
    (show (0x81 : Nat) < 256 by decide) (show (0x80 : Nat) < 256 by decide)
  have k2 := InstructionHandlers.ASL_ROL_spec InstructionHandlers.ROL (Or.inr rfl)
    { Go6502.zero with
      A := 0x81, CurrentInstruction := ⟨0x26, "ROL", "ZP", 2⟩
      Mem := Memory.mk (fun _ => 0x80) } 0x10 none
    (show (0x81 : Nat) < 256 by decide) (show (0x80 : Nat) < 256 by decide)
  ⟨by decide, by decide, (k1.1 rfl).2.1.trans (by decide),
    (k1.1 rfl).2.2.2.1.trans (by decide),
    (k2.2 (by decide)).2.1.trans (by decide), (k2.2 (by decide)).2.2.2.1⟩

theorem InstructionHandlers.ROR_acc (g6 : Go6502) (targetAddress : Option Nat)
    (hmode : g6.CurrentInstruction.Mode = "ACC") :
    InstructionHandlers.ROR g6 targetAddress
      = (setCarryFlag
          (setZeroNegativeFlags { g6 with A := (g6.A % 65536) >>> 1 % 256 }
            ((g6.A % 65536) >>> 1 % 256))
          ((g6.A % 65536) >>> 1), .ok ()) := by
  simp only [InstructionHandlers.ROR, hmode, if_true]

theorem InstructionHandlers.ROR_acc_proj (g6 : Go6502) (targetAddress : Option Nat)
    (hmode : g6.CurrentInstruction.Mode = "ACC") :
    (InstructionHandlers.ROR g6 targetAddress).2 = .ok ()
      ∧ (InstructionHandlers.ROR g6 targetAddress).1.A = (g6.A % 65536) >>> 1 % 256
      ∧ (InstructionHandlers.ROR g6 targetAddress).1.Stat.Carry
          = decide ((g6.A % 65536) >>> 1 &&& 0xFF00 ≠ 0) := by
  rw [InstructionHandlers.ROR_acc g6 targetAddress hmode]
  exact ⟨rfl, rfl, rfl⟩

theorem ror_carry_false (v : Nat) (h : v < 256) :
    decide ((v % 65536) >>> 1 &&& 0xFF00 ≠ 0) = false := by
  have hlt : (v % 65536) >>> 1 < 256 := by
    rw [Nat.shiftRight_eq_div_pow]; omega
  rw [decide_eq_false_iff_not, carry_mask_iff16 _ (by omega)]
  omega

/-- C23, the code at failing inputs: in mode `"ACC"` the ROR handler writes
`v / 2` back as claimed, but with `A = 0x01` or `A = 0xFF`, whose bit 0 is set,
it leaves Carry clear, also when Carry was set before. -/
theorem InstructionHandlers.ROR_carry_never_set (g6 : Go6502) (targetAddress : Option Nat) :
    (InstructionHandlers.ROR
        { g6 with
          A := 0x01, CurrentInstruction := { g6.CurrentInstruction with Mode := "ACC" }
          Stat := { g6.Stat with Carry := true } } targetAddress).2 = .ok ()
      ∧ (InstructionHandlers.ROR
        { g6 with
          A := 0x01, CurrentInstruction := { g6.CurrentInstruction with Mode := "ACC" }
          Stat := { g6.Stat with Carry := true } } targetAddress).1.A = 0x00
      ∧ (InstructionHandlers.ROR
        { g6 with
          A := 0x01, CurrentInstruction := { g6.CurrentInstruction with Mode := "ACC" }
          Stat := { g6.Stat with Carry := true } } targetAddress).1.Stat.Carry = false
      ∧ (InstructionHandlers.ROR
        { g6 with
          A := 0xFF, CurrentInstruction := { g6.CurrentInstruction with Mode := "ACC" }
          Stat := { g6.Stat with Carry := true } } targetAddress).1.A = 0x7F
      ∧ (InstructionHandlers.ROR
        { g6 with
          A := 0xFF, CurrentInstruction := { g6.CurrentInstruction with Mode := "ACC" }
          Stat := { g6.Stat with Carry := true } } targetAddress).1.Stat.Carry = false := by
  have k1 := InstructionHandlers.ROR_acc_proj
    { g6 with
      A := 0x01, CurrentInstruction := { g6.CurrentInstruction with Mode := "ACC" }
      Stat := { g6.Stat with Carry := true } } targetAddress rfl
  have k2 := InstructionHandlers.ROR_acc_proj
    { g6 with
      A := 0xFF, CurrentInstruction := { g6.CurrentInstruction with Mode := "ACC" }
      Stat := { g6.Stat with Carry := true } } targetAddress rfl
  exact ⟨k1.1, k1.2.1.trans (show ((0x01 : Nat) % 65536) >>> 1 % 256 = 0x00 by decide),
    k1.2.2.trans (ror_carry_false 0x01 (by decide)),
    k2.2.1.trans (show ((0xFF : Nat) % 65536) >>> 1 % 256 = 0x7F by decide),
    k2.2.2.trans (ror_carry_false 0xFF (by decide))⟩

theorem lookup_mem {β : Type} (k : String) (v : β) :
    ∀ l : List (String × β), l.lookup k = some v → (k, v) ∈ l := by
  intro l
  induction l with
  | nil => intro h; simp [List.lookup] at h
  | cons p rest ih =>
    obtain ⟨k2, v2⟩ := p
    intro h
    by_cases hk : k = k2
    · subst hk
      simp [List.lookup] at h
      simp [h]
    · have hb : (k == k2) = false := by simpa using hk
      simp only [List.lookup, hb] at h
      exact List.mem_cons_of_mem _ (ih h)

theorem addressingModes_ok (mode : String) (f : addressingMode) (g6 : Go6502)
    (h : addressingModes mode = some f) : ∃ a, f g6 = .ok a := by
  unfold addressingModes at h
  cases hl : addressingModesEntries.lookup mode with
  | none => rw [hl] at h; simp at h
  | some o =>
    rw [hl] at h
    simp only [Option.getD_some] at h
    subst h
    have hm := lookup_mem _ _ _ hl
    simp [addressingModesEntries] at hm
    rcases hm with h | h | h | h | h | h | h | h | h | h | h <;> obtain ⟨_, rfl⟩ := h <;>
      exact ⟨_, rfl⟩

theorem Go6502.ExecuteInstruction_no_handler (g6 : Go6502)
    (h : InstructionHandlers g6.CurrentInstruction.Mnemonic = none) :
    ∃ err, g6.ExecuteInstruction = (g6, .error err) := by
  unfold Go6502.ExecuteInstruction
  cases hm : addressingModes g6.CurrentInstruction.Mode with
  | none =>
    simp only [h]
    exact ⟨_, rfl⟩
  | some f =>
    obtain ⟨a, ha⟩ := addressingModes_ok _ f g6 hm
    simp only [ha, h]
    exact ⟨_, rfl⟩

theorem InstructionHandlers_absent :
    InstructionHandlers "BIT" = none ∧ InstructionHandlers "PHA" = none
      ∧ InstructionHandlers "PLA" = none ∧ InstructionHandlers "PHP" = none
      ∧ InstructionHandlers "PLP" = none ∧ InstructionHandlers "LSR" = none := by
  refine ⟨?_, ?_, ?_, ?_, ?_, ?_⟩ <;> rfl

/-- C26: for every engine state whose current mnemonic has no entry in
`InstructionHandlers`, whatever the addressing mode, `ExecuteInstruction`
returns an error and leaves the whole state, `PC` included, as it was; BIT,
PHA, PLA, PHP, PLP and LSR are such mnemonics. -/
theorem Go6502.executeInstruction_not_implemented (g6 : Go6502)
    (h : InstructionHandlers g6.CurrentInstruction.Mnemonic = none) :
    (∃ err, g6.ExecuteInstruction.2 = .error err)
      ∧ g6.ExecuteInstruction.1 = g6
      ∧ InstructionHandlers "BIT" = none ∧ InstructionHandlers "PHA" = none
      ∧ InstructionHandlers "PLA" = none ∧ InstructionHandlers "PHP" = none
      ∧ InstructionHandlers "PLP" = none ∧ InstructionHandlers "LSR" = none := by
  obtain ⟨err, he⟩ := Go6502.ExecuteInstruction_no_handler g6 h
  rw [he]
  exact ⟨⟨err, rfl⟩, rfl, InstructionHandlers_absent⟩

/-- Witness of C26: the zero engine with the current instruction BIT in
zero-page mode. -/
theorem Go6502.executeInstruction_not_implemented_witness :
    InstructionHandlers "BIT" = none
      ∧ (∃ err, (Go6502.ExecuteInstruction
          { Go6502.zero with
            PC := 0x1000, CurrentInstruction := ⟨0x24, "BIT", "ZP", 2⟩ }).2 = .error err)
      ∧ (Go6502.ExecuteInstruction
          { Go6502.zero with
            PC := 0x1000, CurrentInstruction := ⟨0x24, "BIT", "ZP", 2⟩ }).1.PC = 0x1000 :=
  have hb : InstructionHandlers "BIT" = none := rfl
  have key := Go6502.executeInstruction_not_implemented
    { Go6502.zero with PC := 0x1000, CurrentInstruction := ⟨0x24, "BIT", "ZP", 2⟩ } hb
  ⟨hb, key.1, congrArg Go6502.PC key.2.1⟩

/-- C27: for every engine state with the stop flag clear, whenever the byte at
the start address is an opcode with no entry in the instruction table, the
first pass of the loop entered through `StartEmulationAtAddress` returns an
error, and `PC` (the start address), `A`, `X`, `Y`, `SP`, the flags, the memory
and `CurrentInstruction` are as they were at the fetch. -/
theorem Go6502.startEmulationAtAddress_decode_error
    (InstructionSet : Nat → Option Instruction) (addons : List (Go6502 → Go6502))
    (fuel : Nat) (g6 : Go6502) (startAddress : Nat)
    (hstop : g6.shouldStopEmulation = false)
    (hdec : InstructionSet (g6.Mem.Mem startAddress) = none) :
    (∃ err, (g6.StartEmulationAtAddress InstructionSet addons (fuel + 1) startAddress).2
        = some (.error err))
      ∧ (g6.StartEmulationAtAddress InstructionSet addons (fuel + 1) startAddress).1.PC
          = startAddress
      ∧ (g6.StartEmulationAtAddress InstructionSet addons (fuel + 1) startAddress).1.A = g6.A
      ∧ (g6.StartEmulationAtAddress InstructionSet addons (fuel + 1) startAddress).1.X = g6.X
      ∧ (g6.StartEmulationAtAddress InstructionSet addons (fuel + 1) startAddress).1.Y = g6.Y
      ∧ (g6.StartEmulationAtAddress InstructionSet addons (fuel + 1) startAddress).1.SP = g6.SP
      ∧ (g6.StartEmulationAtAddress InstructionSet addons (fuel + 1) startAddress).1.Stat
          = g6.Stat
      ∧ (g6.StartEmulationAtAddress InstructionSet addons (fuel + 1) startAddress).1.Mem
          = g6.Mem
      ∧ (g6.StartEmulationAtAddress InstructionSet addons (fuel + 1)
          startAddress).1.CurrentInstruction = g6.CurrentInstruction := by
  unfold Go6502.StartEmulationAtAddress Go6502.emulationLoop
  by_cases hadd : addons.length ≤ 0 ∧ g6.enableAddons = true
  · simp only [if_pos hadd]
    simp [Go6502.emulationPasses, hstop, Go6502.emulationIteration, Memory.ReadByte, hdec]
  · simp only [if_neg hadd]
    simp [Go6502.emulationPasses, hstop, Go6502.emulationIteration, Memory.ReadByte, hdec]

/-- Witness of C27: the zero engine, whose memory holds the byte `0x00`
everywhere, with a table that has no entry at all, started at `0x1000`. -/
theorem Go6502.startEmulationAtAddress_decode_error_witness :
    Go6502.zero.shouldStopEmulation = false
      ∧ (fun _ => none : Nat → Option Instruction) (Go6502.zero.Mem.Mem 0x1000) = none
      ∧ (∃ err, (Go6502.zero.StartEmulationAtAddress (fun _ => none) [] 1 0x1000).2
          = some (.error err))
      ∧ (Go6502.zero.StartEmulationAtAddress (fun _ => none) [] 1 0x1000).1.PC = 0x1000 :=
  have key := Go6502.startEmulationAtAddress_decode_error (fun _ => none) [] 0 Go6502.zero
    0x1000 rfl rfl
  ⟨rfl, rfl, key.1, key.2.1⟩

theorem InstructionHandlers.JSR_eq (g6 : Go6502) (t : Nat) (h : g6.SP < 256) :
    InstructionHandlers.JSR g6 (some t)
      = ({ g6 with
            Mem := Memory.mk (Function.update
              (Function.update g6.Mem.Mem (1 + 256 * g6.SP)
                ((g6.PC + g6.CurrentInstruction.Size) % 65536 % 256))
              (1 + 256 * ((g6.SP + 255) % 256))
              ((g6.PC + g6.CurrentInstruction.Size) % 65536 / 256 % 256))
            SP := (g6.SP + 254) % 256
            PC := t
            shouldStopPCAutoIncrement := true }, .ok ()) := by
  simp only [InstructionHandlers.JSR, Go6502.PushWordToStack_eq g6 _ h]

theorem InstructionHandlers.JSR_pushed (g6 : Go6502) (t : Nat) (h : g6.SP < 256) :
    (InstructionHandlers.JSR g6 (some t)).2 = .ok ()
      ∧ (InstructionHandlers.JSR g6 (some t)).1.PC = t
      ∧ (InstructionHandlers.JSR g6 (some t)).1.shouldStopPCAutoIncrement = true
      ∧ (InstructionHandlers.JSR g6 (some t)).1.SP = (g6.SP + 254) % 256
      ∧ (InstructionHandlers.JSR g6 (some t)).1.PopWordOffStack.2
          = .ok ((g6.PC + g6.CurrentInstruction.Size) % 65536) := by
  have n2 : 1 + 256 * g6.SP ≠ 1 + 256 * ((g6.SP + 255) % 256) := by omega
  have e2 : ((g6.SP + 254) % 256 + 2) % 256 = g6.SP := by omega
  have e1 : ((g6.SP + 254) % 256 + 1) % 256 = (g6.SP + 255) % 256 := by omega
  rw [InstructionHandlers.JSR_eq g6 t h]
  refine ⟨rfl, rfl, rfl, rfl, ?_⟩
  rw [Go6502.PopWordOffStack_eq]
  dsimp only
  rw [e2, e1, Function.update_same, Function.update_noteq n2, Function.update_same,
    or_shift8 _ _ (Nat.mod_lt _ (by decide)) (Nat.mod_lt _ (by decide))]
  congr 1
  omega

/-- C25 as stated fails: with `PC = 0x1000`, size 3 and `SP = 0xFF` the word
that the JSR handler pushes, popped back, is not `0x1000 + 3 - 1`. -/
theorem InstructionHandlers.JSR_return_address_1000 :
    (InstructionHandlers.JSR
        { Go6502.zero with
          SP := 0xFF, PC := 0x1000, CurrentInstruction := ⟨0x20, "JSR", "ABS", 3⟩ }
        (some 0x2000)).1.PopWordOffStack.2
      ≠ .ok ((0x1000 + 3 - 1) % 65536) := by
  rw [(InstructionHandlers.JSR_pushed _ 0x2000 (show (0xFF : Nat) < 256 by decide)).2.2.2.2]
  intro h
  exact absurd (Except.ok.inj h) (by decide)

/-- C25, amended: for every engine state (stack pointer a byte) whose current
instruction has size `n`, at program counter `p` and with resolved target `t`,
the JSR handler succeeds, pushes the word `(p + n) mod 65536`, the address of
the next instruction, on the stack (`SP` drops by 2 and popping a word returns
it), sets `PC` to `t` and stops the automatic increment of `PC`. -/
theorem InstructionHandlers.JSR_spec (g6 : Go6502) (t : Nat) (h : g6.SP < 256) :
    (InstructionHandlers.JSR g6 (some t)).2 = .ok ()
      ∧ (InstructionHandlers.JSR g6 (some t)).1.PC = t
      ∧ (InstructionHandlers.JSR g6 (some t)).1.shouldStopPCAutoIncrement = true
      ∧ (InstructionHandlers.JSR g6 (some t)).1.SP = (g6.SP + 254) % 256
      ∧ (InstructionHandlers.JSR g6 (some t)).1.PopWordOffStack.2
          = .ok ((g6.PC + g6.CurrentInstruction.Size) % 65536) :=
  InstructionHandlers.JSR_pushed g6 t h

/-- Witness of C25, amended: `PC = 0x1000`, size 3, `SP = 0xFF`, target
`0x2000`: the word on the stack is `0x1003`. -/
theorem InstructionHandlers.JSR_spec_witness :
    (0xFF : Nat) < 256
      ∧ (InstructionHandlers.JSR
          { Go6502.zero with
            SP := 0xFF, PC := 0x1000, CurrentInstruction := ⟨0x20, "JSR", "ABS", 3⟩ }
          (some 0x2000)).1.PC = 0x2000
      ∧ (InstructionHandlers.JSR
          { Go6502.zero with
            SP := 0xFF, PC := 0x1000, CurrentInstruction := ⟨0x20, "JSR", "ABS", 3⟩ }
          (some 0x2000)).1.PopWordOffStack.2 = .ok 0x1003 :=
  have key := InstructionHandlers.JSR_spec
    { Go6502.zero with
      SP := 0xFF, PC := 0x1000, CurrentInstruction := ⟨0x20, "JSR", "ABS", 3⟩ } 0x2000
    (show (0xFF : Nat) < 256 by decide)
  ⟨by decide, key.2.1, key.2.2.2.2⟩

theorem Go6502.ExecuteInstruction_rel (g6 : Go6502) (H : InstructionHandler) (T : Nat)
    (hmode : g6.CurrentInstruction.Mode = "REL")
    (hh : InstructionHandlers g6.CurrentInstruction.Mnemonic = some H)
    (hT : relative g6 = .ok T) :
    g6.ExecuteInstruction
      = (match H g6 (some T) with
        | (g6, .error err) => (g6, .error (Wrapf err "Error executing instruction"))
        | (g6, .ok _) =>
          if !g6.shouldStopPCAutoIncrement then
            ({ g6 with PC := (g6.PC + g6.CurrentInstruction.Size) % 65536 }, .ok ())
          else
            ({ g6 with shouldStopPCAutoIncrement := false }, .ok ())) := by
  have hrel : addressingModes "REL" = some relative := rfl
  unfold Go6502.ExecuteInstruction
  simp only [hmode, hrel, hT, hh]

theorem Go6502.ExecuteInstruction_branch (g6 : Go6502) (H : InstructionHandler) (T : Nat)
    (c : Bool) (hmode : g6.CurrentInstruction.Mode = "REL")
    (hh : InstructionHandlers g6.CurrentInstruction.Mnemonic = some H)
    (hT : relative g6 = .ok T) (hflag : g6.shouldStopPCAutoIncrement = false)
    (hH : H g6 (some T)
      = if c then ({ g6 with PC := T, shouldStopPCAutoIncrement := true }, .ok ())
        else (g6, .ok ())) :
    g6.ExecuteInstruction
      = ({ g6 with
            PC := if c then T else (g6.PC + g6.CurrentInstruction.Size) % 65536 }, .ok ()) := by
  rw [Go6502.ExecuteInstruction_rel g6 H T hmode hh hT, hH]
  cases c
  · simp [hflag]
  · simp [← hflag]

/-- C24 as stated fails: on the zero engine with `PC = 0x1000`, Zero set, the
current instruction BNE in mode `"REL"` with size 2, and the stop request of
the increment still set, the branch condition does not hold and yet
`ExecuteInstruction` does not leave `PC = 0x1000 + 2`. -/
theorem Go6502.executeInstruction_branch_stale_request :
    ¬ ((Go6502.ExecuteInstruction
          { Go6502.zero with
            PC := 0x1000, Stat := ⟨false, false, false, false, true, false⟩
            CurrentInstruction := ⟨0xD0, "BNE", "REL", 2⟩
            shouldStopPCAutoIncrement := true }).1.PC = (0x1000 + 2) % 65536) := by
  decide

/-- C24, amended: for every engine state on a memory of bytes whose current
instruction is in mode `"REL"` and whose stop request of the increment is
clear, with `T` the relative target `(PC + 2 + signed offset) mod 65536`: for
each branch mnemonic, `ExecuteInstruction` succeeds and leaves `PC = T` when the
condition holds (BCC: Carry clear, BCS: Carry set, BEQ: Zero set, BNE: Zero
clear, BMI: Negative set, BPL: Negative clear, BVC: Overflow clear, BVS:
Overflow set) and `PC = (PC + size) mod 65536` when it does not; nothing else
in the state changes. -/
theorem Go6502.executeInstruction_branch_spec (g6 : Go6502) (T : Nat)
    (hmode : g6.CurrentInstruction.Mode = "REL")
    (hflag : g6.shouldStopPCAutoIncrement = false) (hm : g6.Mem.WF)
    (hT : T = Int.toNat (((g6.PC : Int) + 2
          + (if g6.Mem.Mem ((g6.PC + 1) % 65536) < 128
              then (g6.Mem.Mem ((g6.PC + 1) % 65536) : Int)
              else (g6.Mem.Mem ((g6.PC + 1) % 65536) : Int) - 256)) % 65536)) :
    relative g6 = .ok T
      ∧ (g6.CurrentInstruction.Mnemonic = "BCC" →
          g6.ExecuteInstruction
            = ({ g6 with
                  PC := if !g6.Stat.Carry then T
                    else (g6.PC + g6.CurrentInstruction.Size) % 65536 }, .ok ()))
      ∧ (g6.CurrentInstruction.Mnemonic = "BCS" →
          g6.ExecuteInstruction
            = ({ g6 with
                  PC := if g6.Stat.Carry then T
                    else (g6.PC + g6.CurrentInstruction.Size) % 65536 }, .ok ()))
      ∧ (g6.CurrentInstruction.Mnemonic = "BEQ" →
          g6.ExecuteInstruction
            = ({ g6 with
                  PC := if g6.Stat.Zero then T
                    else (g6.PC + g6.CurrentInstruction.Size) % 65536 }, .ok ()))
      ∧ (g6.CurrentInstruction.Mnemonic = "BNE" →
          g6.ExecuteInstruction
            = ({ g6 with
                  PC := if !g6.Stat.Zero then T
                    else (g6.PC + g6.CurrentInstruction.Size) % 65536 }, .ok ()))
      ∧ (g6.CurrentInstruction.Mnemonic = "BMI" →
          g6.ExecuteInstruction
            = ({ g6 with
                  PC := if g6.Stat.Negative then T
                    else (g6.PC + g6.CurrentInstruction.Size) % 65536 }, .ok ()))
      ∧ (g6.CurrentInstruction.Mnemonic = "BPL" →
          g6.ExecuteInstruction
            = ({ g6 with
                  PC := if !g6.Stat.Negative then T
                    else (g6.PC + g6.CurrentInstruction.Size) % 65536 }, .ok ()))
      ∧ (g6.CurrentInstruction.Mnemonic = "BVC" →
          g6.ExecuteInstruction
            = ({ g6 with
                  PC := if !g6.Stat.Overflow then T
                    else (g6.PC + g6.CurrentInstruction.Size) % 65536 }, .ok ()))
      ∧ (g6.CurrentInstruction.Mnemonic = "BVS" →
          g6.ExecuteInstruction
            = ({ g6 with
                  PC := if g6.Stat.Overflow then T
                    else (g6.PC + g6.CurrentInstruction.Size) % 65536 }, .ok ())) := by
  have hrel : relative g6 = .ok T := by
    rw [hT]
    exact relative_eq g6 _ rfl (hm ((g6.PC + 1) % 65536))
  refine ⟨hrel, ?_, ?_, ?_, ?_, ?_, ?_, ?_, ?_⟩
  · intro hmn
    exact Go6502.ExecuteInstruction_branch g6 InstructionHandlers.BCC T (!g6.Stat.Carry) hmode
      (by rw [hmn]; rfl) hrel hflag rfl
  · intro hmn
    exact Go6502.ExecuteInstruction_branch g6 InstructionHandlers.BCS T (g6.Stat.Carry) hmode
      (by rw [hmn]; rfl) hrel hflag rfl
  · intro hmn
    exact Go6502.ExecuteInstruction_branch g6 InstructionHandlers.BEQ T (g6.Stat.Zero) hmode
      (by rw [hmn]; rfl) hrel hflag rfl
  · intro hmn
    exact Go6502.ExecuteInstruction_branch g6 InstructionHandlers.BNE T (!g6.Stat.Zero) hmode
      (by rw [hmn]; rfl) hrel hflag rfl
  · intro hmn
    exact Go6502.ExecuteInstruction_branch g6 InstructionHandlers.BMI T (g6.Stat.Negative) hmode
      (by rw [hmn]; rfl) hrel hflag rfl
  · intro hmn
    exact Go6502.ExecuteInstruction_branch g6 InstructionHandlers.BPL T (!g6.Stat.Negative) hmode
      (by rw [hmn]; rfl) hrel hflag rfl
  · intro hmn
    exact Go6502.ExecuteInstruction_branch g6 InstructionHandlers.BVC T (!g6.Stat.Overflow) hmode
      (by rw [hmn]; rfl) hrel hflag rfl
  · intro hmn
    exact Go6502.ExecuteInstruction_branch g6 InstructionHandlers.BVS T (g6.Stat.Overflow) hmode
      (by rw [hmn]; rfl) hrel hflag rfl

theorem Go6502.executeInstruction_branch_spec_witness :
    (Go6502.ExecuteInstruction
        { Go6502.zero with
          PC := 0x1000, Mem := Memory.mk (Function.update (fun _ => 0) 0x1001 0xFB)
          CurrentInstruction := ⟨0x90, "BCC", "REL", 2⟩ }).1.PC = 0x0FFD
      ∧ (Go6502.ExecuteInstruction
        { Go6502.zero with
          PC := 0x1000, Mem := Memory.mk (Function.update (fun _ => 0) 0x1001 0xFB)
          CurrentInstruction := ⟨0x90, "BCC", "REL", 2⟩ }).2 = .ok () :=
  have key := Go6502.executeInstruction_branch_spec
    { Go6502.zero with
      PC := 0x1000, Mem := Memory.mk (Function.update (fun _ => 0) 0x1001 0xFB)
      CurrentInstruction := ⟨0x90, "BCC", "REL", 2⟩ } 0x0FFD rfl rfl
    (Memory.WF_update (Memory.mk (fun _ => 0)) (Memory.WF_const 0 (by decide)) 0x1001 0xFB
      (by decide))
    (by decide)
  ⟨congrArg (fun r => r.1.PC) (key.2.1 rfl), congrArg (fun r => r.2) (key.2.1 rfl)⟩

theorem InstructionHandlers.ADC_keepsFlow : HandlerKeepsFlow InstructionHandlers.ADC := by
  intro g6 ta hok
  cases ta with
  | none => exact absurd hok (fun h => by cases h)
  | some addr => exact ⟨rfl, Or.inr ⟨rfl, rfl⟩⟩

theorem InstructionHandlers.AND_keepsFlow : HandlerKeepsFlow InstructionHandlers.AND := by
  intro g6 ta hok
  cases ta with
  | none => exact absurd hok (fun h => by cases h)
  | some addr => exact ⟨rfl, Or.inr ⟨rfl, rfl⟩⟩

theorem InstructionHandlers.ASL_keepsFlow : HandlerKeepsFlow InstructionHandlers.ASL := by
  show HandlerKeepsFlow InstructionHandlers.shiftLeft
  intro g6 ta hok
  by_cases hmode : g6.CurrentInstruction.Mode = "ACC"
  · rw [InstructionHandlers.shiftLeft_acc g6 ta hmode]
    exact ⟨rfl, Or.inr ⟨rfl, rfl⟩⟩
  · cases ta with
    | none =>
      simp only [InstructionHandlers.shiftLeft, hmode, if_false] at hok
      cases hok
    | some addr =>
      rw [InstructionHandlers.shiftLeft_mem g6 addr hmode]
      exact ⟨rfl, Or.inr ⟨rfl, rfl⟩⟩


theorem InstructionHandlers.BCC_keepsFlow : HandlerKeepsFlow InstructionHandlers.BCC := by
  intro g6 ta hok
  simp only [InstructionHandlers.BCC] at hok ⊢
  split_ifs at hok ⊢
  · cases ta with
    | none => exact absurd hok (fun h => by cases h)
    | some addr => exact ⟨rfl, Or.inl rfl⟩
  · exact ⟨rfl, Or.inr ⟨rfl, rfl⟩⟩

theorem InstructionHandlers.BCS_keepsFlow : HandlerKeepsFlow InstructionHandlers.BCS := by
  intro g6 ta hok
  simp only [InstructionHandlers.BCS] at hok ⊢
  split_ifs at hok ⊢
  · cases ta with
    | none => exact absurd hok (fun h => by cases h)
    | some addr => exact ⟨rfl, Or.inl rfl⟩
  · exact ⟨rfl, Or.inr ⟨rfl, rfl⟩⟩

theorem InstructionHandlers.BEQ_keepsFlow : HandlerKeepsFlow InstructionHandlers.BEQ := by
  intro g6 ta hok
  simp only [InstructionHandlers.BEQ] at hok ⊢
  split_ifs at hok ⊢
  · cases ta with
    | none => exact absurd hok (fun h => by cases h)
    | some addr => exact ⟨rfl, Or.inl rfl⟩
  · exact ⟨rfl, Or.inr ⟨rfl, rfl⟩⟩

theorem InstructionHandlers.BMI_keepsFlow : HandlerKeepsFlow InstructionHandlers.BMI := by
  intro g6 ta hok
  simp only [InstructionHandlers.BMI] at hok ⊢
  split_ifs at hok ⊢
  · cases ta with
    | none => exact absurd hok (fun h => by cases h)
    | some addr => exact ⟨rfl, Or.inl rfl⟩
  · exact ⟨rfl, Or.inr ⟨rfl, rfl⟩⟩

theorem InstructionHandlers.BNE_keepsFlow : HandlerKeepsFlow InstructionHandlers.BNE := by
  intro g6 ta hok
  simp only [InstructionHandlers.BNE] at hok ⊢
  split_ifs at hok ⊢
  · cases ta with
    | none => exact absurd hok (fun h => by cases h)
    | some addr => exact ⟨rfl, Or.inl rfl⟩
  · exact ⟨rfl, Or.inr ⟨rfl, rfl⟩⟩

theorem InstructionHandlers.BPL_keepsFlow : HandlerKeepsFlow InstructionHandlers.BPL := by
  intro g6 ta hok
  simp only [InstructionHandlers.BPL] at hok ⊢
  split_ifs at hok ⊢
  · cases ta with
    | none => exact absurd hok (fun h => by cases h)
    | some addr => exact ⟨rfl, Or.inl rfl⟩
  · exact ⟨rfl, Or.inr ⟨rfl, rfl⟩⟩

theorem InstructionHandlers.BVC_keepsFlow : HandlerKeepsFlow InstructionHandlers.BVC := by
  intro g6 ta hok
  simp only [InstructionHandlers.BVC] at hok ⊢
  split_ifs at hok ⊢
  · cases ta with
    | none => exact absurd hok (fun h => by cases h)
    | some addr => exact ⟨rfl, Or.inl rfl⟩
  · exact ⟨rfl, Or.inr ⟨rfl, rfl⟩⟩

theorem InstructionHandlers.BVS_keepsFlow : HandlerKeepsFlow InstructionHandlers.BVS := by
  intro g6 ta hok
  simp only [InstructionHandlers.BVS] at hok ⊢
  split_ifs at hok ⊢
  · cases ta with
    | none => exact absurd hok (fun h => by cases h)
    | some addr => exact ⟨rfl, Or.inl rfl⟩
  · exact ⟨rfl, Or.inr ⟨rfl, rfl⟩⟩

theorem InstructionHandlers.BRK_keepsFlow : HandlerKeepsFlow InstructionHandlers.BRK := by
  intro g6 ta hok
  exact ⟨rfl, Or.inr ⟨rfl, rfl⟩⟩

theorem InstructionHandlers.CLC_keepsFlow : HandlerKeepsFlow InstructionHandlers.CLC := by
  intro g6 ta hok
  exact ⟨rfl, Or.inr ⟨rfl, rfl⟩⟩

theorem InstructionHandlers.CLD_keepsFlow : HandlerKeepsFlow InstructionHandlers.CLD := by
  intro g6 ta hok
  exact ⟨rfl, Or.inr ⟨rfl, rfl⟩⟩

theorem InstructionHandlers.CLI_keepsFlow : HandlerKeepsFlow InstructionHandlers.CLI := by
  intro g6 ta hok
  exact ⟨rfl, Or.inr ⟨rfl, rfl⟩⟩

theorem InstructionHandlers.CLV_keepsFlow : HandlerKeepsFlow InstructionHandlers.CLV := by
  intro g6 ta hok
  exact ⟨rfl, Or.inr ⟨rfl, rfl⟩⟩

theorem InstructionHandlers.NOP_keepsFlow : HandlerKeepsFlow InstructionHandlers.NOP := by
  intro g6 ta hok
  exact ⟨rfl, Or.inr ⟨rfl, rfl⟩⟩

theorem InstructionHandlers.RTI_keepsFlow : HandlerKeepsFlow InstructionHandlers.RTI := by
  intro g6 ta hok
  exact ⟨rfl, Or.inl rfl⟩

theorem InstructionHandlers.RTS_keepsFlow : HandlerKeepsFlow InstructionHandlers.RTS := by
  intro g6 ta hok
  exact ⟨rfl, Or.inl rfl⟩

theorem InstructionHandlers.SEC_keepsFlow : HandlerKeepsFlow InstructionHandlers.SEC := by
  intro g6 ta hok
  exact ⟨rfl, Or.inr ⟨rfl, rfl⟩⟩

theorem InstructionHandlers.SED_keepsFlow : HandlerKeepsFlow InstructionHandlers.SED := by
  intro g6 ta hok
  exact ⟨rfl, Or.inr ⟨rfl, rfl⟩⟩

theorem InstructionHandlers.SEI_keepsFlow : HandlerKeepsFlow InstructionHandlers.SEI := by
  intro g6 ta hok
  exact ⟨rfl, Or.inr ⟨rfl, rfl⟩⟩

theorem InstructionHandlers.TAX_keepsFlow : HandlerKeepsFlow InstructionHandlers.TAX := by
  intro g6 ta hok
  exact ⟨rfl, Or.inr ⟨rfl, rfl⟩⟩

theorem InstructionHandlers.TAY_keepsFlow : HandlerKeepsFlow InstructionHandlers.TAY := by
  intro g6 ta hok
  exact ⟨rfl, Or.inr ⟨rfl, rfl⟩⟩

theorem InstructionHandlers.TSX_keepsFlow : HandlerKeepsFlow InstructionHandlers.TSX := by
  intro g6 ta hok
  exact ⟨rfl, Or.inr ⟨rfl, rfl⟩⟩

theorem InstructionHandlers.TXA_keepsFlow : HandlerKeepsFlow InstructionHandlers.TXA := by
  intro g6 ta hok
  exact ⟨rfl, Or.inr ⟨rfl, rfl⟩⟩

theorem InstructionHandlers.TXS_keepsFlow : HandlerKeepsFlow InstructionHandlers.TXS := by
  intro g6 ta hok
  exact ⟨rfl, Or.inr ⟨rfl, rfl⟩⟩

theorem InstructionHandlers.TYA_keepsFlow : HandlerKeepsFlow InstructionHandlers.TYA := by
  intro g6 ta hok
  exact ⟨rfl, Or.inr ⟨rfl, rfl⟩⟩

theorem InstructionHandlers.CMP_keepsFlow : HandlerKeepsFlow InstructionHandlers.CMP := by
  intro g6 ta hok
  cases ta with
  | none => exact absurd hok (fun h => by cases h)
  | some addr => exact ⟨rfl, Or.inr ⟨rfl, rfl⟩⟩

theorem InstructionHandlers.CPX_keepsFlow : HandlerKeepsFlow InstructionHandlers.CPX := by
  intro g6 ta hok
  cases ta with
  | none => exact absurd hok (fun h => by cases h)
  | some addr => exact ⟨rfl, Or.inr ⟨rfl, rfl⟩⟩

theorem InstructionHandlers.CPY_keepsFlow : HandlerKeepsFlow InstructionHandlers.CPY := by
  intro g6 ta hok
  cases ta with
  | none => exact absurd hok (fun h => by cases h)
  | some addr => exact ⟨rfl, Or.inr ⟨rfl, rfl⟩⟩

theorem InstructionHandlers.DEC_keepsFlow : HandlerKeepsFlow InstructionHandlers.DEC := by
  intro g6 ta hok
  cases ta with
  | none => exact absurd hok (fun h => by cases h)
  | some addr => exact ⟨rfl, Or.inr ⟨rfl, rfl⟩⟩

theorem InstructionHandlers.DEX_keepsFlow : HandlerKeepsFlow InstructionHandlers.DEX := by
  intro g6 ta hok
  exact ⟨rfl, Or.inr ⟨rfl, rfl⟩⟩

theorem InstructionHandlers.DEY_keepsFlow : HandlerKeepsFlow InstructionHandlers.DEY := by
  intro g6 ta hok
  exact ⟨rfl, Or.inr ⟨rfl, rfl⟩⟩

theorem InstructionHandlers.INC_keepsFlow : HandlerKeepsFlow InstructionHandlers.INC := by
  intro g6 ta hok
  cases ta with
  | none => exact absurd hok (fun h => by cases h)
  | some addr => exact ⟨rfl, Or.inr ⟨rfl, rfl⟩⟩

theorem InstructionHandlers.INX_keepsFlow : HandlerKeepsFlow InstructionHandlers.INX := by
  intro g6 ta hok
  exact ⟨rfl, Or.inr ⟨rfl, rfl⟩⟩

theorem InstructionHandlers.INY_keepsFlow : HandlerKeepsFlow InstructionHandlers.INY := by
  intro g6 ta hok
  exact ⟨rfl, Or.inr ⟨rfl, rfl⟩⟩

theorem InstructionHandlers.EOR_keepsFlow : HandlerKeepsFlow InstructionHandlers.EOR := by
  intro g6 ta hok
  cases ta with
  | none => exact absurd hok (fun h => by cases h)
  | some addr => exact ⟨rfl, Or.inr ⟨rfl, rfl⟩⟩

theorem InstructionHandlers.JMP_keepsFlow : HandlerKeepsFlow InstructionHandlers.JMP := by
  intro g6 ta hok
  cases ta with
  | none => exact absurd hok (fun h => by cases h)
  | some addr => exact ⟨rfl, Or.inl rfl⟩

theorem InstructionHandlers.JSR_keepsFlow : HandlerKeepsFlow InstructionHandlers.JSR := by
  intro g6 ta hok
  cases ta with
  | none =>
    simp only [InstructionHandlers.JSR, Go6502.PushWordToStack, Go6502.PushByteToStack_raw]
      at hok
    cases hok
  | some addr =>
    simp only [InstructionHandlers.JSR, Go6502.PushWordToStack, Go6502.PushByteToStack_raw]
    exact ⟨trivial, Or.inl trivial⟩


theorem InstructionHandlers.LDA_keepsFlow : HandlerKeepsFlow InstructionHandlers.LDA := by
  intro g6 ta hok
  cases ta with
  | none => exact absurd hok (fun h => by cases h)
  | some addr => exact ⟨rfl, Or.inr ⟨rfl, rfl⟩⟩

theorem InstructionHandlers.LDX_keepsFlow : HandlerKeepsFlow InstructionHandlers.LDX := by
  intro g6 ta hok
  cases ta with
  | none => exact absurd hok (fun h => by cases h)
  | some addr => exact ⟨rfl, Or.inr ⟨rfl, rfl⟩⟩

theorem InstructionHandlers.LDY_keepsFlow : HandlerKeepsFlow InstructionHandlers.LDY := by
  intro g6 ta hok
  cases ta with
  | none => exact absurd hok (fun h => by cases h)
  | some addr => exact ⟨rfl, Or.inr ⟨rfl, rfl⟩⟩

theorem InstructionHandlers.ORA_keepsFlow : HandlerKeepsFlow InstructionHandlers.ORA := by
  intro g6 ta hok
  cases ta with
  | none => exact absurd hok (fun h => by cases h)
  | some addr => exact ⟨rfl, Or.inr ⟨rfl, rfl⟩⟩

theorem InstructionHandlers.ROL_keepsFlow : HandlerKeepsFlow InstructionHandlers.ROL := by
  show HandlerKeepsFlow InstructionHandlers.shiftLeft
  intro g6 ta hok
  by_cases hmode : g6.CurrentInstruction.Mode = "ACC"
  · rw [InstructionHandlers.shiftLeft_acc g6 ta hmode]
    exact ⟨rfl, Or.inr ⟨rfl, rfl⟩⟩
  · cases ta with
    | none =>
      simp only [InstructionHandlers.shiftLeft, hmode, if_false] at hok
      cases hok
    | some addr =>
      rw [InstructionHandlers.shiftLeft_mem g6 addr hmode]
      exact ⟨rfl, Or.inr ⟨rfl, rfl⟩⟩


theorem InstructionHandlers.ROR_mem (g6 : Go6502) (addr : Nat)
    (hmode : g6.CurrentInstruction.Mode ≠ "ACC") :
    InstructionHandlers.ROR g6 (some addr)
      = (setCarryFlag
          (setZeroNegativeFlags
            { g6 with
              Mem := Memory.mk (Function.update g6.Mem.Mem addr
                ((g6.Mem.Mem addr % 65536) >>> 1 % 256)) }
            ((g6.Mem.Mem addr % 65536) >>> 1 % 256))
          ((g6.Mem.Mem addr % 65536) >>> 1), .ok ()) := by
  simp only [InstructionHandlers.ROR, hmode, if_false, Memory.ReadByte, Memory.WriteByte]

theorem InstructionHandlers.ROR_keepsFlow : HandlerKeepsFlow InstructionHandlers.ROR := by
  intro g6 ta hok
  by_cases hmode : g6.CurrentInstruction.Mode = "ACC"
  · rw [InstructionHandlers.ROR_acc g6 ta hmode]
    exact ⟨rfl, Or.inr ⟨rfl, rfl⟩⟩
  · cases ta with
    | none =>
      simp only [InstructionHandlers.ROR, hmode, if_false] at hok
      cases hok
    | some addr =>
      rw [InstructionHandlers.ROR_mem g6 addr hmode]
      exact ⟨rfl, Or.inr ⟨rfl, rfl⟩⟩


theorem InstructionHandlers.SBC_keepsFlow : HandlerKeepsFlow InstructionHandlers.SBC := by
  intro g6 ta hok
  cases ta with
  | none => exact absurd hok (fun h => by cases h)
  | some addr => exact ⟨rfl, Or.inr ⟨rfl, rfl⟩⟩

theorem InstructionHandlers.STA_keepsFlow : HandlerKeepsFlow InstructionHandlers.STA := by
  intro g6 ta hok
  cases ta with
  | none => exact absurd hok (fun h => by cases h)
  | some addr => exact ⟨rfl, Or.inr ⟨rfl, rfl⟩⟩

theorem InstructionHandlers.STX_keepsFlow : HandlerKeepsFlow InstructionHandlers.STX := by
  intro g6 ta hok
  cases ta with
  | none => exact absurd hok (fun h => by cases h)
  | some addr => exact ⟨rfl, Or.inr ⟨rfl, rfl⟩⟩

theorem InstructionHandlers.STY_keepsFlow : HandlerKeepsFlow InstructionHandlers.STY := by
  intro g6 ta hok
  cases ta with
  | none => exact absurd hok (fun h => by cases h)
  | some addr => exact ⟨rfl, Or.inr ⟨rfl, rfl⟩⟩

theorem InstructionHandlersEntries_keepFlow :
    ∀ p ∈ InstructionHandlersEntries, HandlerKeepsFlow p.2 := by
  unfold InstructionHandlersEntries
  simp only [List.forall_mem_cons, List.not_mem_nil, false_implies, implies_true, and_true]
  exact ⟨InstructionHandlers.ADC_keepsFlow,
    InstructionHandlers.AND_keepsFlow,
    InstructionHandlers.ASL_keepsFlow,
    InstructionHandlers.BCC_keepsFlow,
    InstructionHandlers.BCS_keepsFlow,
    InstructionHandlers.BEQ_keepsFlow,
    InstructionHandlers.BMI_keepsFlow,
    InstructionHandlers.BNE_keepsFlow,
    InstructionHandlers.BPL_keepsFlow,
    InstructionHandlers.BVC_keepsFlow,
    InstructionHandlers.BVS_keepsFlow,
    InstructionHandlers.BRK_keepsFlow,
    InstructionHandlers.CLC_keepsFlow,
    InstructionHandlers.CLD_keepsFlow,
    InstructionHandlers.CLI_keepsFlow,
    InstructionHandlers.CLV_keepsFlow,
    InstructionHandlers.NOP_keepsFlow,
    InstructionHandlers.RTI_keepsFlow,
    InstructionHandlers.RTS_keepsFlow,
    InstructionHandlers.SEC_keepsFlow,
    InstructionHandlers.SED_keepsFlow,
    InstructionHandlers.SEI_keepsFlow,
    InstructionHandlers.TAX_keepsFlow,
    InstructionHandlers.TAY_keepsFlow,
    InstructionHandlers.TSX_keepsFlow,
    InstructionHandlers.TXA_keepsFlow,
    InstructionHandlers.TXS_keepsFlow,
    InstructionHandlers.TYA_keepsFlow,
    InstructionHandlers.CMP_keepsFlow,
    InstructionHandlers.CPX_keepsFlow,
    InstructionHandlers.CPY_keepsFlow,
    InstructionHandlers.DEC_keepsFlow,
    InstructionHandlers.DEX_keepsFlow,
    InstructionHandlers.DEY_keepsFlow,
    InstructionHandlers.INC_keepsFlow,
    InstructionHandlers.INX_keepsFlow,
    InstructionHandlers.INY_keepsFlow,
    InstructionHandlers.EOR_keepsFlow,
    InstructionHandlers.JMP_keepsFlow,
    InstructionHandlers.JSR_keepsFlow,
    InstructionHandlers.LDA_keepsFlow,
    InstructionHandlers.LDX_keepsFlow,
    InstructionHandlers.LDY_keepsFlow,
    InstructionHandlers.ORA_keepsFlow,
    InstructionHandlers.ROL_keepsFlow,
    InstructionHandlers.ROR_keepsFlow,
    InstructionHandlers.SBC_keepsFlow,
    InstructionHandlers.STA_keepsFlow,
    InstructionHandlers.STX_keepsFlow,
    InstructionHandlers.STY_keepsFlow⟩

theorem InstructionHandlers_keepFlow (mnemonic : String) (H : InstructionHandler)
    (h : InstructionHandlers mnemonic = some H) : HandlerKeepsFlow H :=
  InstructionHandlersEntries_keepFlow (mnemonic, H)
    (lookup_mem mnemonic H InstructionHandlersEntries h)

theorem Go6502.ExecuteInstruction_ok (g6 : Go6502)
    (h : g6.ExecuteInstruction.2 = .ok ()) :
    ∃ H ta, InstructionHandlers g6.CurrentInstruction.Mnemonic = some H
      ∧ (H g6 ta).2 = .ok ()
      ∧ g6.ExecuteInstruction.1
          = if !(H g6 ta).1.shouldStopPCAutoIncrement then
              { (H g6 ta).1 with
                PC := ((H g6 ta).1.PC + (H g6 ta).1.CurrentInstruction.Size) % 65536 }
            else { (H g6 ta).1 with shouldStopPCAutoIncrement := false } := by
  cases hH : InstructionHandlers g6.CurrentInstruction.Mnemonic with
  | none =>
    obtain ⟨err, he⟩ := Go6502.ExecuteInstruction_no_handler g6 hH
    rw [he] at h
    cases h
  | some H =>
    unfold Go6502.ExecuteInstruction at h ⊢
    cases hm : addressingModes g6.CurrentInstruction.Mode with
    | none =>
      refine ⟨H, none, rfl, ?_⟩
      simp only [hm, hH] at h ⊢
      rcases hr : H g6 none with ⟨g1, r⟩
      rw [hr] at h
      cases r with
      | error e => cases h
      | ok u =>
        refine ⟨rfl, ?_⟩
        dsimp only
        split_ifs <;> rfl
    | some f =>
      obtain ⟨a, ha⟩ := addressingModes_ok _ f g6 hm
      refine ⟨H, some a, rfl, ?_⟩
      simp only [hm, hH, ha] at h ⊢
      rcases hr : H g6 (some a) with ⟨g1, r⟩
      rw [hr] at h
      cases r with
      | error e => cases h
      | ok u =>
        refine ⟨rfl, ?_⟩
        dsimp only
        split_ifs <;> rfl

theorem InstructionHandlers.plain_no_request (mnemonic : String)
    (hmn : mnemonic ∈ ["NOP", "LDA", "STA"]) (H : InstructionHandler)
    (hH : InstructionHandlers mnemonic = some H) (g6 : Go6502) (ta : Option Nat)
    (hok : (H g6 ta).2 = .ok ()) :
    (H g6 ta).1.shouldStopPCAutoIncrement = g6.shouldStopPCAutoIncrement := by
  simp only [List.mem_cons, List.mem_nil_iff, or_false] at hmn
  rcases hmn with e | e | e
  · subst e
    have hH2 : InstructionHandlers.NOP = H := Option.some.inj hH
    subst hH2
    rfl
  · subst e
    have hH2 : InstructionHandlers.LDA = H := Option.some.inj hH
    subst hH2
    cases ta with
    | none => exact absurd hok (fun h => by cases h)
    | some addr => rfl
  · subst e
    have hH2 : InstructionHandlers.STA = H := Option.some.inj hH
    subst hH2
    cases ta with
    | none => exact absurd hok (fun h => by cases h)
    | some addr => rfl

/-- C29: the suppression of the increment lasts for one instruction. Whenever
`ExecuteInstruction` returns nil, `shouldStopPCAutoIncrement` is false
afterwards, whatever it was before and whichever handler ran. When it was false
before and the handler of the mnemonic does not set it from this state, `PC`
afterwards is `(PC + CurrentInstruction.Size) mod 65536`; this is the case of
NOP, LDA and STA. -/
theorem Go6502.executeInstruction_suppression_one_shot (g6 : Go6502)
    (h : g6.ExecuteInstruction.2 = .ok ()) :
    g6.ExecuteInstruction.1.shouldStopPCAutoIncrement = false
      ∧ (g6.shouldStopPCAutoIncrement = false →
          (∀ H ta, InstructionHandlers g6.CurrentInstruction.Mnemonic = some H →
            (H g6 ta).2 = .ok () → (H g6 ta).1.shouldStopPCAutoIncrement = false) →
          g6.ExecuteInstruction.1.PC = (g6.PC + g6.CurrentInstruction.Size) % 65536)
      ∧ (g6.shouldStopPCAutoIncrement = false →
          g6.CurrentInstruction.Mnemonic ∈ ["NOP", "LDA", "STA"] →
          g6.ExecuteInstruction.1.PC = (g6.PC + g6.CurrentInstruction.Size) % 65536) := by
  obtain ⟨H, ta, hH, hok, hres⟩ := Go6502.ExecuteInstruction_ok g6 h
  have kf := InstructionHandlers_keepFlow _ H hH g6 ta hok
  have step : (H g6 ta).1.shouldStopPCAutoIncrement = false →
      g6.ExecuteInstruction.1.PC = (g6.PC + g6.CurrentInstruction.Size) % 65536 := by
    intro h1
    rw [hres]
    simp only [h1, Bool.not_false, if_true]
    obtain ⟨hci, hfl | ⟨hpc, _⟩⟩ := kf
    · rw [h1] at hfl
      cases hfl
    · rw [hpc, hci]
  refine ⟨?_, ?_, ?_⟩
  · rw [hres]
    cases hc : (H g6 ta).1.shouldStopPCAutoIncrement with
    | false => simp only [Bool.not_false, if_true]; exact hc
    | true => rfl
  · intro _ hno
    exact step (hno H ta hH hok)
  · intro hf hmn
    exact step ((InstructionHandlers.plain_no_request _ hmn H hH g6 ta hok).trans hf)

theorem Go6502.executeInstruction_suppression_one_shot_witness :
    (Go6502.ExecuteInstruction
        { Go6502.zero with
          PC := 0xFFFF, CurrentInstruction := ⟨0xEA, "NOP", "IMP", 1⟩ }).2 = .ok ()
      ∧ (Go6502.ExecuteInstruction
        { Go6502.zero with
          PC := 0xFFFF,
          CurrentInstruction := ⟨0xEA, "NOP", "IMP", 1⟩ }).1.shouldStopPCAutoIncrement = false
      ∧ (Go6502.ExecuteInstruction
        { Go6502.zero with
          PC := 0xFFFF, CurrentInstruction := ⟨0xEA, "NOP", "IMP", 1⟩ }).1.PC = 0x0000 :=
  have hok : (Go6502.ExecuteInstruction
      { Go6502.zero with
        PC := 0xFFFF, CurrentInstruction := ⟨0xEA, "NOP", "IMP", 1⟩ }).2 = .ok () := rfl
  have key := Go6502.executeInstruction_suppression_one_shot _ hok
  ⟨hok, key.1,
    (key.2.2 rfl (List.mem_cons_self _ _)).trans
      (show ((0xFFFF : Nat) + 1) % 65536 = 0x0000 by decide)⟩

end cpu

namespace cpu

open memory

theorem Go6502.ExecuteInstruction_JSR (g6 : Go6502) (f : addressingMode) (t : Nat)
    (hs : g6.SP < 256) (hmn : g6.CurrentInstruction.Mnemonic = "JSR")
    (hf : addressingModes g6.CurrentInstruction.Mode = some f) (ht : f g6 = .ok t) :
    g6.ExecuteInstruction
      = ({ g6 with
            Mem := Memory.mk (Function.update
              (Function.update g6.Mem.Mem (1 + 256 * g6.SP)
                ((g6.PC + g6.CurrentInstruction.Size) % 65536 % 256))
              (1 + 256 * ((g6.SP + 255) % 256))
              ((g6.PC + g6.CurrentInstruction.Size) % 65536 / 256 % 256))
            SP := (g6.SP + 254) % 256
            PC := t
            shouldStopPCAutoIncrement := false }, .ok ()) := by
  have hH : InstructionHandlers "JSR" = some InstructionHandlers.JSR := rfl
  unfold Go6502.ExecuteInstruction
  simp only [hf, ht, hmn, hH, InstructionHandlers.JSR_eq g6 t hs]
  rfl

theorem Go6502.ExecuteInstruction_RTS (g6 : Go6502)
    (hmn : g6.CurrentInstruction.Mnemonic = "RTS")
    (hmode : g6.CurrentInstruction.Mode = "IMP") :
    g6.ExecuteInstruction
      = ({ g6 with
            SP := (g6.SP + 2) % 256
            PC := g6.Mem.Mem (1 + 256 * ((g6.SP + 2) % 256))
              ||| ((g6.Mem.Mem (1 + 256 * ((g6.SP + 1) % 256)) <<< 8) % 65536)
            shouldStopPCAutoIncrement := false }, .ok ()) := by
  have hH : InstructionHandlers "RTS" = some InstructionHandlers.RTS := rfl
  have hm : addressingModes "IMP" = none := rfl
  unfold Go6502.ExecuteInstruction
  simp only [hmode, hm, hmn, hH, InstructionHandlers.RTS, Go6502.PopWordOffStack_eq]
  rfl

/-- C31: a call returns to the instruction after it. For every engine state
with program counter `p` and stack pointer `s` (a byte) whose current
instruction is a JSR of size `n` in a mode that has an addressing function,
`ExecuteInstruction` succeeds and jumps to the resolved target; making an RTS
in mode `"IMP"` the current instruction and running `ExecuteInstruction` again
succeeds and leaves `PC = (p + n) mod 65536` and `SP = s`, with `A`, `X`, `Y`
and the flags as they were before the JSR. -/
theorem Go6502.executeInstruction_JSR_RTS (g6 : Go6502) (f : addressingMode)
    (rts : Instruction) (hs : g6.SP < 256)
    (hmn : g6.CurrentInstruction.Mnemonic = "JSR")
    (hf : addressingModes g6.CurrentInstruction.Mode = some f)
    (hrts : rts.Mnemonic = "RTS") (hrmode : rts.Mode = "IMP") :
    g6.ExecuteInstruction.2 = .ok ()
      ∧ f g6 = .ok g6.ExecuteInstruction.1.PC
      ∧ (Go6502.ExecuteInstruction
          { g6.ExecuteInstruction.1 with CurrentInstruction := rts }).2 = .ok ()
      ∧ (Go6502.ExecuteInstruction
          { g6.ExecuteInstruction.1 with CurrentInstruction := rts }).1.PC
          = (g6.PC + g6.CurrentInstruction.Size) % 65536
      ∧ (Go6502.ExecuteInstruction
          { g6.ExecuteInstruction.1 with CurrentInstruction := rts }).1.SP = g6.SP
      ∧ (Go6502.ExecuteInstruction
          { g6.ExecuteInstruction.1 with CurrentInstruction := rts }).1.A = g6.A
      ∧ (Go6502.ExecuteInstruction
          { g6.ExecuteInstruction.1 with CurrentInstruction := rts }).1.X = g6.X
      ∧ (Go6502.ExecuteInstruction
          { g6.ExecuteInstruction.1 with CurrentInstruction := rts }).1.Y = g6.Y
      ∧ (Go6502.ExecuteInstruction
          { g6.ExecuteInstruction.1 with CurrentInstruction := rts }).1.Stat = g6.Stat := by
  obtain ⟨t, ht⟩ := addressingModes_ok _ f g6 hf
  have n2 : 1 + 256 * g6.SP ≠ 1 + 256 * ((g6.SP + 255) % 256) := by omega
  have e2 : ((g6.SP + 254) % 256 + 2) % 256 = g6.SP := by omega
  have e1 : ((g6.SP + 254) % 256 + 1) % 256 = (g6.SP + 255) % 256 := by omega
  rw [Go6502.ExecuteInstruction_JSR g6 f t hs hmn hf ht,
    Go6502.ExecuteInstruction_RTS _ hrts hrmode]
  refine ⟨rfl, ht, rfl, ?_, e2, rfl, rfl, rfl, rfl⟩
  dsimp only
  rw [e2, e1, Function.update_same, Function.update_noteq n2, Function.update_same,
    or_shift8 _ _ (Nat.mod_lt _ (by decide)) (Nat.mod_lt _ (by decide))]
  omega

theorem Go6502.executeInstruction_JSR_RTS_witness :
    (0x00 : Nat) < 256
      ∧ (Go6502.ExecuteInstruction
          { Go6502.zero with
            PC := 0x1000, Mem := Memory.mk (Function.update (fun _ => 0) 0x1002 0x20)
            CurrentInstruction := ⟨0x20, "JSR", "ABS", 3⟩ }).1.PC = 0x2000
      ∧ (Go6502.ExecuteInstruction
          { (Go6502.ExecuteInstruction
              { Go6502.zero with
                PC := 0x1000, Mem := Memory.mk (Function.update (fun _ => 0) 0x1002 0x20)
                CurrentInstruction := ⟨0x20, "JSR", "ABS", 3⟩ }).1 with
            CurrentInstruction := ⟨0x60, "RTS", "IMP", 1⟩ }).1.PC = 0x1003
      ∧ (Go6502.ExecuteInstruction
          { (Go6502.ExecuteInstruction
              { Go6502.zero with
                PC := 0x1000, Mem := Memory.mk (Function.update (fun _ => 0) 0x1002 0x20)
                CurrentInstruction := ⟨0x20, "JSR", "ABS", 3⟩ }).1 with
            CurrentInstruction := ⟨0x60, "RTS", "IMP", 1⟩ }).1.SP = 0x00 :=
  have key := Go6502.executeInstruction_JSR_RTS
    { Go6502.zero with
      PC := 0x1000, Mem := Memory.mk (Function.update (fun _ => 0) 0x1002 0x20)
      CurrentInstruction := ⟨0x20, "JSR", "ABS", 3⟩ }
    absolute ⟨0x60, "RTS", "IMP", 1⟩ (show (0x00 : Nat) < 256 by decide) rfl rfl rfl rfl
  ⟨by decide, by decide,
    key.2.2.2.1.trans (show ((0x1000 : Nat) + 3) % 65536 = 0x1003 by decide),
    key.2.2.2.2.1⟩

theorem InstructionHandlers.INX_raw (g6 : Go6502) (ta : Option Nat) :
    InstructionHandlers.INX g6 ta
      = ({ g6 with
            X := (g6.X + 1) % 256
            Stat := { g6.Stat with
              Zero := decide ((g6.X + 1) % 256 = 0)
              Negative := decide (0 < (g6.X + 1) % 256 % 256 ∧ (g6.X + 1) % 256 % 256 < 128) } }, .ok ()) := by
  simp only [InstructionHandlers.INX, setZeroNegativeFlags_eq]

theorem InstructionHandlers.INY_raw (g6 : Go6502) (ta : Option Nat) :
    InstructionHandlers.INY g6 ta
      = ({ g6 with
            Y := (g6.Y + 1) % 256
            Stat := { g6.Stat with
              Zero := decide ((g6.Y + 1) % 256 = 0)
              Negative := decide (0 < (g6.Y + 1) % 256 % 256 ∧ (g6.Y + 1) % 256 % 256 < 128) } }, .ok ()) := by
  simp only [InstructionHandlers.INY, setZeroNegativeFlags_eq]

theorem InstructionHandlers.DEX_raw (g6 : Go6502) (ta : Option Nat) :
    InstructionHandlers.DEX g6 ta
      = ({ g6 with
            X := (g6.X + 255) % 256
            Stat := { g6.Stat with
              Zero := decide ((g6.X + 255) % 256 = 0)
              Negative := decide (0 < (g6.X + 255) % 256 % 256 ∧ (g6.X + 255) % 256 % 256 < 128) } }, .ok ()) := by
  simp only [InstructionHandlers.DEX, setZeroNegativeFlags_eq]

theorem InstructionHandlers.DEY_raw (g6 : Go6502) (ta : Option Nat) :
    InstructionHandlers.DEY g6 ta
      = ({ g6 with
            Y := (g6.Y + 255) % 256
            Stat := { g6.Stat with
              Zero := decide ((g6.Y + 255) % 256 = 0)
              Negative := decide (0 < (g6.Y + 255) % 256 % 256 ∧ (g6.Y + 255) % 256 % 256 < 128) } }, .ok ()) := by
  simp only [InstructionHandlers.DEY, setZeroNegativeFlags_eq]

theorem InstructionHandlers.INC_raw (g6 : Go6502) (addr : Nat) :
    InstructionHandlers.INC g6 (some addr)
      = ({ g6 with
            Mem := Memory.mk (Function.update g6.Mem.Mem addr ((g6.Mem.Mem addr + 1) % 256))
            Stat := { g6.Stat with
              Zero := decide ((g6.Mem.Mem addr + 1) % 256 = 0)
              Negative := decide (0 < (g6.Mem.Mem addr + 1) % 256 % 256 ∧ (g6.Mem.Mem addr + 1) % 256 % 256 < 128) } }, .ok ()) := by
  simp only [InstructionHandlers.INC, Memory.ReadByte, Memory.WriteByte, setZeroNegativeFlags_eq]

theorem InstructionHandlers.DEC_raw (g6 : Go6502) (addr : Nat) :
    InstructionHandlers.DEC g6 (some addr)
      = ({ g6 with
            Mem := Memory.mk (Function.update g6.Mem.Mem addr ((g6.Mem.Mem addr + 255) % 256))
            Stat := { g6.Stat with
              Zero := decide ((g6.Mem.Mem addr + 255) % 256 = 0)
              Negative := decide (0 < (g6.Mem.Mem addr + 255) % 256 % 256 ∧ (g6.Mem.Mem addr + 255) % 256 % 256 < 128) } }, .ok ()) := by
  simp only [InstructionHandlers.DEC, Memory.ReadByte, Memory.WriteByte, setZeroNegativeFlags_eq]

theorem byte_pred_eq (r : Nat) : (((r + 255) % 256 : Nat) : Int) = ((r : Int) - 1) % 256 := by
  omega

theorem byte_succ_FF (r : Nat) (h : r = 0xFF) :
    (r + 1) % 256 = 0x00 ∧ decide ((r + 1) % 256 = 0) = true := by
  subst h
  exact ⟨rfl, rfl⟩

theorem byte_pred_00 (r : Nat) (h : r = 0x00) :
    (r + 255) % 256 = 0xFF ∧ decide ((r + 255) % 256 = 0) = false := by
  subst h
  exact ⟨rfl, rfl⟩

/-- C32: the increment and decrement handlers wrap modulo 256 and leave Carry
and Overflow alone. For every engine state, INX and INY succeed and set the
register to `(r + 1) mod 256` (`0xFF` becomes `0x00` with Zero set), DEX and
DEY succeed and set it to `(r - 1) mod 256` (`0x00` becomes `0xFF` with Zero
clear), and INC and DEC do the same to the memory cell at the target address
and leave `A`, `X`, `Y` and every other memory cell unchanged; Zero is set
exactly when the new value is `0`. -/
theorem InstructionHandlers.inc_dec_spec (g6 : Go6502) (ta : Option Nat) (addr : Nat) :
    ((InstructionHandlers.INX g6 ta).2 = .ok ()
      ∧ (InstructionHandlers.INX g6 ta).1.X = (g6.X + 1) % 256
      ∧ (InstructionHandlers.INX g6 ta).1.Stat.Zero = decide ((g6.X + 1) % 256 = 0)
      ∧ (g6.X = 0xFF → (InstructionHandlers.INX g6 ta).1.X = 0x00 ∧ (InstructionHandlers.INX g6 ta).1.Stat.Zero = true)
      ∧ (InstructionHandlers.INX g6 ta).1.Stat.Carry = g6.Stat.Carry
      ∧ (InstructionHandlers.INX g6 ta).1.Stat.Overflow = g6.Stat.Overflow
      ∧ (InstructionHandlers.INX g6 ta).1.A = g6.A ∧ (InstructionHandlers.INX g6 ta).1.Y = g6.Y
      ∧ (InstructionHandlers.INX g6 ta).1.Mem = g6.Mem)
      ∧
    ((InstructionHandlers.INY g6 ta).2 = .ok ()
      ∧ (InstructionHandlers.INY g6 ta).1.Y = (g6.Y + 1) % 256
      ∧ (InstructionHandlers.INY g6 ta).1.Stat.Zero = decide ((g6.Y + 1) % 256 = 0)
      ∧ (g6.Y = 0xFF → (InstructionHandlers.INY g6 ta).1.Y = 0x00 ∧ (InstructionHandlers.INY g6 ta).1.Stat.Zero = true)
      ∧ (InstructionHandlers.INY g6 ta).1.Stat.Carry = g6.Stat.Carry
      ∧ (InstructionHandlers.INY g6 ta).1.Stat.Overflow = g6.Stat.Overflow
      ∧ (InstructionHandlers.INY g6 ta).1.A = g6.A ∧ (InstructionHandlers.INY g6 ta).1.X = g6.X
      ∧ (InstructionHandlers.INY g6 ta).1.Mem = g6.Mem)
      ∧
    ((InstructionHandlers.DEX g6 ta).2 = .ok ()
      ∧ ((InstructionHandlers.DEX g6 ta).1.X : Int) = ((g6.X : Int) - 1) % 256
      ∧ (InstructionHandlers.DEX g6 ta).1.Stat.Zero = decide ((InstructionHandlers.DEX g6 ta).1.X = 0)
      ∧ (g6.X = 0x00 → (InstructionHandlers.DEX g6 ta).1.X = 0xFF ∧ (InstructionHandlers.DEX g6 ta).1.Stat.Zero = false)
      ∧ (InstructionHandlers.DEX g6 ta).1.Stat.Carry = g6.Stat.Carry
      ∧ (InstructionHandlers.DEX g6 ta).1.Stat.Overflow = g6.Stat.Overflow
      ∧ (InstructionHandlers.DEX g6 ta).1.A = g6.A ∧ (InstructionHandlers.DEX g6 ta).1.Y = g6.Y
      ∧ (InstructionHandlers.DEX g6 ta).1.Mem = g6.Mem)
      ∧
    ((InstructionHandlers.DEY g6 ta).2 = .ok ()
      ∧ ((InstructionHandlers.DEY g6 ta).1.Y : Int) = ((g6.Y : Int) - 1) % 256
      ∧ (InstructionHandlers.DEY g6 ta).1.Stat.Zero = decide ((InstructionHandlers.DEY g6 ta).1.Y = 0)
      ∧ (g6.Y = 0x00 → (InstructionHandlers.DEY g6 ta).1.Y = 0xFF ∧ (InstructionHandlers.DEY g6 ta).1.Stat.Zero = false)
      ∧ (InstructionHandlers.DEY g6 ta).1.Stat.Carry = g6.Stat.Carry
      ∧ (InstructionHandlers.DEY g6 ta).1.Stat.Overflow = g6.Stat.Overflow
      ∧ (InstructionHandlers.DEY g6 ta).1.A = g6.A ∧ (InstructionHandlers.DEY g6 ta).1.X = g6.X
      ∧ (InstructionHandlers.DEY g6 ta).1.Mem = g6.Mem)
      ∧
    ((InstructionHandlers.INC g6 (some addr)).2 = .ok ()
      ∧ (InstructionHandlers.INC g6 (some addr)).1.Mem.Mem addr = (g6.Mem.Mem addr + 1) % 256
      ∧ (InstructionHandlers.INC g6 (some addr)).1.Stat.Zero = decide ((InstructionHandlers.INC g6 (some addr)).1.Mem.Mem addr = 0)
      ∧ (g6.Mem.Mem addr = 0xFF →
          (InstructionHandlers.INC g6 (some addr)).1.Mem.Mem addr = 0x00 ∧ (InstructionHandlers.INC g6 (some addr)).1.Stat.Zero = true)
      ∧ (∀ a, a ≠ addr → (InstructionHandlers.INC g6 (some addr)).1.Mem.Mem a = g6.Mem.Mem a)
      ∧ (InstructionHandlers.INC g6 (some addr)).1.Stat.Carry = g6.Stat.Carry
      ∧ (InstructionHandlers.INC g6 (some addr)).1.Stat.Overflow = g6.Stat.Overflow
      ∧ (InstructionHandlers.INC g6 (some addr)).1.A = g6.A ∧ (InstructionHandlers.INC g6 (some addr)).1.X = g6.X ∧ (InstructionHandlers.INC g6 (some addr)).1.Y = g6.Y)
      ∧
    ((InstructionHandlers.DEC g6 (some addr)).2 = .ok ()
      ∧ ((InstructionHandlers.DEC g6 (some addr)).1.Mem.Mem addr : Int) = ((g6.Mem.Mem addr : Int) - 1) % 256
      ∧ (InstructionHandlers.DEC g6 (some addr)).1.Stat.Zero = decide ((InstructionHandlers.DEC g6 (some addr)).1.Mem.Mem addr = 0)
      ∧ (g6.Mem.Mem addr = 0x00 →
          (InstructionHandlers.DEC g6 (some addr)).1.Mem.Mem addr = 0xFF ∧ (InstructionHandlers.DEC g6 (some addr)).1.Stat.Zero = false)
      ∧ (∀ a, a ≠ addr → (InstructionHandlers.DEC g6 (some addr)).1.Mem.Mem a = g6.Mem.Mem a)
      ∧ (InstructionHandlers.DEC g6 (some addr)).1.Stat.Carry = g6.Stat.Carry
      ∧ (InstructionHandlers.DEC g6 (some addr)).1.Stat.Overflow = g6.Stat.Overflow
      ∧ (InstructionHandlers.DEC g6 (some addr)).1.A = g6.A ∧ (InstructionHandlers.DEC g6 (some addr)).1.X = g6.X ∧ (InstructionHandlers.DEC g6 (some addr)).1.Y = g6.Y) := by
  rw [InstructionHandlers.INX_raw, InstructionHandlers.INY_raw, InstructionHandlers.DEX_raw,
    InstructionHandlers.DEY_raw, InstructionHandlers.INC_raw, InstructionHandlers.DEC_raw]
  refine ⟨⟨rfl, rfl, rfl, byte_succ_FF _, rfl, rfl, rfl, rfl, rfl⟩,
    ⟨rfl, rfl, rfl, byte_succ_FF _, rfl, rfl, rfl, rfl, rfl⟩,
    ⟨rfl, byte_pred_eq _, rfl, byte_pred_00 _, rfl, rfl, rfl, rfl, rfl⟩,
    ⟨rfl, byte_pred_eq _, rfl, byte_pred_00 _, rfl, rfl, rfl, rfl, rfl⟩, ?_, ?_⟩
  · dsimp only
    rw [Function.update_same]
    exact ⟨rfl, rfl, rfl, byte_succ_FF _, fun a ha => Function.update_noteq ha _ _,
      rfl, rfl, rfl, rfl, rfl⟩
  · dsimp only
    rw [Function.update_same]
    exact ⟨rfl, byte_pred_eq _, rfl, byte_pred_00 _, fun a ha => Function.update_noteq ha _ _,
      rfl, rfl, rfl, rfl, rfl⟩

theorem InstructionHandlers.inc_dec_spec_witness :
    ((InstructionHandlers.INX
          { Go6502.zero with X := 0xFF, Y := 0x00, Mem := Memory.mk (fun _ => 0xFF) } none).1.X
        = 0x00
      ∧ (InstructionHandlers.INX
          { Go6502.zero with X := 0xFF, Y := 0x00, Mem := Memory.mk (fun _ => 0xFF) }
          none).1.Stat.Zero = true)
      ∧ ((InstructionHandlers.DEY
          { Go6502.zero with X := 0xFF, Y := 0x00, Mem := Memory.mk (fun _ => 0xFF) } none).1.Y
        = 0xFF
      ∧ (InstructionHandlers.DEY
          { Go6502.zero with X := 0xFF, Y := 0x00, Mem := Memory.mk (fun _ => 0xFF) }
          none).1.Stat.Zero = false)
      ∧ ((InstructionHandlers.INC
          { Go6502.zero with X := 0xFF, Y := 0x00, Mem := Memory.mk (fun _ => 0xFF) }
          (some 0x10)).1.Mem.Mem 0x10 = 0x00
      ∧ (InstructionHandlers.INC
          { Go6502.zero with X := 0xFF, Y := 0x00, Mem := Memory.mk (fun _ => 0xFF) }
          (some 0x10)).1.Stat.Zero = true)
      ∧ (InstructionHandlers.INC
          { Go6502.zero with X := 0xFF, Y := 0x00, Mem := Memory.mk (fun _ => 0xFF) }
          (some 0x10)).1.Mem.Mem 0x11 = 0xFF :=
  have key := InstructionHandlers.inc_dec_spec
    { Go6502.zero with X := 0xFF, Y := 0x00, Mem := Memory.mk (fun _ => 0xFF) } none 0x10
  ⟨key.1.2.2.2.1 rfl, key.2.2.2.1.2.2.2.1 rfl, key.2.2.2.2.1.2.2.2.1 rfl,
    key.2.2.2.2.1.2.2.2.2.1 0x11 (by decide)⟩

end cpu
